import Mathlib

/-!
# Embedded ARM ELF32 loader (`src/elf/elf.c`)

A shallow embedding of the loader and the properties proved about it.

Modelling conventions.

* The target is 32-bit little-endian ARM: `uintptr_t`, `size_t`, `Elf32_Word`,
  `Elf32_Addr` and `Elf32_Off` are 32 bits wide, `Elf32_Half` is 16 bits wide,
  plain `char` is unsigned.  Unsigned machine arithmetic is `Nat` arithmetic
  followed by an explicit `% 4294967296`; `int` values are `Int`s wrapped into
  `[-2^31, 2^31)`.
* Memory is one flat byte-addressed store (`Mem`).  The image and the
  destination buffer both live in it, at the addresses the host passes in.
  Multi-byte fields are read and written little-endian, byte by byte.
* A pointer is its address (`Nat`, `0` is `NULL`).
* The handle (`Elf_handle`) and the nodes of the link map are objects returned
  by the allocator; they are kept outside `Mem` as Lean values and allocation
  is taken to succeed.  The allocator fields `alloc`/`uptr` carry no behaviour
  of their own and are left out of the record.
* Arithmetic that produces a pointer (`p + n`, `p++`, `a[i]`) wraps at `2^32`,
  so every pointer value stays below `2^32`; the bytes of one field are taken
  at consecutive addresses from the field's address on.
* A `while` loop that need not terminate takes a `fuel` bound and yields
  `none` when the bound is exhausted.  The `for` loops over an `Elf32_Half` or
  `Elf32_Word` counter run on the full range of the counter type.
* Code reached through a function pointer (init and fini arrays) is outside
  the program: such a call is recorded as an event and leaves memory and the
  handle as they are.
-/

namespace ElfLoader

/-! ## Machine words and memory -/

/-- Number of values of a 32-bit word (`2^32`). -/
abbrev WORD : Nat := 4294967296

/-- Flat byte-addressed memory. -/
abbrev Mem := Nat → Nat

/-- Read one byte (`uint8_t`). -/
def read8 (m : Mem) (a : Nat) : Nat := m a % 256

/-- Read a little-endian 16-bit field (`Elf32_Half`). -/
def read16 (m : Mem) (a : Nat) : Nat := read8 m a + 256 * read8 m (a + 1)

/-- Read a little-endian 32-bit field (`Elf32_Word`, `Elf32_Addr`, `Elf32_Off`). -/
def read32 (m : Mem) (a : Nat) : Nat :=
  read8 m a + 256 * read8 m (a + 1) + 65536 * read8 m (a + 2) + 16777216 * read8 m (a + 3)

/-- Write one byte. -/
def write8 (m : Mem) (a v : Nat) : Mem := fun x => if x = a then v % 256 else m x

/-- Write a little-endian 16-bit field. -/
def write16 (m : Mem) (a v : Nat) : Mem := write8 (write8 m a v) (a + 1) (v / 256)

/-- Write a little-endian 32-bit field. -/
def write32 (m : Mem) (a v : Nat) : Mem :=
  write8 (write8 (write8 (write8 m a v) (a + 1) (v / 256)) (a + 2) (v / 65536)) (a + 3)
    (v / 16777216)

/-- The libc `memset(d, c, n)`: the `n` bytes from `d` on become `c`. -/
def memset (m : Mem) (d c n : Nat) : Mem :=
  fun x => if d ≤ x ∧ x < d + n then c % 256 else m x

/-- The libc `memcpy(d, s, n)`: the `n` bytes from `d` on become the `n` bytes from `s` on. -/
def memcpy (m : Mem) (d s n : Nat) : Mem :=
  fun x => if d ≤ x ∧ x < d + n then m (s + (x - d)) else m x

/-- The characters of the NUL-terminated string at address `p`, terminator
excluded; `none` when no terminator is met within `fuel` bytes. -/
def cstring (m : Mem) : Nat → Nat → Option (List Nat)
  | 0, _ => none
  | fuel + 1, p =>
    if read8 m p = 0 then some []
    else
      match cstring m fuel ((p + 1) % WORD) with
      | none => none
      | some cs => some (read8 m p :: cs)

/-- Wrap an integer into the range of a 32-bit `int`. -/
def wrapInt (x : Int) : Int := (x + 2147483648) % 4294967296 - 2147483648

/-! ## ELF32 definitions -/

abbrev EI_CLASS : Nat := 4
abbrev EI_DATA : Nat := 5
abbrev EI_VERSION : Nat := 6

abbrev ELFCLASS32 : Nat := 1
abbrev ELFDATA2LSB : Nat := 1
abbrev ET_DYN : Nat := 3

abbrev PT_LOAD : Nat := 1
abbrev PT_DYNAMIC : Nat := 2

abbrev DT_NULL : Nat := 0
abbrev DT_NEEDED : Nat := 1
abbrev DT_PLTRELSZ : Nat := 2
abbrev DT_PLTGOT : Nat := 3
abbrev DT_HASH : Nat := 4
abbrev DT_STRTAB : Nat := 5
abbrev DT_SYMTAB : Nat := 6
abbrev DT_STRSZ : Nat := 10
abbrev DT_SYMENT : Nat := 11
abbrev DT_INIT : Nat := 12
abbrev DT_FINI : Nat := 13
abbrev DT_REL : Nat := 17
abbrev DT_RELSZ : Nat := 18
abbrev DT_RELENT : Nat := 19
abbrev DT_PLTREL : Nat := 20
abbrev DT_TEXTREL : Nat := 22
abbrev DT_JMPREL : Nat := 23
abbrev DT_INIT_ARRAY : Nat := 0x19
abbrev DT_INIT_ARRAYSZ : Nat := 0x1b
abbrev DT_FINI_ARRAY : Nat := 0x1a
abbrev DT_FINI_ARRAYSZ : Nat := 0x1c

abbrev SHN_UNDEF : Nat := 0
abbrev SHN_LORESERVE : Nat := 0xff00
abbrev SHN_ABS : Nat := 0xfff1

abbrev STB_GLOBAL : Nat := 1
abbrev STB_WEAK : Nat := 2

abbrev R_ARM_ABS32 : Nat := 2
abbrev R_ARM_JUMP_SLOT : Nat := 22
abbrev R_ARM_RELATIVE : Nat := 23

/-- Size of an `Elf32_Rel` entry (`sizeof( Elf32_Rel )`). -/
abbrev sizeof_Elf32_Rel : Nat := 8
/-- Size of an `Elf32_Dyn` entry (`sizeof( Elf32_Dyn )`). -/
abbrev sizeof_Elf32_Dyn : Nat := 8
/-- Size of an `Elf32_Addr` (`sizeof( Elf32_Addr )`). -/
abbrev sizeof_Elf32_Addr : Nat := 4

/-! Field accessors: `f m p` is the field `f` of the record at address `p`. -/

/-- Byte `i` of `e_ident` of the `Elf32_Ehdr` at `p`. -/
def e_ident (m : Mem) (p i : Nat) : Nat := read8 m (p + i)
/-- Field `e_type` of the `Elf32_Ehdr` at `p`. -/
def e_type (m : Mem) (p : Nat) : Nat := read16 m (p + 16)
/-- Field `e_machine` of the `Elf32_Ehdr` at `p`. -/
def e_machine (m : Mem) (p : Nat) : Nat := read16 m (p + 18)
/-- Field `e_phoff` of the `Elf32_Ehdr` at `p`. -/
def e_phoff (m : Mem) (p : Nat) : Nat := read32 m (p + 28)
/-- Field `e_phentsize` of the `Elf32_Ehdr` at `p`. -/
def e_phentsize (m : Mem) (p : Nat) : Nat := read16 m (p + 42)
/-- Field `e_phnum` of the `Elf32_Ehdr` at `p`. -/
def e_phnum (m : Mem) (p : Nat) : Nat := read16 m (p + 44)

/-- Field `p_type` of the `Elf32_Phdr` at `p`. -/
def p_type (m : Mem) (p : Nat) : Nat := read32 m p
/-- Field `p_offset` of the `Elf32_Phdr` at `p`. -/
def p_offset (m : Mem) (p : Nat) : Nat := read32 m (p + 4)
/-- Field `p_vaddr` of the `Elf32_Phdr` at `p`. -/
def p_vaddr (m : Mem) (p : Nat) : Nat := read32 m (p + 8)
/-- Field `p_filesz` of the `Elf32_Phdr` at `p`. -/
def p_filesz (m : Mem) (p : Nat) : Nat := read32 m (p + 16)
/-- Field `p_memsz` of the `Elf32_Phdr` at `p`. -/
def p_memsz (m : Mem) (p : Nat) : Nat := read32 m (p + 20)
/-- Field `p_align` of the `Elf32_Phdr` at `p`. -/
def p_align (m : Mem) (p : Nat) : Nat := read32 m (p + 28)

/-- Field `st_name` of the `Elf32_Sym` at `p`. -/
def st_name (m : Mem) (p : Nat) : Nat := read32 m p
/-- Field `st_value` of the `Elf32_Sym` at `p`. -/
def st_value (m : Mem) (p : Nat) : Nat := read32 m (p + 4)
/-- Field `st_info` of the `Elf32_Sym` at `p`. -/
def st_info (m : Mem) (p : Nat) : Nat := read8 m (p + 12)
/-- Field `st_shndx` of the `Elf32_Sym` at `p`. -/
def st_shndx (m : Mem) (p : Nat) : Nat := read16 m (p + 14)

/-- Field `d_tag` of the `Elf32_Dyn` at `p`, as its 32-bit pattern. -/
def d_tag (m : Mem) (p : Nat) : Nat := read32 m p
/-- Field `d_un` (`d_val` or `d_ptr`) of the `Elf32_Dyn` at `p`. -/
def d_un (m : Mem) (p : Nat) : Nat := read32 m (p + 4)

/-- Field `r_offset` of the `Elf32_Rel` at `p`. -/
def r_offset (m : Mem) (p : Nat) : Nat := read32 m p
/-- Field `r_info` of the `Elf32_Rel` at `p`. -/
def r_info (m : Mem) (p : Nat) : Nat := read32 m (p + 4)

/-- The macro `ELF32_PH_GET( header, index )`: address of program header `index`. -/
def ELF32_PH_GET (m : Mem) (header index : Nat) : Nat :=
  (header + e_phoff m header + e_phentsize m header * index) % WORD

/-- The macro `ELF32_PH_CONTENT( header, section )`: address of the content of a segment. -/
def ELF32_PH_CONTENT (m : Mem) (header sect : Nat) : Nat :=
  (header + p_offset m sect) % WORD

/-- The macro `ELF32_ST_BIND( info )`. -/
def ELF32_ST_BIND (info : Nat) : Nat := info >>> 4

/-- The macro `ELF32_R_SYM( info )`. -/
def ELF32_R_SYM (info : Nat) : Nat := info >>> 8

/-- The macro `ELF32_R_TYPE( info )`: the cast to `uint8_t`. -/
def ELF32_R_TYPE (info : Nat) : Nat := info % 256

/-! ## Handle, error latch, link map -/

abbrev ELF_RTLD_DEFAULT : Nat := 0x0
abbrev ELF_RTLD_SKIP_CHECK : Nat := 0x1

/-- The flag bit `_ELF_ERROR` (`0x1 << 15`). -/
abbrev _ELF_ERROR : Nat := 0x8000

/-- A pointer to `Elf_symbolNode`: `null`, or a node with its four fields. -/
inductive Elf_symbolNode where
  | null : Elf_symbolNode
  | node (hash : Int) (symbol : Nat) (lt gt : Elf_symbolNode) : Elf_symbolNode
  deriving DecidableEq, Repr

/-- The `Elf_handle` record; `flags` is the 32-bit pattern of the `int`, `error`
the message the `const char *` points to. -/
structure Elf_handle where
  flags : Nat
  error : String
  header : Nat
  globalSymbols : Elf_symbolNode
  finiArray : Nat
  finiLength : Nat
  deriving DecidableEq, Repr

def _elf_error_magic_id : String := "Magic ID"
def _elf_error_class : String := "Class"
def _elf_error_endian : String := "Endian"
def _elf_error_version : String := "Version"
def _elf_error_type : String := "Type"
def _elf_error_dynamic_section : String := "Dynamic section"
def _elf_error_dependency : String := "Dependency"
def _elf_error_d_tag : String := "D_tag"
def _elf_error_missing_entries : String := "Missing entries"
def _elf_error_unresolved_symbol : String := "Unresolved symbol"
def _elf_error_unimplemented_st_shndx : String := "Unimplemented st_shndx"
def _elf_error_zero_sized_rel : String := "Zero sized rel"
def _elf_error_unimplemented_relocation : String := "Unimplemented relocation"

/-- The statement pair `handle->flags |= _ELF_ERROR; handle->error = msg;` that
every failure point executes. -/
def elf_set_error (handle : Elf_handle) (msg : String) : Elf_handle :=
  { handle with flags := handle.flags ||| _ELF_ERROR, error := msg }

/-- The loop of `_elf_hash`: `while ( *str ) { hash = hash * 31 + *str; str++; }`. -/
def _elf_hash_loop (hash : Int) : List Nat → Int
  | [] => hash
  | c :: str => if c = 0 then hash else _elf_hash_loop (wrapInt (hash * 31 + c)) str

/-- The function `_elf_hash`, on the characters of the string, each an unsigned
`char` (a `0` or the end of the list is the terminator). -/
def _elf_hash (str : List Nat) : Int := _elf_hash_loop 7 str

/-- The function `_elf_check`. -/
def _elf_check (m : Mem) (handle : Elf_handle) : Elf_handle :=
  let ident4 := read32 m handle.header
  if ident4 ≠ 0x464C457F then elf_set_error handle _elf_error_magic_id
  else if e_ident m handle.header EI_CLASS ≠ ELFCLASS32 then
    elf_set_error handle _elf_error_class
  else if e_ident m handle.header EI_DATA ≠ ELFDATA2LSB then
    elf_set_error handle _elf_error_endian
  else if e_ident m handle.header EI_VERSION ≠ 1 then
    elf_set_error handle _elf_error_version
  else if e_type m handle.header ≠ ET_DYN then elf_set_error handle _elf_error_type
  else handle

/-- The loop of `_elf_tree_find`, started at the node `map` points to.  Of the
three tests of the loop body the last one, `hash > ( *map )->hash`, is the only
case left when it is reached. -/
def _elf_tree_find_loop : Elf_symbolNode → Int → Nat
  | .null, _ => 0
  | .node h symbol lt gt, hash =>
    if h = hash then symbol
    else if hash < h then _elf_tree_find_loop lt hash
    else _elf_tree_find_loop gt hash

/-- The function `_elf_tree_find`; `0` is `NULL`. -/
def _elf_tree_find (handle : Elf_handle) (hash : Int) : Nat :=
  _elf_tree_find_loop handle.globalSymbols hash

/-- The loop of `_elf_tree_add` and the allocation that follows it (as in
`_elf_tree_find`, the third test is the only case left). -/
def _elf_tree_add_loop : Elf_symbolNode → Int → Nat → Elf_symbolNode
  | .null, hash, sym => .node hash sym .null .null
  | .node h symbol lt gt, hash, sym =>
    if hash = h then .node h sym lt gt
    else if hash < h then .node h symbol (_elf_tree_add_loop lt hash sym) gt
    else .node h symbol lt (_elf_tree_add_loop gt hash sym)

/-- The function `_elf_tree_add`. -/
def _elf_tree_add (handle : Elf_handle) (hash : Int) (sym : Nat) : Elf_handle :=
  { handle with globalSymbols := _elf_tree_add_loop handle.globalSymbols hash sym }

/-- The function `elf_dlmemopen` (and `elf_dlmemopen_alloc`, which differs in the
allocator only); `error0` stands for the contents of the `error` field of the
freshly allocated handle, which the function does not initialise. -/
def elf_dlmemopen (m : Mem) (buf flag : Nat) (error0 : String) : Elf_handle :=
  let handle : Elf_handle :=
    { flags := flag, error := error0, header := buf, globalSymbols := .null,
      finiArray := 0, finiLength := 0 }
  if handle.flags &&& ELF_RTLD_SKIP_CHECK = 0 then _elf_check m handle else handle

/-- The function `elf_dlerror`: the returned message (`none` is `NULL`) and the
handle afterwards. -/
def elf_dlerror (handle : Elf_handle) : Option String × Elf_handle :=
  if handle.flags &&& _ELF_ERROR ≠ 0 then
    (some handle.error, { handle with flags := handle.flags &&& (WORD - 1 - _ELF_ERROR) })
  else (none, handle)

/-- The function `elf_mapsym`. -/
def elf_mapsym (handle : Elf_handle) (name : List Nat) (sym : Nat) : Elf_handle :=
  let hash := _elf_hash name
  _elf_tree_add handle hash sym

/-- The function `elf_dlsym`. -/
def elf_dlsym (handle : Elf_handle) (symbol : List Nat) : Nat :=
  _elf_tree_find handle (_elf_hash symbol)

/-! ## Size planner -/

/-- The loop of `elf_lbounds`; `n` bounds the iterations left, `ii` and `high`
are the loop variables.  A division by `p_align = 0` has no defined result. -/
def elf_lbounds_loop (m : Mem) (header : Nat) : Nat → Nat → Nat → Option Nat
  | 0, _, _ => none
  | n + 1, ii, high =>
    if ii < e_phnum m header then
      let program := ELF32_PH_GET m header ii
      if p_type m program = PT_LOAD then
        if p_align m program = 0 then none
        else
          let segMax := (p_vaddr m program + p_memsz m program) % WORD
          let segMax :=
            ((segMax + WORD - 1) % WORD / p_align m program + 1) * p_align m program % WORD
          elf_lbounds_loop m header n (ii + 1) (if segMax > high then segMax else high)
      else elf_lbounds_loop m header n (ii + 1) high
    else some high

/-- The function `elf_lbounds`; the `Elf32_Half` counter takes at most 65536 values. -/
def elf_lbounds (m : Mem) (handle : Elf_handle) : Option Nat :=
  elf_lbounds_loop m handle.header 65536 0 0

/-! ## Linking -/

/-- How a block of statements ends: control goes on to the next statement, or
the enclosing function returns. -/
inductive Flow (α : Type) where
  | go : α → Flow α
  | ret : α → Flow α
  deriving DecidableEq

/-- What the program does to the world outside memory and handle. -/
inductive Elf_event where
  | call (f : Nat) : Elf_event
  | free_node (hash : Int) : Elf_event
  | free_handle : Elf_event
  deriving DecidableEq, Repr

/-- Memory, handle and the events so far (oldest first). -/
structure Elf_state where
  mem : Mem
  handle : Elf_handle
  events : List Elf_event

/-- The locals of `elf_link` that the scan of the dynamic section fills in. -/
structure Elf_dynamic where
  pltrelsz : Nat
  strsz : Nat
  syment : Nat
  relsz : Nat
  relent : Nat
  initLength : Nat
  reltab : Nat
  jmpReltab : Nat
  symtab : Nat
  hash : Nat
  strtab : Nat
  initArray : Nat
  deriving DecidableEq, Repr

/-- The initial values of those locals. -/
def Elf_dynamic.zero : Elf_dynamic :=
  { pltrelsz := 0, strsz := 0, syment := 0, relsz := 0, relent := 0, initLength := 0,
    reltab := 0, jmpReltab := 0, symtab := 0, hash := 0, strtab := 0, initArray := 0 }

/-- First loop of `elf_link`: copy the loadable segments into the buffer. -/
def elf_link_load (header buf : Nat) : Nat → Nat → Mem → Mem
  | 0, _, m => m
  | n + 1, ii, m =>
    if ii < e_phnum m header then
      let h := ELF32_PH_GET m header ii
      if p_type m h = PT_LOAD then
        let dest := (buf + p_vaddr m h) % WORD
        let m1 := memset m ((dest + p_filesz m h) % WORD) 0
          ((p_memsz m h + WORD - p_filesz m h) % WORD)
        let m2 := memcpy m1 dest (ELF32_PH_CONTENT m1 header h) (p_filesz m1 h)
        elf_link_load header buf n (ii + 1) m2
      else elf_link_load header buf n (ii + 1) m
    else m

/-- Second loop of `elf_link`: the first program header of type `PT_DYNAMIC`,
`0` (`NULL`) when the loop ends without one. -/
def elf_link_find_dynamic (m : Mem) (header : Nat) : Nat → Nat → Nat
  | 0, _ => 0
  | n + 1, ii =>
    if ii < e_phnum m header then
      let sect := ELF32_PH_GET m header ii
      if p_type m sect = PT_DYNAMIC then sect
      else elf_link_find_dynamic m header n (ii + 1)
    else 0

/-- Third loop of `elf_link`: the scan of the dynamic section from the entry at
`dynamics` on. -/
def elf_link_scan (m : Mem) (header buf : Nat) :
    Nat → Nat → Elf_handle → Elf_dynamic → Option (Flow (Elf_handle × Elf_dynamic))
  | 0, _, _, _ => none
  | fuel + 1, dynamics, handle, d =>
    let tag := d_tag m dynamics
    let next := (dynamics + sizeof_Elf32_Dyn) % WORD
    if tag = DT_NULL then some (.go (handle, d))
    else if tag = DT_NEEDED then
      some (.ret (elf_set_error handle _elf_error_dependency, d))
    else if tag = DT_PLTRELSZ then
      elf_link_scan m header buf fuel next handle { d with pltrelsz := d_un m dynamics }
    else if tag = DT_HASH then
      elf_link_scan m header buf fuel next handle
        { d with hash := (header + d_un m dynamics) % WORD }
    else if tag = DT_STRTAB then
      elf_link_scan m header buf fuel next handle
        { d with strtab := (header + d_un m dynamics) % WORD }
    else if tag = DT_SYMTAB then
      elf_link_scan m header buf fuel next handle
        { d with symtab := (buf + d_un m dynamics) % WORD }
    else if tag = DT_STRSZ then
      elf_link_scan m header buf fuel next handle { d with strsz := d_un m dynamics }
    else if tag = DT_SYMENT then
      elf_link_scan m header buf fuel next handle { d with syment := d_un m dynamics }
    else if tag = DT_REL then
      elf_link_scan m header buf fuel next handle
        { d with reltab := (header + d_un m dynamics) % WORD }
    else if tag = DT_RELSZ then
      elf_link_scan m header buf fuel next handle { d with relsz := d_un m dynamics }
    else if tag = DT_RELENT then
      elf_link_scan m header buf fuel next handle { d with relent := d_un m dynamics }
    else if tag = DT_JMPREL then
      elf_link_scan m header buf fuel next handle
        { d with jmpReltab := (header + d_un m dynamics) % WORD }
    else if tag = DT_INIT_ARRAY then
      elf_link_scan m header buf fuel next handle
        { d with initArray := (d_un m dynamics + buf) % WORD }
    else if tag = DT_INIT_ARRAYSZ then
      elf_link_scan m header buf fuel next handle
        { d with initLength := d_un m dynamics / sizeof_Elf32_Addr }
    else if tag = DT_FINI_ARRAY then
      elf_link_scan m header buf fuel next
        { handle with finiArray := (d_un m dynamics + buf) % WORD } d
    else if tag = DT_FINI_ARRAYSZ then
      elf_link_scan m header buf fuel next
        { handle with finiLength := d_un m dynamics / sizeof_Elf32_Addr } d
    else if tag = DT_PLTGOT ∨ tag = DT_INIT ∨ tag = DT_FINI ∨ tag = DT_PLTREL
        ∨ tag = DT_TEXTREL ∨ tag = 0x6FFFFFFA then
      elf_link_scan m header buf fuel next handle d
    else some (.ret (elf_set_error handle _elf_error_d_tag, d))

/-- Address of symbol-table entry `ii`: `symtab + ( ii * syment )`. -/
def elf_link_symbol_at (d : Elf_dynamic) (ii : Nat) : Nat := (d.symtab + ii * d.syment) % WORD

/-- Tail of the body of the resolution loop: the `if` that publishes a symbol
whose binding has the `STB_GLOBAL` bit. -/
def elf_link_publish (fuel : Nat) (d : Elf_dynamic) (symbol : Nat) (m : Mem)
    (handle : Elf_handle) : Option (Flow (Mem × Elf_handle)) :=
  if ELF32_ST_BIND (st_info m symbol) &&& STB_GLOBAL ≠ 0 then
    match cstring m fuel ((d.strtab + st_name m symbol) % WORD) with
    | none => none
    | some name => some (.go (m, elf_mapsym handle name (st_value m symbol)))
  else some (.go (m, handle))

/-- Body of the resolution loop of `elf_link` for the entry at index `ii`. -/
def elf_link_symbol (fuel buf : Nat) (d : Elf_dynamic) (ii : Nat) (m : Mem)
    (handle : Elf_handle) : Option (Flow (Mem × Elf_handle)) :=
  let symbol := elf_link_symbol_at d ii
  if st_shndx m symbol = SHN_UNDEF then
    match cstring m fuel ((d.strtab + st_name m symbol) % WORD) with
    | none => none
    | some name =>
      let resolved := _elf_tree_find handle (_elf_hash name)
      if resolved = 0 ∧ ELF32_ST_BIND (st_info m symbol) &&& STB_WEAK = 0 then
        some (.ret (m, elf_set_error handle _elf_error_unresolved_symbol))
      else
        let m1 := write16 m (symbol + 14) SHN_ABS
        let m2 := write32 m1 (symbol + 4) resolved
        elf_link_publish fuel d symbol m2 handle
  else if st_shndx m symbol < SHN_LORESERVE then
    let m1 := write16 m (symbol + 14) SHN_ABS
    let m2 := write32 m1 (symbol + 4) ((st_value m1 symbol + buf) % WORD)
    elf_link_publish fuel d symbol m2 handle
  else if st_shndx m symbol ≠ SHN_ABS then
    some (.ret (m, elf_set_error handle _elf_error_unimplemented_st_shndx))
  else elf_link_publish fuel d symbol m handle

/-- Fourth loop of `elf_link`: symbol resolution from index `ii` on; `n` bounds the
iterations left. -/
def elf_link_resolve (fuel buf : Nat) (d : Elf_dynamic) :
    Nat → Nat → Mem → Elf_handle → Option (Flow (Mem × Elf_handle))
  | 0, _, _, _ => none
  | n + 1, ii, m, handle =>
    if ii < read32 m (d.hash + 4) then
      match elf_link_symbol fuel buf d ii m handle with
      | none => none
      | some (.ret s) => some (.ret s)
      | some (.go (m1, handle1)) => elf_link_resolve fuel buf d n (ii + 1) m1 handle1
    else some (.go (m, handle))

/-- Body of the loop of `_elf_relocate` for the entry at address `reltab`. -/
def _elf_relocate_entry (m : Mem) (handle : Elf_handle) (buf reltab symtab syment : Nat) :
    Flow (Mem × Elf_handle) :=
  let rel := reltab
  let symbol := (symtab + ELF32_R_SYM (r_info m rel) * syment) % WORD
  let ref := (buf + r_offset m rel) % WORD
  if ELF32_R_TYPE (r_info m rel) = R_ARM_ABS32 then
    .go (write32 m ref ((read32 m ref + st_value m symbol) % WORD), handle)
  else if ELF32_R_TYPE (r_info m rel) = R_ARM_JUMP_SLOT then
    .go (write32 m ref (st_value m symbol), handle)
  else if ELF32_R_TYPE (r_info m rel) = R_ARM_RELATIVE then
    .go (write32 m ref ((read32 m ref + buf) % WORD), handle)
  else .ret (m, elf_set_error handle _elf_error_unimplemented_relocation)

/-- The loop of `_elf_relocate`. -/
def _elf_relocate_loop (buf entsize tableEnd symtab syment : Nat) :
    Nat → Nat → Mem → Elf_handle → Option (Mem × Elf_handle)
  | 0, _, _, _ => none
  | fuel + 1, reltab, m, handle =>
    if reltab < tableEnd then
      match _elf_relocate_entry m handle buf reltab symtab syment with
      | .ret s => some s
      | .go (m1, handle1) =>
        _elf_relocate_loop buf entsize tableEnd symtab syment fuel
          ((reltab + entsize) % WORD) m1 handle1
    else some (m, handle)

/-- The function `_elf_relocate`. -/
def _elf_relocate (fuel : Nat) (m : Mem) (handle : Elf_handle)
    (buf reltab entsize limit symtab syment : Nat) : Option (Mem × Elf_handle) :=
  let tableEnd := (reltab + limit) % WORD
  _elf_relocate_loop buf entsize tableEnd symtab syment fuel reltab m handle

/-- Last loop of `elf_link`: the calls through the init array. -/
def elf_link_init (m : Mem) (initArray initLength : Nat) : List Elf_event :=
  (List.range initLength).map
    (fun ii => Elf_event.call (read32 m ((initArray + sizeof_Elf32_Addr * ii) % WORD)))

/-- The function `elf_link` from the jump-table relocation on (`if ( jmpReltab )` to the end). -/
def elf_link_jmprel (fuel buf : Nat) (d : Elf_dynamic) (m : Mem) (handle : Elf_handle) :
    Option Elf_state :=
  if d.jmpReltab ≠ 0 then
    match _elf_relocate fuel m handle buf d.jmpReltab sizeof_Elf32_Rel d.pltrelsz d.symtab
        d.syment with
    | none => none
    | some (m1, handle1) =>
      if handle1.flags &&& _ELF_ERROR ≠ 0 then
        some { mem := m1, handle := handle1, events := [] }
      else
        some { mem := m1, handle := handle1, events := elf_link_init m1 d.initArray d.initLength }
  else some { mem := m, handle := handle, events := elf_link_init m d.initArray d.initLength }

/-- The function `elf_link` from the symbol relocation on (`if ( reltab )` to the end). -/
def elf_link_rel (fuel buf : Nat) (d : Elf_dynamic) (m : Mem) (handle : Elf_handle) :
    Option Elf_state :=
  if d.reltab ≠ 0 then
    if d.relsz = 0 ∨ d.relent = 0 then
      some { mem := m, handle := elf_set_error handle _elf_error_zero_sized_rel, events := [] }
    else
      match _elf_relocate fuel m handle buf d.reltab d.relent d.relsz d.symtab d.syment with
      | none => none
      | some (m1, handle1) =>
        if handle1.flags &&& _ELF_ERROR ≠ 0 then
          some { mem := m1, handle := handle1, events := [] }
        else elf_link_jmprel fuel buf d m1 handle1
  else elf_link_jmprel fuel buf d m handle

/-- The function `elf_link` from the symbol resolution on, entered at loop index `ii`. -/
def elf_link_symbols (fuel buf : Nat) (d : Elf_dynamic) (n ii : Nat) (m : Mem)
    (handle : Elf_handle) : Option Elf_state :=
  match elf_link_resolve fuel buf d n ii m handle with
  | none => none
  | some (.ret (m1, handle1)) => some { mem := m1, handle := handle1, events := [] }
  | some (.go (m1, handle1)) => elf_link_rel fuel buf d m1 handle1

/-- The function `elf_link` from the scan of the dynamic section on. -/
def elf_link_dynamic (fuel buf dynamicSection : Nat) (m : Mem) (handle : Elf_handle) :
    Option Elf_state :=
  let header := handle.header
  match elf_link_scan m header buf fuel (ELF32_PH_CONTENT m header dynamicSection) handle
      Elf_dynamic.zero with
  | none => none
  | some (.ret (handle1, _)) => some { mem := m, handle := handle1, events := [] }
  | some (.go (handle1, d)) =>
    if d.hash = 0 ∨ d.strtab = 0 ∨ d.symtab = 0 ∨ d.syment = 0 ∨ d.strsz = 0 then
      some { mem := m, handle := elf_set_error handle1 _elf_error_missing_entries,
             events := [] }
    else elf_link_symbols fuel buf d WORD 1 m handle1

/-- The function `elf_link`. -/
def elf_link (fuel : Nat) (m : Mem) (handle : Elf_handle) (buf : Nat) : Option Elf_state :=
  let header := handle.header
  let m1 := elf_link_load header buf 65536 0 m
  let dynamicSection := elf_link_find_dynamic m1 header 65536 0
  if dynamicSection = 0 then
    some { mem := m1, handle := elf_set_error handle _elf_error_dynamic_section,
           events := [] }
  else elf_link_dynamic fuel buf dynamicSection m1 handle

/-! ## Closing -/

/-- The function `_elf_tree_free` on a non-null node: the nodes in the order they are freed. -/
def _elf_tree_free : Elf_symbolNode → List Elf_event
  | .null => []
  | .node h _ lt gt => _elf_tree_free lt ++ _elf_tree_free gt ++ [Elf_event.free_node h]

/-- The function `elf_dlclose`: the events of closing, in order. -/
def elf_dlclose (m : Mem) (handle : Elf_handle) : List Elf_event :=
  (List.range handle.finiLength).map
      (fun ii => Elf_event.call (read32 m ((handle.finiArray + sizeof_Elf32_Addr * ii) % WORD)))
    ++ _elf_tree_free handle.globalSymbols ++ [Elf_event.free_handle]

/-! ## Sequences of host calls -/

/-- The handle after the host's calls `elf_mapsym( handle, name, sym )` for the
pairs of `calls`, first call first. -/
def elf_mapsym_calls (handle : Elf_handle) (calls : List (List Nat × Nat)) : Elf_handle :=
  calls.foldl (fun h c => elf_mapsym h c.1 c.2) handle

/-- The handle after the calls `_elf_tree_add( handle, hash, sym )` for the pairs of
`calls`, first call first. -/
def _elf_tree_add_calls (handle : Elf_handle) (calls : List (Int × Nat)) : Elf_handle :=
  calls.foldl (fun h c => _elf_tree_add h c.1 c.2) handle

/-- The address of the last call among `calls` whose name hashes to `hash`,
`cur` when there is none. -/
def last_mapped : List (List Nat × Nat) → Int → Nat → Nat
  | [], _, cur => cur
  | c :: calls, hash, cur => last_mapped calls hash (if _elf_hash c.1 = hash then c.2 else cur)

/-! ## What the resolution loop publishes -/

/-- The state a block ends in, whichever way it ends. -/
def Flow.val {α : Type} : Flow α → α
  | .go a => a
  | .ret a => a

/-- The key under which the body of the resolution loop publishes the entry at
`symbol`, read from the memory `m1` the body leaves: the hash of the entry's name
when its binding has the `STB_GLOBAL` bit, nothing otherwise. -/
def elf_link_published_key (fuel : Nat) (d : Elf_dynamic) (symbol : Nat) (m1 : Mem) :
    Option Int :=
  if ELF32_ST_BIND (st_info m1 symbol) &&& STB_GLOBAL ≠ 0 then
    (cstring m1 fuel ((d.strtab + st_name m1 symbol) % WORD)).map _elf_hash
  else none

/-- The keys the resolution loop publishes when run from index `ii` on, in order. -/
def elf_link_resolve_keys (fuel buf : Nat) (d : Elf_dynamic) :
    Nat → Nat → Mem → Elf_handle → List Int
  | 0, _, _, _ => []
  | n + 1, ii, m, handle =>
    if ii < read32 m (d.hash + 4) then
      match elf_link_symbol fuel buf d ii m handle with
      | some (.go (m1, handle1)) =>
        (elf_link_published_key fuel d (elf_link_symbol_at d ii) m1).toList
          ++ elf_link_resolve_keys fuel buf d n (ii + 1) m1 handle1
      | _ => []
    else []

/-! ## The size planner as the specification words it -/

/-- The value `x` rounded up to a multiple of `a`. -/
def align_up (x a : Nat) : Nat := (x + a - 1) / a * a

/-- The program headers of type load, by address, in table order. -/
def load_headers (m : Mem) (header : Nat) : List Nat :=
  ((List.range (e_phnum m header)).map (ELF32_PH_GET m header)).filter
    (fun p => decide (p_type m p = PT_LOAD))

/-- The specification's size: the maximum over the loadable segments of
`vaddr + memsz` rounded up to the segment's alignment, 0 when there is none. -/
def size_planner (m : Mem) (header : Nat) : Nat :=
  ((load_headers m header).map
    (fun p => align_up (p_vaddr m p + p_memsz m p) (p_align m p))).foldl max 0

/-- What a loadable segment must satisfy for `elf_lbounds` to round it as the
specification does. -/
def segment_fits (m : Mem) (p : Nat) : Prop :=
  0 < p_align m p
  ∧ align_up (p_vaddr m p + p_memsz m p) (p_align m p) < WORD
  ∧ (p_vaddr m p + p_memsz m p = 0 → WORD % p_align m p = 0)

instance (m : Mem) (p : Nat) : Decidable (segment_fits m p) := by
  unfold segment_fits
  infer_instance

/-! ## The loader contract -/

/-- The loader contract for the program header at `p` of the image in `m0`, on the
memory `m1`: the `p_filesz` bytes from `buf + p_vaddr` on are the image's bytes
from `p_offset` on, and the bytes up to `p_memsz` after them are zero. -/
def segment_loaded (m0 : Mem) (header buf : Nat) (m1 : Mem) (p : Nat) : Prop :=
  (∀ k, k < p_filesz m0 p →
      read8 m1 ((buf + p_vaddr m0 p) % WORD + k) = read8 m0 (ELF32_PH_CONTENT m0 header p + k))
  ∧ (∀ k, k < p_memsz m0 p → p_filesz m0 p ≤ k →
      read8 m1 ((buf + p_vaddr m0 p) % WORD + k) = 0)

instance (m0 : Mem) (header buf : Nat) (m1 : Mem) (p : Nat) :
    Decidable (segment_loaded m0 header buf m1 p) := by
  unfold segment_loaded
  infer_instance

/-- The image lies in `[header, header + L)`: the ELF header's fields, every
program header, and the file content of every loadable segment. -/
def image_within (m : Mem) (header L : Nat) : Prop :=
  46 ≤ L
  ∧ (∀ i, i < e_phnum m header →
      header ≤ ELF32_PH_GET m header i ∧ ELF32_PH_GET m header i + 32 ≤ header + L)
  ∧ (∀ i, i < e_phnum m header → p_type m (ELF32_PH_GET m header i) = PT_LOAD →
      header ≤ ELF32_PH_CONTENT m header (ELF32_PH_GET m header i)
      ∧ ELF32_PH_CONTENT m header (ELF32_PH_GET m header i)
          + p_filesz m (ELF32_PH_GET m header i) ≤ header + L)

instance (m : Mem) (header L : Nat) : Decidable (image_within m header L) := by
  unfold image_within
  infer_instance

/-- Every loadable segment has `p_filesz ≤ p_memsz` and its destination
`[buf + p_vaddr, buf + p_vaddr + p_memsz)` lies in the buffer `[buf, buf + N)`,
below `2^32`. -/
def segments_within (m : Mem) (header buf N : Nat) : Prop :=
  ∀ i, i < e_phnum m header → p_type m (ELF32_PH_GET m header i) = PT_LOAD →
    p_filesz m (ELF32_PH_GET m header i) ≤ p_memsz m (ELF32_PH_GET m header i)
    ∧ buf ≤ (buf + p_vaddr m (ELF32_PH_GET m header i)) % WORD
    ∧ (buf + p_vaddr m (ELF32_PH_GET m header i)) % WORD + p_memsz m (ELF32_PH_GET m header i)
        ≤ buf + N
    ∧ buf + N ≤ WORD

instance (m : Mem) (header buf N : Nat) : Decidable (segments_within m header buf N) := by
  unfold segments_within
  infer_instance

/-- The destinations of the program headers at `p` and `q` do not overlap. -/
def segments_apart (m : Mem) (buf p q : Nat) : Prop :=
  (buf + p_vaddr m p) % WORD + p_memsz m p ≤ (buf + p_vaddr m q) % WORD
  ∨ (buf + p_vaddr m q) % WORD + p_memsz m q ≤ (buf + p_vaddr m p) % WORD

instance (m : Mem) (buf p q : Nat) : Decidable (segments_apart m buf p q) := by
  unfold segments_apart
  infer_instance

/-- The destinations of two different loadable segments do not overlap. -/
def segments_disjoint (m : Mem) (header buf : Nat) : Prop :=
  ∀ i, i < e_phnum m header → ∀ j, j < e_phnum m header →
    (i ≠ j ∧ p_type m (ELF32_PH_GET m header i) = PT_LOAD
      ∧ p_type m (ELF32_PH_GET m header j) = PT_LOAD) →
    segments_apart m buf (ELF32_PH_GET m header i) (ELF32_PH_GET m header j)

instance (m : Mem) (header buf : Nat) : Decidable (segments_disjoint m header buf) := by
  unfold segments_disjoint
  infer_instance

/-! ## Concrete images -/

/-- Little-endian bytes of a 16-bit value. -/
def le16 (v : Nat) : List Nat := [v % 256, v / 256 % 256]

/-- Little-endian bytes of a 32-bit value. -/
def le32 (v : Nat) : List Nat := [v % 256, v / 256 % 256, v / 65536 % 256, v / 16777216 % 256]

/-- Memory holding `bytes` from address `base` on and zero everywhere else. -/
def memOfBytes (base : Nat) (bytes : List Nat) : Mem :=
  fun a => if base ≤ a then bytes.getD (a - base) 0 else 0

/-- A small shared object of 272 bytes: one loadable segment (the whole file, at
`vaddr` 0, 16 more bytes of bss), a dynamic segment, a hash table announcing
three symbols, the names "foo" and "mul", the symbols `foo` (undefined, `st_info`
= `info1`) and `mul` (global, section 1, `st_value` = `value2`), and one `abs32`
relocation against `foo` at offset 264, whose word holds 0x40. -/
def demoImage (info1 value2 : Nat) : List Nat :=
  -- Elf32_Ehdr, offset 0
  [0x7F, 0x45, 0x4C, 0x46, 1, 1, 1, 0, 0, 0, 0, 0, 0, 0, 0, 0]
  ++ le16 3 ++ le16 40 ++ le32 1 ++ le32 0 ++ le32 52 ++ le32 0 ++ le32 0
  ++ le16 52 ++ le16 32 ++ le16 2 ++ le16 0 ++ le16 0 ++ le16 0
  -- Elf32_Phdr 0, offset 52: PT_LOAD, offset 0, vaddr 0, filesz 272, memsz 288, align 4
  ++ le32 1 ++ le32 0 ++ le32 0 ++ le32 0 ++ le32 272 ++ le32 288 ++ le32 7 ++ le32 4
  -- Elf32_Phdr 1, offset 84: PT_DYNAMIC, offset 116
  ++ le32 2 ++ le32 116 ++ le32 116 ++ le32 116 ++ le32 72 ++ le32 72 ++ le32 6 ++ le32 4
  -- dynamic table, offset 116
  ++ le32 4 ++ le32 188      -- DT_HASH
  ++ le32 5 ++ le32 196      -- DT_STRTAB
  ++ le32 6 ++ le32 208      -- DT_SYMTAB
  ++ le32 10 ++ le32 12      -- DT_STRSZ
  ++ le32 11 ++ le32 16      -- DT_SYMENT
  ++ le32 17 ++ le32 256     -- DT_REL
  ++ le32 18 ++ le32 8       -- DT_RELSZ
  ++ le32 19 ++ le32 8       -- DT_RELENT
  ++ le32 0 ++ le32 0        -- DT_NULL
  -- hash table, offset 188: nbucket 1, nchain 3
  ++ le32 1 ++ le32 3
  -- string table, offset 196: "", "foo", "mul"
  ++ [0, 102, 111, 111, 0, 109, 117, 108, 0, 0, 0, 0]
  -- symbol table, offset 208
  ++ le32 0 ++ le32 0 ++ le32 0 ++ [0, 0] ++ le16 0
  ++ le32 1 ++ le32 0 ++ le32 0 ++ [info1, 0] ++ le16 0
  ++ le32 5 ++ le32 value2 ++ le32 0 ++ [0x12, 0] ++ le16 1
  -- relocation table, offset 256: R_ARM_ABS32 against symbol 1 at offset 264
  ++ le32 264 ++ le32 (1 * 256 + 2)
  -- data, offset 264
  ++ le32 0x40 ++ le32 0

/-- The name "foo". -/
def name_foo : List Nat := [102, 111, 111]

/-- The name "mul". -/
def name_mul : List Nat := [109, 117, 108]

/-- Memory with the demo image at address 0x1000. -/
def demoMem (info1 value2 : Nat) : Mem := memOfBytes 0x1000 (demoImage info1 value2)

/-- The handle `elf_dlmemopen` returns for the demo image. -/
def demoHandle (info1 value2 : Nat) : Elf_handle :=
  elf_dlmemopen (demoMem info1 value2) 0x1000 ELF_RTLD_DEFAULT _elf_error_magic_id

/-- Memory for scenario S6: at address 0x10 a relocation entry with `r_offset`
0x100 and `r_info` 23 (`relative`, symbol 0), and the word 0x40 at 0x8100. -/
def relativeMem : Mem :=
  write32 (write32 (write32 (fun _ => 0) 0x10 0x100) 0x14 23) 0x8100 0x40

/-- Memory with an ELF header at 0x1000 announcing one program header, of type
load, with the given `p_vaddr`, `p_memsz` and `p_align`. -/
def onePhdrMem (vaddr memsz align : Nat) : Mem :=
  memOfBytes 0x1000
    ([0x7F, 0x45, 0x4C, 0x46, 1, 1, 1, 0, 0, 0, 0, 0, 0, 0, 0, 0]
    ++ le16 3 ++ le16 40 ++ le32 1 ++ le32 0 ++ le32 52 ++ le32 0 ++ le32 0
    ++ le16 52 ++ le16 32 ++ le16 1 ++ le16 0 ++ le16 0 ++ le16 0
    ++ le32 1 ++ le32 0 ++ le32 vaddr ++ le32 0 ++ le32 0 ++ le32 memsz ++ le32 7 ++ le32 align)

/-- The locals of `elf_link` after the scan of the demo image's dynamic section,
image at 0x1000 and buffer at `buf`. -/
def demoDynamic (buf : Nat) : Elf_dynamic :=
  { pltrelsz := 0, strsz := 12, syment := 16, relsz := 8, relent := 8, initLength := 0,
    reltab := 0x1000 + 256, jmpReltab := 0, symtab := (buf + 208) % WORD,
    hash := 0x1000 + 188, strtab := 0x1000 + 196, initArray := 0 }

/-- Memory after the first loop of `elf_link` on the demo image, buffer at `buf`. -/
def demoLoaded (info1 value2 buf : Nat) : Mem :=
  elf_link_load 0x1000 buf 65536 0 (demoMem info1 value2)

/-! ## The dynamic table as a list of entries -/

/-- Pointer to the entry `k` places after `dynamics` (`dynamics++` taken `k` times). -/
def dyn_ptr (dynamics : Nat) : Nat → Nat
  | 0 => dynamics
  | k + 1 => dyn_ptr ((dynamics + sizeof_Elf32_Dyn) % WORD) k

/-- The first `k` entries of the dynamic table at `dynamics`, as pairs of `d_tag`
and `d_un`. -/
def dyn_entries (m : Mem) : Nat → Nat → List (Nat × Nat)
  | 0, _ => []
  | k + 1, dynamics =>
    (d_tag m dynamics, d_un m dynamics)
      :: dyn_entries m k ((dynamics + sizeof_Elf32_Dyn) % WORD)

/-- Tags of the `case` labels of the scan that record a value (`DT_NEEDED` apart). -/
def dt_recorded (tag : Nat) : Prop :=
  tag = DT_PLTRELSZ ∨ tag = DT_HASH ∨ tag = DT_STRTAB ∨ tag = DT_SYMTAB ∨ tag = DT_STRSZ
    ∨ tag = DT_SYMENT ∨ tag = DT_REL ∨ tag = DT_RELSZ ∨ tag = DT_RELENT ∨ tag = DT_JMPREL
    ∨ tag = DT_INIT_ARRAY ∨ tag = DT_INIT_ARRAYSZ ∨ tag = DT_FINI_ARRAY
    ∨ tag = DT_FINI_ARRAYSZ

instance (tag : Nat) : Decidable (dt_recorded tag) := by
  unfold dt_recorded; infer_instance

/-- Tags of the `case` labels under the comment "Ignore these sections". -/
def dt_ignored (tag : Nat) : Prop :=
  tag = DT_PLTGOT ∨ tag = DT_INIT ∨ tag = DT_FINI ∨ tag = DT_PLTREL ∨ tag = DT_TEXTREL
    ∨ tag = 0x6FFFFFFA

instance (tag : Nat) : Decidable (dt_ignored tag) := by
  unfold dt_ignored; infer_instance

/-- The `switch` of the scan of `elf_link` on one entry with tag `tag` and value `val`:
`ret` where the `case` returns, `go` where it ends in `break`. -/
def elf_link_scan_switch (header buf tag val : Nat) (handle : Elf_handle) (d : Elf_dynamic) :
    Flow (Elf_handle × Elf_dynamic) :=
  if tag = DT_NEEDED then .ret (elf_set_error handle _elf_error_dependency, d)
  else if tag = DT_PLTRELSZ then .go (handle, { d with pltrelsz := val })
  else if tag = DT_HASH then .go (handle, { d with hash := (header + val) % WORD })
  else if tag = DT_STRTAB then .go (handle, { d with strtab := (header + val) % WORD })
  else if tag = DT_SYMTAB then .go (handle, { d with symtab := (buf + val) % WORD })
  else if tag = DT_STRSZ then .go (handle, { d with strsz := val })
  else if tag = DT_SYMENT then .go (handle, { d with syment := val })
  else if tag = DT_REL then .go (handle, { d with reltab := (header + val) % WORD })
  else if tag = DT_RELSZ then .go (handle, { d with relsz := val })
  else if tag = DT_RELENT then .go (handle, { d with relent := val })
  else if tag = DT_JMPREL then .go (handle, { d with jmpReltab := (header + val) % WORD })
  else if tag = DT_INIT_ARRAY then .go (handle, { d with initArray := (val + buf) % WORD })
  else if tag = DT_INIT_ARRAYSZ then
    .go (handle, { d with initLength := val / sizeof_Elf32_Addr })
  else if tag = DT_FINI_ARRAY then
    .go ({ handle with finiArray := (val + buf) % WORD }, d)
  else if tag = DT_FINI_ARRAYSZ then
    .go ({ handle with finiLength := val / sizeof_Elf32_Addr }, d)
  else if tag = DT_PLTGOT ∨ tag = DT_INIT ∨ tag = DT_FINI ∨ tag = DT_PLTREL
      ∨ tag = DT_TEXTREL ∨ tag = 0x6FFFFFFA then .go (handle, d)
  else .ret (elf_set_error handle _elf_error_d_tag, d)

/-- The scan of `elf_link` over a list of entries that stand before the terminator:
`go` when the terminator is reached, `ret` at the first entry whose `case` returns. -/
def elf_link_scan_entries (header buf : Nat) :
    List (Nat × Nat) → Elf_handle → Elf_dynamic → Flow (Elf_handle × Elf_dynamic)
  | [], handle, d => .go (handle, d)
  | e :: rest, handle, d =>
    match elf_link_scan_switch header buf e.1 e.2 handle d with
    | .ret s => .ret s
    | .go (handle1, d1) => elf_link_scan_entries header buf rest handle1 d1

/-! ## Loops taken turn by turn -/

/-- The loop of `_elf_relocate` after `k` turns that all end in `break`: the pointer, the
memory and the handle at the head of turn `k`; `none` when the loop ends or returns
before. -/
def _elf_relocate_after (buf entsize tableEnd symtab syment : Nat) :
    Nat → Nat → Mem → Elf_handle → Option (Nat × Mem × Elf_handle)
  | 0, reltab, m, handle => some (reltab, m, handle)
  | k + 1, reltab, m, handle =>
    if reltab < tableEnd then
      match _elf_relocate_entry m handle buf reltab symtab syment with
      | .ret _ => none
      | .go (m1, handle1) =>
        _elf_relocate_after buf entsize tableEnd symtab syment k
          ((reltab + entsize) % WORD) m1 handle1
    else none

/-- Addresses `ref` of the first `k` entries the loop of `_elf_relocate` visits, each
read when its turn comes. -/
def _elf_relocate_refs (buf entsize symtab syment : Nat) :
    Nat → Nat → Mem → Elf_handle → List Nat
  | 0, _, _, _ => []
  | k + 1, reltab, m, handle =>
    ((buf + r_offset m reltab) % WORD)
      :: _elf_relocate_refs buf entsize symtab syment k ((reltab + entsize) % WORD)
          (Flow.val (_elf_relocate_entry m handle buf reltab symtab syment)).1
          (Flow.val (_elf_relocate_entry m handle buf reltab symtab syment)).2

/-- The resolution loop of `elf_link` after `k` turns that all reach the end of the
body: the index, the memory and the handle at the head of turn `k`; `none` when the
loop ends or returns before. -/
def elf_link_resolve_after (fuel buf : Nat) (d : Elf_dynamic) :
    Nat → Nat → Mem → Elf_handle → Option (Nat × Mem × Elf_handle)
  | 0, ii, m, handle => some (ii, m, handle)
  | k + 1, ii, m, handle =>
    if ii < read32 m (d.hash + 4) then
      match elf_link_symbol fuel buf d ii m handle with
      | some (.go (m1, handle1)) => elf_link_resolve_after fuel buf d k (ii + 1) m1 handle1
      | _ => none
    else none

/-- The error state `final` a call may leave from the state `handle`: untouched, or
the error bit set with one of the messages `msgs`. -/
def error_state_from (handle final : Elf_handle) (msgs : List String) : Prop :=
  (final.flags = handle.flags ∧ final.error = handle.error)
    ∨ (final.flags = handle.flags ||| _ELF_ERROR ∧ final.error ∈ msgs)

/-- Messages of the failure points of `elf_link` from the symbol resolution on. -/
def elf_link_symbols_errors : List String :=
  [_elf_error_unresolved_symbol, _elf_error_unimplemented_st_shndx,
    _elf_error_zero_sized_rel, _elf_error_unimplemented_relocation]

/-- Messages of all the failure points of `elf_link` and `_elf_relocate`. -/
def elf_link_errors : List String :=
  [_elf_error_dynamic_section, _elf_error_dependency, _elf_error_d_tag,
    _elf_error_missing_entries] ++ elf_link_symbols_errors

/-- Memory at the end of the first loop of `elf_link` (the segments copied). -/
def elf_link_loaded (m : Mem) (handle : Elf_handle) (buf : Nat) : Mem :=
  elf_link_load handle.header buf 65536 0 m

/-- The value of `dynamicSection` at the end of the second loop of `elf_link`. -/
def elf_link_dynamicSection (m : Mem) (handle : Elf_handle) (buf : Nat) : Nat :=
  elf_link_find_dynamic (elf_link_loaded m handle buf) handle.header 65536 0

/-- The pointer the scan of `elf_link` starts at: the content of `dynamicSection`. -/
def elf_link_dynamics (m : Mem) (handle : Elf_handle) (buf : Nat) : Nat :=
  ELF32_PH_CONTENT (elf_link_loaded m handle buf) handle.header
    (elf_link_dynamicSection m handle buf)

/-! ## A shared object with every table -/

/-- The bytes of a dynamic table with the given entries (tag, value). -/
def dynBytes (dyn : List (Nat × Nat)) : List Nat :=
  dyn.flatMap (fun e => le32 e.1 ++ le32 e.2)

/-- The list `bytes` followed by zero bytes up to the length `n`. -/
def padBytes (n : Nat) (bytes : List Nat) : List Nat :=
  bytes ++ List.replicate (n - bytes.length) 0

/-- The dynamic table of the full image: hash, strtab, symtab, strsz, syment, rel
(two entries of 8 bytes at 344), init array (two entries at 360), fini array (two
entries at 368) and jmprel (one entry at 376). -/
def fullDyn : List (Nat × Nat) :=
  [(DT_HASH, 276), (DT_STRTAB, 284), (DT_SYMTAB, 296), (DT_STRSZ, 12), (DT_SYMENT, 16),
    (DT_REL, 344), (DT_RELSZ, 16), (DT_RELENT, 8), (DT_INIT_ARRAY, 360),
    (DT_INIT_ARRAYSZ, 8), (DT_FINI_ARRAY, 368), (DT_FINI_ARRAYSZ, 8), (DT_JMPREL, 376),
    (DT_PLTRELSZ, 8)]

/-- A shared object of 392 bytes with first identification byte `magic0`, machine
`machine`, a loadable segment (the whole file at `vaddr` 0, 16 more bytes of bss), a
second program header of type `phdr1` whose content is the dynamic table `dyn`
(a region of 20 entries, zero where `dyn` ends), the symbols `foo` (undefined, weak)
and `mul` (global, section 1, value 0x40), two relocation entries (`relative` at
offset 360, type `reltype` at offset 364), an init array holding 0x10 and 0x20, a fini
array holding 0x30 and 0x34, and one `jump_slot` entry against `mul` at offset 384. -/
def fullImage (magic0 machine phdr1 : Nat) (dyn : List (Nat × Nat)) (reltype : Nat) :
    List Nat :=
  -- Elf32_Ehdr, offset 0
  [magic0, 0x45, 0x4C, 0x46, 1, 1, 1, 0, 0, 0, 0, 0, 0, 0, 0, 0]
  ++ le16 3 ++ le16 machine ++ le32 1 ++ le32 0 ++ le32 52 ++ le32 0 ++ le32 0
  ++ le16 52 ++ le16 32 ++ le16 2 ++ le16 0 ++ le16 0 ++ le16 0
  -- Elf32_Phdr 0, offset 52: PT_LOAD, offset 0, vaddr 0, filesz 392, memsz 408, align 4
  ++ le32 1 ++ le32 0 ++ le32 0 ++ le32 0 ++ le32 392 ++ le32 408 ++ le32 7 ++ le32 4
  -- Elf32_Phdr 1, offset 84: offset 116
  ++ le32 phdr1 ++ le32 116 ++ le32 116 ++ le32 116 ++ le32 160 ++ le32 160 ++ le32 6
  ++ le32 4
  -- dynamic table, offset 116, 160 bytes
  ++ padBytes 160 (dynBytes dyn)
  -- hash table, offset 276: nbucket 1, nchain 3
  ++ le32 1 ++ le32 3
  -- string table, offset 284: "", "foo", "mul"
  ++ [0, 102, 111, 111, 0, 109, 117, 108, 0, 0, 0, 0]
  -- symbol table, offset 296
  ++ le32 0 ++ le32 0 ++ le32 0 ++ [0, 0] ++ le16 0
  ++ le32 1 ++ le32 0 ++ le32 0 ++ [0x20, 0] ++ le16 0
  ++ le32 5 ++ le32 0x40 ++ le32 0 ++ [0x12, 0] ++ le16 1
  -- relocation table, offset 344
  ++ le32 360 ++ le32 23
  ++ le32 364 ++ le32 reltype
  -- init array, offset 360
  ++ le32 0x10 ++ le32 0x20
  -- fini array, offset 368
  ++ le32 0x30 ++ le32 0x34
  -- jump table, offset 376: R_ARM_JUMP_SLOT against symbol 2 at offset 384
  ++ le32 384 ++ le32 (2 * 256 + 22)
  -- the slot, offset 384
  ++ le32 0 ++ le32 0

/-- Memory with the full image at address 0x1000. -/
def fullMem (magic0 machine phdr1 : Nat) (dyn : List (Nat × Nat)) (reltype : Nat) : Mem :=
  memOfBytes 0x1000 (fullImage magic0 machine phdr1 dyn reltype)

/-- The full image as a well-formed shared object: magic 0x7F, machine 40, dynamic
segment, all relocation entries supported. -/
def goodMem (dyn : List (Nat × Nat)) : Mem := fullMem 0x7F 40 PT_DYNAMIC dyn R_ARM_RELATIVE

/-- A handle as `elf_dlmemopen` leaves it for a valid image at 0x1000. -/
def goodHandle : Elf_handle :=
  { flags := 0, error := _elf_error_magic_id, header := 0x1000,
    globalSymbols := Elf_symbolNode.null, finiArray := 0, finiLength := 0 }

/-- The table `fullDyn` with ignored entries put in: `DT_PLTGOT` first, `DT_TEXTREL`
and tag 0x6FFFFFFA after the fifth entry. -/
def paddedDyn : List (Nat × Nat) :=
  (DT_PLTGOT, 7) :: fullDyn.take 5 ++ [(DT_TEXTREL, 0), (0x6FFFFFFA, 9)] ++ fullDyn.drop 5

/-- Memory with the well-formed full image at 0x1000, followed at offset 392 by one
more program header of type dynamic whose content, at offset 424, is the table
`paddedDyn`. -/
def twoTableImage : Mem :=
  memOfBytes 0x1000
    (fullImage 0x7F 40 PT_DYNAMIC fullDyn R_ARM_RELATIVE
    ++ le32 2 ++ le32 424 ++ le32 424 ++ le32 424 ++ le32 144 ++ le32 144 ++ le32 6 ++ le32 4
    ++ padBytes 144 (dynBytes paddedDyn))

/-- The memory `twoTableImage` after the first loop of `elf_link`, buffer at 0x8000. -/
def twoTableMem : Mem := elf_link_loaded twoTableImage goodHandle 0x8000

/-- The locals of `elf_link` after the scan of the table `fullDyn`, image at 0x1000
and buffer at 0x8000. -/
def fullDynamic : Elf_dynamic :=
  { pltrelsz := 8, strsz := 12, syment := 16, relsz := 16, relent := 8, initLength := 2,
    reltab := 0x1000 + 344, jmpReltab := 0x1000 + 376, symtab := 0x8000 + 296,
    hash := 0x1000 + 276, strtab := 0x1000 + 284, initArray := 0x8000 + 360 }

/-- The handle `goodHandle` after the scan of the table `fullDyn`, buffer at 0x8000. -/
def scannedHandle : Elf_handle :=
  { goodHandle with finiArray := 0x8000 + 368, finiLength := 2 }

/-- The well-formed full image at 0x1000 with the type of its first program header
overwritten by 2: both program headers have type dynamic, the content of the first is
the file from offset 0 on. -/
def twoDynamicMem : Mem := write32 (goodMem fullDyn) (0x1000 + 52) PT_DYNAMIC

/-- The well-formed full image at 0x1000 with `e_phoff` overwritten by 0xFFFFF000, so
that its two program headers are read at the addresses 0 and 32, and the word 2 (type
dynamic) written at both addresses. -/
def nullHeaderMem : Mem :=
  write32 (write32 (write32 (goodMem fullDyn) (0x1000 + 28) 0xFFFFF000) 0 PT_DYNAMIC) 32
    PT_DYNAMIC

/-! ## A relocation table at the top of the address space -/

/-- Memory with one relocation entry in the last 8 bytes of the address space
(`r_offset` 0x100, `r_info` 23: `relative`, symbol 0) and the word 0x40 at 0x8100. -/
def topTableMem : Mem :=
  write32 (write32 (write32 (fun _ => 0) 0xFFFFFFF8 0x100) 0xFFFFFFFC 23) 0x8100 0x40

/-! ## The full image with a weak definition -/

/-- The well-formed full image at 0x1000 with `st_info` of `mul` overwritten by 0x22:
`mul` is defined in section 1 with binding weak (2). -/
def weakMulMem : Mem := write8 (goodMem fullDyn) (0x1000 + 296 + 32 + 12) 0x22

/-! ## The full image with a needed entry after the fini entries -/

/-- The table `fullDyn` with the value `sz` in its fini-array-size entry and a needed
entry put last: the scan passes the fini entries (places 10 and 11) and returns at
place 14. -/
def finiThenNeededDyn (sz : Nat) : List (Nat × Nat) :=
  fullDyn.take 11 ++ [(DT_FINI_ARRAYSZ, sz)] ++ fullDyn.drop 12 ++ [(DT_NEEDED, 1)]

/-! ## The name hash -/

theorem _elf_hash_loop_append_one (s : List Nat) (c : Nat) (hash : Int)
    (hs : ∀ x ∈ s, x ≠ 0) (hc : c ≠ 0) :
    _elf_hash_loop hash (s ++ [c]) = wrapInt (_elf_hash_loop hash s * 31 + c) := by
  induction s generalizing hash with
  | nil => simp [_elf_hash_loop, hc]
  | cons a s ih =>
    have ha : a ≠ 0 := hs a (List.mem_cons_self a s)
    have hs1 : ∀ x ∈ s, x ≠ 0 := fun x hx => hs x (List.mem_cons_of_mem a hx)
    simp only [List.cons_append, _elf_hash_loop, ha, if_false]
    exact ih _ hs1

/-! ## The link map -/

theorem _elf_tree_find_loop_add_same (t : Elf_symbolNode) (hash : Int) (sym : Nat) :
    _elf_tree_find_loop (_elf_tree_add_loop t hash sym) hash = sym := by
  induction t with
  | null => simp [_elf_tree_add_loop, _elf_tree_find_loop]
  | node h s lt gt ihl ihg =>
    by_cases h1 : hash = h
    · simp [_elf_tree_add_loop, _elf_tree_find_loop, h1]
    · by_cases h2 : hash < h
      · have h3 : ¬ h = hash := fun e => h1 e.symm
        simp [_elf_tree_add_loop, _elf_tree_find_loop, h1, h2, h3, ihl]
      · have h3 : ¬ h = hash := fun e => h1 e.symm
        simp [_elf_tree_add_loop, _elf_tree_find_loop, h1, h2, h3, ihg]

theorem _elf_tree_find_loop_add_other (t : Elf_symbolNode) (hash : Int) (sym : Nat)
    (key : Int) (hk : key ≠ hash) :
    _elf_tree_find_loop (_elf_tree_add_loop t hash sym) key = _elf_tree_find_loop t key := by
  induction t with
  | null =>
    have h3 : ¬ hash = key := fun e => hk e.symm
    simp [_elf_tree_add_loop, _elf_tree_find_loop, h3]
  | node h s lt gt ihl ihg =>
    by_cases h1 : hash = h
    · have h3 : ¬ h = key := fun e => hk (e.symm.trans h1.symm)
      simp [_elf_tree_add_loop, _elf_tree_find_loop, h1, h3]
    · by_cases h2 : hash < h
      · simp only [_elf_tree_add_loop, h1, h2, if_true, if_false, _elf_tree_find_loop, ihl]
      · simp only [_elf_tree_add_loop, h1, h2, if_true, if_false, _elf_tree_find_loop, ihg]

theorem _elf_tree_find_add_same (handle : Elf_handle) (hash : Int) (sym : Nat) :
    _elf_tree_find (_elf_tree_add handle hash sym) hash = sym := by
  simp [_elf_tree_find, _elf_tree_add, _elf_tree_find_loop_add_same]

theorem _elf_tree_find_add_other (handle : Elf_handle) (hash : Int) (sym : Nat)
    (key : Int) (hk : key ≠ hash) :
    _elf_tree_find (_elf_tree_add handle hash sym) key = _elf_tree_find handle key := by
  simp [_elf_tree_find, _elf_tree_add, _elf_tree_find_loop_add_other _ _ _ _ hk]

theorem _elf_check_globalSymbols (m : Mem) (handle : Elf_handle) :
    (_elf_check m handle).globalSymbols = handle.globalSymbols := by
  unfold _elf_check
  simp only []
  split_ifs <;> simp [elf_set_error]

theorem elf_dlmemopen_globalSymbols (m : Mem) (buf flag : Nat) (error0 : String) :
    (elf_dlmemopen m buf flag error0).globalSymbols = .null := by
  unfold elf_dlmemopen
  simp only []
  split_ifs
  · rw [_elf_check_globalSymbols]
  · rfl

theorem _elf_tree_find_add_calls_absent (calls : List (Int × Nat)) (handle : Elf_handle)
    (key : Int) (hk : ∀ c ∈ calls, c.1 ≠ key) :
    _elf_tree_find (_elf_tree_add_calls handle calls) key = _elf_tree_find handle key := by
  induction calls generalizing handle with
  | nil => rfl
  | cons c calls ih =>
    have h1 : c.1 ≠ key := hk c (List.mem_cons_self c calls)
    have h2 : ∀ x ∈ calls, x.1 ≠ key := fun x hx => hk x (List.mem_cons_of_mem c hx)
    simp only [_elf_tree_add_calls, List.foldl_cons] at ih ⊢
    rw [ih _ h2, _elf_tree_find_add_other _ _ _ _ (fun e => h1 e.symm)]

theorem _elf_tree_find_mapsym_calls (calls : List (List Nat × Nat)) (handle : Elf_handle)
    (key : Int) :
    _elf_tree_find (elf_mapsym_calls handle calls) key
      = last_mapped calls key (_elf_tree_find handle key) := by
  induction calls generalizing handle with
  | nil => rfl
  | cons c calls ih =>
    simp only [elf_mapsym_calls, List.foldl_cons, last_mapped] at ih ⊢
    rw [ih]
    by_cases h : _elf_hash c.1 = key
    · simp only [h, if_true, elf_mapsym]
      rw [← h, _elf_tree_find_add_same]
    · simp only [h, if_false, elf_mapsym]
      rw [_elf_tree_find_add_other _ _ _ _ (fun e => h e.symm)]

/-! ## The error latch -/

theorem elf_set_error_latched (handle : Elf_handle) (msg : String) :
    (elf_set_error handle msg).flags &&& _ELF_ERROR ≠ 0 := by
  intro h
  have h1 : ((handle.flags ||| 32768) &&& 32768).testBit 15 = true := by
    rw [Nat.testBit_and, Nat.testBit_or]
    have : Nat.testBit 32768 15 = true := by decide
    simp [this]
  simp only [elf_set_error, _ELF_ERROR] at h
  rw [h] at h1
  simp at h1

theorem clear_error_bit (flags : Nat) : (flags &&& (WORD - 1 - _ELF_ERROR)) &&& _ELF_ERROR = 0 := by
  rw [Nat.and_assoc]
  have : (WORD - 1 - _ELF_ERROR) &&& _ELF_ERROR = 0 := by decide
  rw [this, Nat.and_zero]

theorem clear_error_bit_other (flags i : Nat) (hi : i ≠ 15) (h32 : i < 32) :
    (flags &&& (WORD - 1 - _ELF_ERROR)).testBit i = flags.testBit i := by
  rw [Nat.testBit_and]
  have : Nat.testBit (WORD - 1 - _ELF_ERROR) i = true := by
    have h : ∀ j, j < 32 → j ≠ 15 → Nat.testBit (WORD - 1 - _ELF_ERROR) j = true := by decide
    exact h i h32 hi
  rw [this, Bool.and_true]

theorem read32_magic (m : Mem) (a : Nat) :
    read32 m a = 0x464C457F ↔
      (read8 m a = 0x7F ∧ read8 m (a + 1) = 0x45 ∧ read8 m (a + 2) = 0x4C
        ∧ read8 m (a + 3) = 0x46) := by
  unfold read32 read8
  omega

/-! ## Memory -/

theorem read8_lt (m : Mem) (a : Nat) : read8 m a < 256 := Nat.mod_lt _ (by decide)

theorem read16_lt (m : Mem) (a : Nat) : read16 m a < 65536 := by
  have h0 := read8_lt m a
  have h1 := read8_lt m (a + 1)
  unfold read16
  omega

theorem read32_lt (m : Mem) (a : Nat) : read32 m a < WORD := by
  have h0 := read8_lt m a
  have h1 := read8_lt m (a + 1)
  have h2 := read8_lt m (a + 2)
  have h3 := read8_lt m (a + 3)
  unfold read32 WORD
  omega

theorem read8_write8_same (m : Mem) (a v : Nat) : read8 (write8 m a v) a = v % 256 := by
  simp [read8, write8]

theorem read8_write8_other (m : Mem) (a v x : Nat) (h : x ≠ a) :
    read8 (write8 m a v) x = read8 m x := by
  simp [read8, write8, h]

theorem read8_write16_other (m : Mem) (a v x : Nat) (h : x < a ∨ a + 2 ≤ x) :
    read8 (write16 m a v) x = read8 m x := by
  unfold write16
  rw [read8_write8_other _ _ _ _ (by omega), read8_write8_other _ _ _ _ (by omega)]

theorem read8_write32_other (m : Mem) (a v x : Nat) (h : x < a ∨ a + 4 ≤ x) :
    read8 (write32 m a v) x = read8 m x := by
  unfold write32
  rw [read8_write8_other _ _ _ _ (by omega), read8_write8_other _ _ _ _ (by omega),
    read8_write8_other _ _ _ _ (by omega), read8_write8_other _ _ _ _ (by omega)]

theorem read16_write16_same (m : Mem) (a v : Nat) : read16 (write16 m a v) a = v % 65536 := by
  unfold read16 write16
  rw [read8_write8_other _ _ _ _ (by omega), read8_write8_same, read8_write8_same]
  omega

theorem read32_write32_same (m : Mem) (a v : Nat) : read32 (write32 m a v) a = v % WORD := by
  unfold read32 write32
  rw [read8_write8_other _ _ _ a (by omega), read8_write8_other _ _ _ a (by omega),
    read8_write8_other _ _ _ a (by omega), read8_write8_same,
    read8_write8_other _ _ _ (a + 1) (by omega), read8_write8_other _ _ _ (a + 1) (by omega),
    read8_write8_same,
    read8_write8_other _ _ _ (a + 2) (by omega), read8_write8_same, read8_write8_same]
  unfold WORD
  omega

theorem read16_write32_other (m : Mem) (a v x : Nat) (h : x + 2 ≤ a ∨ a + 4 ≤ x) :
    read16 (write32 m a v) x = read16 m x := by
  unfold read16
  rw [read8_write32_other _ _ _ _ (by omega), read8_write32_other _ _ _ _ (by omega)]

theorem read32_write16_other (m : Mem) (a v x : Nat) (h : x + 4 ≤ a ∨ a + 2 ≤ x) :
    read32 (write16 m a v) x = read32 m x := by
  unfold read32
  rw [read8_write16_other _ _ _ _ (by omega), read8_write16_other _ _ _ _ (by omega),
    read8_write16_other _ _ _ _ (by omega), read8_write16_other _ _ _ _ (by omega)]

theorem read32_write32_other (m : Mem) (a v x : Nat) (h : x + 4 ≤ a ∨ a + 4 ≤ x) :
    read32 (write32 m a v) x = read32 m x := by
  unfold read32
  rw [read8_write32_other _ _ _ _ (by omega), read8_write32_other _ _ _ _ (by omega),
    read8_write32_other _ _ _ _ (by omega), read8_write32_other _ _ _ _ (by omega)]

/-! ## The relocator -/

theorem _elf_relocate_entry_abs32 (m : Mem) (handle : Elf_handle)
    (buf reltab symtab syment : Nat) (h : ELF32_R_TYPE (r_info m reltab) = R_ARM_ABS32) :
    _elf_relocate_entry m handle buf reltab symtab syment
      = Flow.go (write32 m ((buf + r_offset m reltab) % WORD)
          ((read32 m ((buf + r_offset m reltab) % WORD)
            + st_value m ((symtab + ELF32_R_SYM (r_info m reltab) * syment) % WORD)) % WORD),
          handle) := by
  simp only [_elf_relocate_entry, h, if_true]

theorem _elf_relocate_entry_jump_slot (m : Mem) (handle : Elf_handle)
    (buf reltab symtab syment : Nat) (h : ELF32_R_TYPE (r_info m reltab) = R_ARM_JUMP_SLOT) :
    _elf_relocate_entry m handle buf reltab symtab syment
      = Flow.go (write32 m ((buf + r_offset m reltab) % WORD)
          (st_value m ((symtab + ELF32_R_SYM (r_info m reltab) * syment) % WORD)), handle) := by
  have h1 : ¬ ELF32_R_TYPE (r_info m reltab) = R_ARM_ABS32 := by rw [h]; decide
  simp only [_elf_relocate_entry]
  rw [if_neg h1, if_pos h]

theorem _elf_relocate_entry_relative (m : Mem) (handle : Elf_handle)
    (buf reltab symtab syment : Nat) (h : ELF32_R_TYPE (r_info m reltab) = R_ARM_RELATIVE) :
    _elf_relocate_entry m handle buf reltab symtab syment
      = Flow.go (write32 m ((buf + r_offset m reltab) % WORD)
          ((read32 m ((buf + r_offset m reltab) % WORD) + buf) % WORD), handle) := by
  have h1 : ¬ ELF32_R_TYPE (r_info m reltab) = R_ARM_ABS32 := by rw [h]; decide
  have h2 : ¬ ELF32_R_TYPE (r_info m reltab) = R_ARM_JUMP_SLOT := by rw [h]; decide
  simp only [_elf_relocate_entry]
  rw [if_neg h1, if_neg h2, if_pos h]

/-! ## The size planner -/

theorem le_align_up (x a : Nat) (ha : 0 < a) : x ≤ align_up x a := by
  unfold align_up
  have h := Nat.lt_mul_div_succ (x + a - 1) ha
  rw [Nat.mul_succ, Nat.mul_comm] at h
  omega

theorem dvd_align_up (x a : Nat) : a ∣ align_up x a := Dvd.intro_left _ rfl

theorem align_up_lt (x a : Nat) (ha : 0 < a) : align_up x a < x + a := by
  unfold align_up
  have h := Nat.div_mul_le_self (x + a - 1) a
  omega

/-- The rounding of `elf_lbounds` on 32-bit words agrees with `align_up` when the
rounded value fits a word and, for the sum 0, the alignment divides `2^32`. -/
theorem segMax_eq_align_up (s a : Nat) (ha : 0 < a) (hfit : align_up s a < WORD)
    (h0 : s = 0 → WORD % a = 0) :
    ((s % WORD + WORD - 1) % WORD / a + 1) * a % WORD = align_up s a := by
  have hs : s ≤ align_up s a := le_align_up s a ha
  by_cases hz : s = 0
  · subst hz
    have hdvd : a ∣ WORD := Nat.dvd_of_mod_eq_zero (h0 rfl)
    obtain ⟨k, hk⟩ := hdvd
    have h1 : (0 % WORD + WORD - 1) % WORD = WORD - 1 := by decide
    have h2 : (WORD - 1) / a + 1 = k := by
      rw [← Nat.add_div_right _ ha]
      have h3 : WORD - 1 + a = a * k + (a - 1) := by
        have : 0 < WORD := by decide
        omega
      rw [h3, Nat.mul_add_div ha, Nat.div_eq_of_lt (by omega)]
      rfl
    have h4 : align_up 0 a = 0 := by
      unfold align_up
      rw [Nat.zero_add, Nat.div_eq_of_lt (by omega), Nat.zero_mul]
    rw [h1, h2, h4, Nat.mul_comm, ← hk]
    exact Nat.mod_self _
  · have hsw : s < WORD := by omega
    have h1 : (s % WORD + WORD - 1) % WORD = s - 1 := by
      unfold WORD at hsw ⊢
      omega
    have h2 : (s - 1) / a + 1 = (s + a - 1) / a := by
      have h3 : s - 1 + a = s + a - 1 := by omega
      rw [← Nat.add_div_right _ ha, h3]
    rw [h1, h2]
    exact Nat.mod_eq_of_lt hfit

theorem elf_lbounds_loop_eq (m : Mem) (header : Nat) (b ii high : Nat)
    (hb : e_phnum m header - ii < b)
    (hfit : ∀ i, ii ≤ i → i < e_phnum m header →
      p_type m (ELF32_PH_GET m header i) = PT_LOAD → segment_fits m (ELF32_PH_GET m header i)) :
    elf_lbounds_loop m header b ii high
      = some ((((List.range' ii (e_phnum m header - ii)).map (ELF32_PH_GET m header)).filter
          (fun p => decide (p_type m p = PT_LOAD))).map
          (fun p => align_up (p_vaddr m p + p_memsz m p) (p_align m p))
          |>.foldl max high) := by
  induction b generalizing ii high with
  | zero => omega
  | succ b ih =>
    unfold elf_lbounds_loop
    by_cases hlt : ii < e_phnum m header
    · have hr : e_phnum m header - ii = (e_phnum m header - (ii + 1)) + 1 := by omega
      have hfit1 : ∀ i, ii + 1 ≤ i → i < e_phnum m header →
          p_type m (ELF32_PH_GET m header i) = PT_LOAD →
          segment_fits m (ELF32_PH_GET m header i) :=
        fun i h1 h2 h3 => hfit i (by omega) h2 h3
      rw [if_pos hlt, hr, List.range'_succ]
      simp only [List.map_cons]
      by_cases hload : p_type m (ELF32_PH_GET m header ii) = PT_LOAD
      · obtain ⟨ha, hw, h0⟩ := hfit ii (Nat.le_refl _) hlt hload
        have hseg := segMax_eq_align_up _ _ ha hw h0
        rw [if_pos hload, if_neg (by omega : ¬ p_align m (ELF32_PH_GET m header ii) = 0)]
        rw [hseg, ih (ii + 1) _ (by omega) hfit1]
        rw [List.filter_cons_of_pos (by simpa using hload)]
        simp only [List.map_cons, List.foldl_cons]
        congr 2
        by_cases hgt : align_up (p_vaddr m (ELF32_PH_GET m header ii)
            + p_memsz m (ELF32_PH_GET m header ii)) (p_align m (ELF32_PH_GET m header ii)) > high
        · rw [if_pos hgt]; exact (Nat.max_eq_right (Nat.le_of_lt hgt)).symm
        · rw [if_neg hgt]; exact (Nat.max_eq_left (by omega)).symm
      · rw [if_neg hload, ih (ii + 1) _ (by omega) hfit1]
        rw [List.filter_cons_of_neg (by simpa using hload)]
    · have hr : e_phnum m header - ii = 0 := by omega
      rw [if_neg hlt, hr]
      rfl

theorem foldl_max_le (l : List Nat) (high x : Nat) (hx : x ∈ l) : x ≤ l.foldl max high := by
  induction l generalizing high with
  | nil => cases hx
  | cons a l ih =>
    have hmono : ∀ (l : List Nat) (u v : Nat), u ≤ v → u ≤ l.foldl max v := by
      intro l
      induction l with
      | nil => intro u v h; exact h
      | cons c l ihl => intro u v h; exact ihl u (max v c) (le_trans h (le_max_left v c))
    simp only [List.foldl_cons]
    rcases List.mem_cons.mp hx with h | h
    · subst h
      exact hmono l x (max high x) (le_max_right high x)
    · exact ih (max high a) h

theorem mem_load_headers (m : Mem) (header p : Nat) :
    p ∈ load_headers m header ↔
      ∃ i, i < e_phnum m header ∧ ELF32_PH_GET m header i = p ∧ p_type m p = PT_LOAD := by
  unfold load_headers
  simp only [List.mem_filter, List.mem_map, List.mem_range, decide_eq_true_eq]
  constructor
  · rintro ⟨⟨i, hi, rfl⟩, hl⟩
    exact ⟨i, hi, rfl, hl⟩
  · rintro ⟨i, hi, rfl, hl⟩
    exact ⟨⟨i, hi, rfl⟩, hl⟩

/-! ## The resolver -/

/-- The fields of a symbol entry after the two stores of the resolver. -/
theorem symbol_fields_after_stores (m : Mem) (s v : Nat) :
    st_name (write32 (write16 m (s + 14) SHN_ABS) (s + 4) v) s = st_name m s
    ∧ st_value (write32 (write16 m (s + 14) SHN_ABS) (s + 4) v) s = v % WORD
    ∧ st_info (write32 (write16 m (s + 14) SHN_ABS) (s + 4) v) s = st_info m s
    ∧ st_shndx (write32 (write16 m (s + 14) SHN_ABS) (s + 4) v) s = SHN_ABS := by
  refine ⟨?_, ?_, ?_, ?_⟩
  · unfold st_name
    rw [read32_write32_other _ _ _ _ (by omega), read32_write16_other _ _ _ _ (by omega)]
  · unfold st_value
    rw [read32_write32_same]
  · unfold st_info
    rw [read8_write32_other _ _ _ _ (by omega), read8_write16_other _ _ _ _ (by omega)]
  · unfold st_shndx
    rw [read16_write32_other _ _ _ _ (by omega), read16_write16_same]
    rfl

theorem st_value_after_shndx_store (m : Mem) (s : Nat) :
    st_value (write16 m (s + 14) SHN_ABS) s = st_value m s := by
  unfold st_value
  rw [read32_write16_other _ _ _ _ (by omega)]

theorem elf_set_error_globalSymbols (handle : Elf_handle) (msg : String) :
    (elf_set_error handle msg).globalSymbols = handle.globalSymbols := rfl

theorem _elf_tree_find_set_error (handle : Elf_handle) (msg : String) (key : Int) :
    _elf_tree_find (elf_set_error handle msg) key = _elf_tree_find handle key := rfl

theorem elf_mapsym_flags (handle : Elf_handle) (name : List Nat) (sym : Nat) :
    (elf_mapsym handle name sym).flags = handle.flags
    ∧ (elf_mapsym handle name sym).error = handle.error := ⟨rfl, rfl⟩

/-- The publishing tail never returns and never touches memory; the handle it
leaves is the one `elf_link_published_key` describes. -/
theorem elf_link_publish_result (fuel : Nat) (d : Elf_dynamic) (symbol : Nat) (m : Mem)
    (handle : Elf_handle) (r : Flow (Mem × Elf_handle))
    (h : elf_link_publish fuel d symbol m handle = some r) :
    ∃ handle1, r = Flow.go (m, handle1)
      ∧ handle1.flags = handle.flags ∧ handle1.error = handle.error
      ∧ ((ELF32_ST_BIND (st_info m symbol) &&& STB_GLOBAL = 0 ∧ handle1 = handle)
        ∨ (ELF32_ST_BIND (st_info m symbol) &&& STB_GLOBAL ≠ 0
            ∧ ∃ name, cstring m fuel ((d.strtab + st_name m symbol) % WORD) = some name
              ∧ handle1 = elf_mapsym handle name (st_value m symbol))) := by
  unfold elf_link_publish at h
  by_cases hg : ELF32_ST_BIND (st_info m symbol) &&& STB_GLOBAL ≠ 0
  · rw [if_pos hg] at h
    cases hc : cstring m fuel ((d.strtab + st_name m symbol) % WORD) with
    | none => rw [hc] at h; cases h
    | some name =>
      rw [hc] at h
      simp only [Option.some.injEq] at h
      exact ⟨_, h.symm, rfl, rfl, Or.inr ⟨hg, name, rfl, rfl⟩⟩
  · rw [if_neg hg] at h
    simp only [Option.some.injEq] at h
    exact ⟨handle, h.symm, rfl, rfl, Or.inl ⟨not_not.mp hg, rfl⟩⟩

theorem elf_link_publish_find (fuel : Nat) (d : Elf_dynamic) (symbol : Nat) (m m1 : Mem)
    (handle handle1 : Elf_handle) (key : Int)
    (h : elf_link_publish fuel d symbol m handle = some (Flow.go (m1, handle1)))
    (hk : elf_link_published_key fuel d symbol m1 ≠ some key) :
    _elf_tree_find handle1 key = _elf_tree_find handle key := by
  obtain ⟨h1, hr, _, _, hcase⟩ := elf_link_publish_result fuel d symbol m handle _ h
  simp only [Flow.go.injEq, Prod.mk.injEq] at hr
  obtain ⟨hm, hh⟩ := hr
  subst hm hh
  rcases hcase with ⟨_, he⟩ | ⟨hg, name, hc, he⟩
  · rw [he]
  · rw [he]
    unfold elf_link_published_key at hk
    rw [if_pos hg, hc] at hk
    simp only [Option.map_some', ne_eq, Option.some.injEq] at hk
    unfold elf_mapsym
    exact _elf_tree_find_add_other _ _ _ _ (fun e => hk e.symm)

/-- Every way the body of the resolution loop goes on to the next entry ends in
the publishing tail, run on the memory the body leaves. -/
theorem elf_link_symbol_go (fuel buf : Nat) (d : Elf_dynamic) (ii : Nat) (m m1 : Mem)
    (handle handle1 : Elf_handle)
    (h : elf_link_symbol fuel buf d ii m handle = some (Flow.go (m1, handle1))) :
    elf_link_publish fuel d (elf_link_symbol_at d ii) m1 handle
      = some (Flow.go (m1, handle1)) := by
  unfold elf_link_symbol at h
  simp only [] at h
  split_ifs at h with c1 c2 c3
  · cases hc : cstring m fuel ((d.strtab + st_name m (elf_link_symbol_at d ii)) % WORD) with
    | none => rw [hc] at h; cases h
    | some name =>
      rw [hc] at h
      simp only [] at h
      split_ifs at h with c4
      · cases h
      · obtain ⟨h1, hr, _⟩ := elf_link_publish_result _ _ _ _ _ _ h
        simp only [Flow.go.injEq, Prod.mk.injEq] at hr
        rw [← hr.1] at h
        exact h
  · obtain ⟨h1, hr, _⟩ := elf_link_publish_result _ _ _ _ _ _ h
    simp only [Flow.go.injEq, Prod.mk.injEq] at hr
    rw [← hr.1] at h
    exact h
  · cases h
  · obtain ⟨h1, hr, _⟩ := elf_link_publish_result _ _ _ _ _ _ h
    simp only [Flow.go.injEq, Prod.mk.injEq] at hr
    rw [← hr.1] at h
    exact h

/-- An early return of the body of the resolution loop leaves memory and the
link map as they were. -/
theorem elf_link_symbol_ret (fuel buf : Nat) (d : Elf_dynamic) (ii : Nat) (m m1 : Mem)
    (handle handle1 : Elf_handle)
    (h : elf_link_symbol fuel buf d ii m handle = some (Flow.ret (m1, handle1))) :
    m1 = m ∧ (handle1 = elf_set_error handle _elf_error_unresolved_symbol
      ∨ handle1 = elf_set_error handle _elf_error_unimplemented_st_shndx) := by
  unfold elf_link_symbol at h
  simp only [] at h
  split_ifs at h with c1 c2 c3
  · cases hc : cstring m fuel ((d.strtab + st_name m (elf_link_symbol_at d ii)) % WORD) with
    | none => rw [hc] at h; cases h
    | some name =>
      rw [hc] at h
      simp only [] at h
      split_ifs at h with c4
      · simp only [Option.some.injEq, Flow.ret.injEq, Prod.mk.injEq] at h
        exact ⟨h.1.symm, Or.inl h.2.symm⟩
      · obtain ⟨h1, hr, _⟩ := elf_link_publish_result _ _ _ _ _ _ h
        cases hr
  · obtain ⟨h1, hr, _⟩ := elf_link_publish_result _ _ _ _ _ _ h
    cases hr
  · simp only [Option.some.injEq, Flow.ret.injEq, Prod.mk.injEq] at h
    exact ⟨h.1.symm, Or.inr h.2.symm⟩
  · obtain ⟨h1, hr, _⟩ := elf_link_publish_result _ _ _ _ _ _ h
    cases hr

theorem _elf_relocate_entry_handle (m : Mem) (handle : Elf_handle)
    (buf reltab symtab syment : Nat) :
    (∀ m1 handle1, _elf_relocate_entry m handle buf reltab symtab syment
        = Flow.go (m1, handle1) → handle1 = handle)
    ∧ (∀ m1 handle1, _elf_relocate_entry m handle buf reltab symtab syment
        = Flow.ret (m1, handle1) →
          m1 = m ∧ handle1 = elf_set_error handle _elf_error_unimplemented_relocation) := by
  unfold _elf_relocate_entry
  simp only []
  constructor
  · intro m1 handle1 h
    split_ifs at h
    all_goals cases h
    all_goals rfl
  · intro m1 handle1 h
    split_ifs at h
    all_goals cases h
    exact ⟨rfl, rfl⟩

theorem _elf_relocate_loop_handle (buf entsize tableEnd symtab syment : Nat) (fuel : Nat)
    (reltab : Nat) (m m1 : Mem) (handle handle1 : Elf_handle)
    (h : _elf_relocate_loop buf entsize tableEnd symtab syment fuel reltab m handle
      = some (m1, handle1)) :
    handle1 = handle ∨ handle1 = elf_set_error handle _elf_error_unimplemented_relocation := by
  induction fuel generalizing reltab m with
  | zero => cases h
  | succ fuel ih =>
    unfold _elf_relocate_loop at h
    by_cases hlt : reltab < tableEnd
    · rw [if_pos hlt] at h
      cases he : _elf_relocate_entry m handle buf reltab symtab syment with
      | ret s =>
        obtain ⟨m2, h2⟩ := s
        rw [he] at h
        simp only [Option.some.injEq, Prod.mk.injEq] at h
        have := ((_elf_relocate_entry_handle m handle buf reltab symtab syment).2 m2 h2 he).2
        rw [← h.2, this]
        exact Or.inr rfl
      | go s =>
        obtain ⟨m2, h2⟩ := s
        rw [he] at h
        simp only [] at h
        have := (_elf_relocate_entry_handle m handle buf reltab symtab syment).1 m2 h2 he
        rw [this] at h
        exact ih _ _ h
    · rw [if_neg hlt] at h
      simp only [Option.some.injEq, Prod.mk.injEq] at h
      exact Or.inl h.2.symm

theorem _elf_relocate_globalSymbols (fuel : Nat) (m m1 : Mem) (handle handle1 : Elf_handle)
    (buf reltab entsize limit symtab syment : Nat)
    (h : _elf_relocate fuel m handle buf reltab entsize limit symtab syment
      = some (m1, handle1)) :
    handle1.globalSymbols = handle.globalSymbols := by
  unfold _elf_relocate at h
  rcases _elf_relocate_loop_handle _ _ _ _ _ _ _ _ _ _ _ h with e | e
  · rw [e]
  · rw [e]; rfl

theorem elf_link_jmprel_globalSymbols (fuel buf : Nat) (d : Elf_dynamic) (m : Mem)
    (handle : Elf_handle) (final : Elf_state)
    (h : elf_link_jmprel fuel buf d m handle = some final) :
    final.handle.globalSymbols = handle.globalSymbols := by
  unfold elf_link_jmprel at h
  split_ifs at h with c1
  · cases hr : _elf_relocate fuel m handle buf d.jmpReltab sizeof_Elf32_Rel d.pltrelsz
        d.symtab d.syment with
    | none => rw [hr] at h; cases h
    | some p =>
      obtain ⟨m1, h1⟩ := p
      rw [hr] at h
      have hg := _elf_relocate_globalSymbols _ _ _ _ _ _ _ _ _ _ _ hr
      simp only [] at h
      split_ifs at h <;>
        (simp only [Option.some.injEq] at h; rw [← h]; exact hg)
  · simp only [Option.some.injEq] at h
    rw [← h]

theorem elf_link_rel_globalSymbols (fuel buf : Nat) (d : Elf_dynamic) (m : Mem)
    (handle : Elf_handle) (final : Elf_state)
    (h : elf_link_rel fuel buf d m handle = some final) :
    final.handle.globalSymbols = handle.globalSymbols := by
  unfold elf_link_rel at h
  split_ifs at h with c1 c2
  · simp only [Option.some.injEq] at h
    rw [← h]
    rfl
  · cases hr : _elf_relocate fuel m handle buf d.reltab d.relent d.relsz d.symtab d.syment with
    | none => rw [hr] at h; cases h
    | some p =>
      obtain ⟨m1, h1⟩ := p
      rw [hr] at h
      have hg := _elf_relocate_globalSymbols _ _ _ _ _ _ _ _ _ _ _ hr
      simp only [] at h
      split_ifs at h
      · simp only [Option.some.injEq] at h
        rw [← h]
        exact hg
      · rw [elf_link_jmprel_globalSymbols _ _ _ _ _ _ h, hg]
  · exact elf_link_jmprel_globalSymbols _ _ _ _ _ _ h

theorem elf_link_resolve_find (fuel buf : Nat) (d : Elf_dynamic) (n ii : Nat) (m : Mem)
    (handle : Elf_handle) (r : Flow (Mem × Elf_handle)) (key : Int)
    (h : elf_link_resolve fuel buf d n ii m handle = some r)
    (hk : key ∉ elf_link_resolve_keys fuel buf d n ii m handle) :
    _elf_tree_find r.val.2 key = _elf_tree_find handle key := by
  induction n generalizing ii m handle with
  | zero => cases h
  | succ n ih =>
    unfold elf_link_resolve at h
    unfold elf_link_resolve_keys at hk
    by_cases hlt : ii < read32 m (d.hash + 4)
    · rw [if_pos hlt] at h hk
      cases hs : elf_link_symbol fuel buf d ii m handle with
      | none => rw [hs] at h; cases h
      | some s =>
        cases s with
        | ret s =>
          obtain ⟨m1, h1⟩ := s
          rw [hs] at h
          simp only [Option.some.injEq] at h
          rw [← h]
          rcases (elf_link_symbol_ret _ _ _ _ _ _ _ _ hs).2 with e | e <;> rw [Flow.val, e] <;> rfl
        | go s =>
          obtain ⟨m1, h1⟩ := s
          rw [hs] at h hk
          simp only [List.mem_append, not_or, Option.mem_toList, Option.mem_def] at h hk
          rw [ih _ _ _ h hk.2]
          exact elf_link_publish_find _ _ _ _ _ _ _ _ (elf_link_symbol_go _ _ _ _ _ _ _ _ hs)
            hk.1
    · rw [if_neg hlt] at h
      simp only [Option.some.injEq] at h
      rw [← h]
      rfl

theorem elf_link_symbols_find (fuel buf : Nat) (d : Elf_dynamic) (n ii : Nat) (m : Mem)
    (handle : Elf_handle) (final : Elf_state) (key : Int)
    (h : elf_link_symbols fuel buf d n ii m handle = some final)
    (hk : key ∉ elf_link_resolve_keys fuel buf d n ii m handle) :
    _elf_tree_find final.handle key = _elf_tree_find handle key := by
  unfold elf_link_symbols at h
  cases hr : elf_link_resolve fuel buf d n ii m handle with
  | none => rw [hr] at h; cases h
  | some r =>
    have hf := elf_link_resolve_find _ _ _ _ _ _ _ _ key hr hk
    rw [hr] at h
    cases r with
    | ret s =>
      obtain ⟨m1, h1⟩ := s
      simp only [Option.some.injEq] at h
      rw [← h]
      exact hf
    | go s =>
      obtain ⟨m1, h1⟩ := s
      simp only [] at h
      unfold _elf_tree_find at hf ⊢
      rw [elf_link_rel_globalSymbols _ _ _ _ _ _ h]
      exact hf

theorem elf_link_symbols_go (fuel buf : Nat) (d : Elf_dynamic) (n ii : Nat) (m m1 : Mem)
    (handle handle1 : Elf_handle) (hlt : ii < read32 m (d.hash + 4))
    (hs : elf_link_symbol fuel buf d ii m handle = some (Flow.go (m1, handle1))) :
    elf_link_symbols fuel buf d (n + 1) ii m handle
      = elf_link_symbols fuel buf d n (ii + 1) m1 handle1 := by
  unfold elf_link_symbols
  rw [elf_link_resolve, if_pos hlt, hs]

theorem elf_link_symbols_ret (fuel buf : Nat) (d : Elf_dynamic) (n ii : Nat) (m m1 : Mem)
    (handle handle1 : Elf_handle) (hlt : ii < read32 m (d.hash + 4))
    (hs : elf_link_symbol fuel buf d ii m handle = some (Flow.ret (m1, handle1))) :
    elf_link_symbols fuel buf d (n + 1) ii m handle
      = some { mem := m1, handle := handle1, events := [] } := by
  unfold elf_link_symbols
  rw [elf_link_resolve, if_pos hlt, hs]

theorem elf_link_symbols_none (fuel buf : Nat) (d : Elf_dynamic) (n ii : Nat) (m : Mem)
    (handle : Elf_handle) (hlt : ii < read32 m (d.hash + 4))
    (hs : elf_link_symbol fuel buf d ii m handle = none) :
    elf_link_symbols fuel buf d (n + 1) ii m handle = none := by
  unfold elf_link_symbols
  rw [elf_link_resolve, if_pos hlt, hs]

/-- The body of the resolution loop on an undefined entry whose name resolves,
or whose binding is weak: two stores, then the publishing tail. -/
theorem elf_link_symbol_undef_bound (fuel buf : Nat) (d : Elf_dynamic) (ii : Nat) (m : Mem)
    (handle : Elf_handle) (name : List Nat)
    (hundef : st_shndx m (elf_link_symbol_at d ii) = SHN_UNDEF)
    (hname : cstring m fuel ((d.strtab + st_name m (elf_link_symbol_at d ii)) % WORD)
      = some name)
    (hok : ¬ (_elf_tree_find handle (_elf_hash name) = 0
      ∧ ELF32_ST_BIND (st_info m (elf_link_symbol_at d ii)) &&& STB_WEAK = 0)) :
    elf_link_symbol fuel buf d ii m handle
      = elf_link_publish fuel d (elf_link_symbol_at d ii)
          (write32 (write16 m (elf_link_symbol_at d ii + 14) SHN_ABS)
            (elf_link_symbol_at d ii + 4) (_elf_tree_find handle (_elf_hash name))) handle := by
  unfold elf_link_symbol
  simp only []
  rw [if_pos hundef, hname]
  simp only []
  rw [if_neg hok]

theorem elf_link_symbol_undef_absent (fuel buf : Nat) (d : Elf_dynamic) (ii : Nat) (m : Mem)
    (handle : Elf_handle) (name : List Nat)
    (hundef : st_shndx m (elf_link_symbol_at d ii) = SHN_UNDEF)
    (hname : cstring m fuel ((d.strtab + st_name m (elf_link_symbol_at d ii)) % WORD)
      = some name)
    (hbad : _elf_tree_find handle (_elf_hash name) = 0
      ∧ ELF32_ST_BIND (st_info m (elf_link_symbol_at d ii)) &&& STB_WEAK = 0) :
    elf_link_symbol fuel buf d ii m handle
      = some (Flow.ret (m, elf_set_error handle _elf_error_unresolved_symbol)) := by
  unfold elf_link_symbol
  simp only []
  rw [if_pos hundef, hname]
  simp only []
  rw [if_pos hbad]

/-! ## The loader -/

theorem read8_congr (m1 m2 : Mem) (a : Nat) (h : m1 a = m2 a) : read8 m1 a = read8 m2 a := by
  unfold read8
  rw [h]

theorem read16_congr (m1 m2 : Mem) (a : Nat) (h : ∀ x, a ≤ x → x < a + 2 → m1 x = m2 x) :
    read16 m1 a = read16 m2 a := by
  unfold read16
  rw [read8_congr m1 m2 a (h a (by omega) (by omega)),
    read8_congr m1 m2 (a + 1) (h (a + 1) (by omega) (by omega))]

theorem read32_congr (m1 m2 : Mem) (a : Nat) (h : ∀ x, a ≤ x → x < a + 4 → m1 x = m2 x) :
    read32 m1 a = read32 m2 a := by
  unfold read32
  rw [read8_congr m1 m2 a (h a (by omega) (by omega)),
    read8_congr m1 m2 (a + 1) (h (a + 1) (by omega) (by omega)),
    read8_congr m1 m2 (a + 2) (h (a + 2) (by omega) (by omega)),
    read8_congr m1 m2 (a + 3) (h (a + 3) (by omega) (by omega))]

/-- A memory that agrees with `m` on the image `[header, header + L)` shows the
same ELF header fields and the same program headers. -/
theorem image_fields_congr (m mc : Mem) (header L : Nat) (hL : 46 ≤ L)
    (hag : ∀ x, header ≤ x → x < header + L → mc x = m x) :
    e_phnum mc header = e_phnum m header
    ∧ (∀ i, ELF32_PH_GET mc header i = ELF32_PH_GET m header i)
    ∧ (∀ p, header ≤ p → p + 32 ≤ header + L →
        p_type mc p = p_type m p ∧ p_offset mc p = p_offset m p ∧ p_vaddr mc p = p_vaddr m p
        ∧ p_filesz mc p = p_filesz m p ∧ p_memsz mc p = p_memsz m p) := by
  have h1 : e_phnum mc header = e_phnum m header :=
    read16_congr _ _ _ (fun x h1 h2 => hag x (by omega) (by omega))
  have h2 : e_phoff mc header = e_phoff m header :=
    read32_congr _ _ _ (fun x h1 h2 => hag x (by omega) (by omega))
  have h3 : e_phentsize mc header = e_phentsize m header :=
    read16_congr _ _ _ (fun x h1 h2 => hag x (by omega) (by omega))
  refine ⟨h1, ?_, ?_⟩
  · intro i
    unfold ELF32_PH_GET
    rw [h2, h3]
  · intro p hp1 hp2
    refine ⟨?_, ?_, ?_, ?_, ?_⟩
    · exact read32_congr _ _ _ (fun x h1 h2 => hag x (by omega) (by omega))
    · exact read32_congr _ _ _ (fun x h1 h2 => hag x (by omega) (by omega))
    · exact read32_congr _ _ _ (fun x h1 h2 => hag x (by omega) (by omega))
    · exact read32_congr _ _ _ (fun x h1 h2 => hag x (by omega) (by omega))
    · exact read32_congr _ _ _ (fun x h1 h2 => hag x (by omega) (by omega))

/-- The `memset` of one iteration of the loading loop, on a segment whose
destination does not wrap: it zeroes `[dest + filesz, dest + memsz)`. -/
theorem load_memset_bytes (mc : Mem) (dest filesz memsz : Nat)
    (hle : filesz ≤ memsz) (hw : memsz < WORD) (hd : dest + memsz ≤ WORD) (y : Nat) :
    memset mc ((dest + filesz) % WORD) 0 ((memsz + WORD - filesz) % WORD) y
      = if dest + filesz ≤ y ∧ y < dest + memsz then 0 else mc y := by
  have hn : (memsz + WORD - filesz) % WORD = memsz - filesz := by
    unfold WORD at hw ⊢
    omega
  unfold memset
  rw [hn]
  by_cases hlt : dest + filesz < WORD
  · rw [Nat.mod_eq_of_lt hlt]
    have e : dest + filesz + (memsz - filesz) = dest + memsz := by omega
    rw [e]
  · have c1 : ¬ ((dest + filesz) % WORD ≤ y ∧ y < (dest + filesz) % WORD + (memsz - filesz)) := by
      omega
    have c2 : ¬ (dest + filesz ≤ y ∧ y < dest + memsz) := by omega
    rw [if_neg c1, if_neg c2]

/-- The two library calls of one iteration of the loading loop, on a segment
whose destination does not wrap: outside `[dest, dest + memsz)` nothing changes,
the first `filesz` bytes are copied and the rest is zeroed. -/
theorem load_segment_bytes (mc : Mem) (dest content filesz memsz : Nat)
    (hle : filesz ≤ memsz) (hw : memsz < WORD) (hd : dest + memsz ≤ WORD) (x : Nat) :
    memcpy (memset mc ((dest + filesz) % WORD) 0 ((memsz + WORD - filesz) % WORD)) dest
        content filesz x
      = if dest ≤ x ∧ x < dest + filesz then
          (if dest + filesz ≤ content + (x - dest) ∧ content + (x - dest) < dest + memsz then 0
            else mc (content + (x - dest)))
        else if dest + filesz ≤ x ∧ x < dest + memsz then 0
        else mc x := by
  unfold memcpy
  rw [load_memset_bytes mc dest filesz memsz hle hw hd,
    load_memset_bytes mc dest filesz memsz hle hw hd]

/-- One iteration of the loading loop on a loadable segment, in terms of the
image's own fields, when the memory so far agrees with the image on
`[header, header + L)`. -/
theorem elf_link_load_step (m mc : Mem) (header buf L N b ii : Nat)
    (hsep : header + L ≤ buf ∨ buf + N ≤ header)
    (himg : image_within m header L) (hseg : segments_within m header buf N)
    (hag : ∀ x, header ≤ x → x < header + L → mc x = m x)
    (hlt : ii < e_phnum m header)
    (hload : p_type m (ELF32_PH_GET m header ii) = PT_LOAD) :
    elf_link_load header buf (b + 1) ii mc
      = elf_link_load header buf b (ii + 1)
          (memcpy (memset mc
              (((buf + p_vaddr m (ELF32_PH_GET m header ii)) % WORD
                + p_filesz m (ELF32_PH_GET m header ii)) % WORD) 0
              ((p_memsz m (ELF32_PH_GET m header ii) + WORD
                - p_filesz m (ELF32_PH_GET m header ii)) % WORD))
            ((buf + p_vaddr m (ELF32_PH_GET m header ii)) % WORD)
            (ELF32_PH_CONTENT m header (ELF32_PH_GET m header ii))
            (p_filesz m (ELF32_PH_GET m header ii))) := by
  obtain ⟨hL, hph, hcont⟩ := himg
  obtain ⟨hn, hget, hfld⟩ := image_fields_congr m mc header L hL hag
  obtain ⟨hp1, hp2⟩ := hph ii hlt
  obtain ⟨ht, ho, hv, hf, hm⟩ := hfld _ hp1 hp2
  obtain ⟨hle, hb1, hb2, hb3⟩ := hseg ii hlt hload
  have hmw : p_memsz m (ELF32_PH_GET m header ii) < WORD := read32_lt _ _
  -- the memory after the `memset` still agrees with the image on the image
  have hag1 : ∀ x, header ≤ x → x < header + L →
      memset mc (((buf + p_vaddr m (ELF32_PH_GET m header ii)) % WORD
          + p_filesz m (ELF32_PH_GET m header ii)) % WORD) 0
        ((p_memsz m (ELF32_PH_GET m header ii) + WORD
          - p_filesz m (ELF32_PH_GET m header ii)) % WORD) x = m x := by
    intro x hx1 hx2
    rw [load_memset_bytes mc _ _ _ hle hmw (by omega) x, if_neg (by omega)]
    exact hag x hx1 hx2
  obtain ⟨_, _, hfld1⟩ := image_fields_congr m _ header L hL hag1
  obtain ⟨_, ho1, _, hf1, _⟩ := hfld1 _ hp1 hp2
  rw [elf_link_load, hn, if_pos hlt]
  simp only [hget, ht, hload, if_true, hv, hf, hm, ELF32_PH_CONTENT, ho1, hf1]

theorem elf_link_load_skip (m mc : Mem) (header buf L b ii : Nat)
    (himg : image_within m header L)
    (hag : ∀ x, header ≤ x → x < header + L → mc x = m x)
    (hlt : ii < e_phnum m header)
    (hload : ¬ p_type m (ELF32_PH_GET m header ii) = PT_LOAD) :
    elf_link_load header buf (b + 1) ii mc = elf_link_load header buf b (ii + 1) mc := by
  obtain ⟨hL, hph, _⟩ := himg
  obtain ⟨hn, hget, hfld⟩ := image_fields_congr m mc header L hL hag
  obtain ⟨hp1, hp2⟩ := hph ii hlt
  obtain ⟨ht, _⟩ := hfld _ hp1 hp2
  rw [elf_link_load, hn, if_pos hlt]
  simp only [hget, ht, hload, if_false]

theorem elf_link_load_end (m mc : Mem) (header buf L b ii : Nat)
    (himg : image_within m header L)
    (hag : ∀ x, header ≤ x → x < header + L → mc x = m x)
    (hge : ¬ ii < e_phnum m header) :
    elf_link_load header buf b ii mc = mc := by
  obtain ⟨hn, _, _⟩ := image_fields_congr m mc header L himg.1 hag
  cases b with
  | zero => rfl
  | succ b => rw [elf_link_load, hn, if_neg hge]

/-- The invariant of the loading loop: the image is untouched and every loadable
segment below the loop index satisfies the loader contract. -/
theorem elf_link_load_inv (m : Mem) (header buf L N : Nat)
    (hsep : header + L ≤ buf ∨ buf + N ≤ header)
    (himg : image_within m header L) (hseg : segments_within m header buf N)
    (hdis : segments_disjoint m header buf)
    (b ii : Nat) (mc : Mem)
    (hb : e_phnum m header - ii ≤ b)
    (hag : ∀ x, header ≤ x → x < header + L → mc x = m x)
    (hdone : ∀ i, i < ii → i < e_phnum m header →
      p_type m (ELF32_PH_GET m header i) = PT_LOAD →
      segment_loaded m header buf mc (ELF32_PH_GET m header i)) :
    (∀ x, header ≤ x → x < header + L → elf_link_load header buf b ii mc x = m x)
    ∧ (∀ i, i < e_phnum m header → p_type m (ELF32_PH_GET m header i) = PT_LOAD →
        segment_loaded m header buf (elf_link_load header buf b ii mc)
          (ELF32_PH_GET m header i)) := by
  induction b generalizing ii mc with
  | zero =>
    have hge : ¬ ii < e_phnum m header := by omega
    rw [elf_link_load_end m mc header buf L 0 ii himg hag hge]
    exact ⟨hag, fun i hi hl => hdone i (by omega) hi hl⟩
  | succ b ih =>
    by_cases hlt : ii < e_phnum m header
    · by_cases hload : p_type m (ELF32_PH_GET m header ii) = PT_LOAD
      · rw [elf_link_load_step m mc header buf L N b ii hsep himg hseg hag hlt hload]
        obtain ⟨hle, hb1, hb2, hb3⟩ := hseg ii hlt hload
        obtain ⟨hc1, hc2⟩ := himg.2.2 ii hlt hload
        have hmw : p_memsz m (ELF32_PH_GET m header ii) < WORD := read32_lt _ _
        have hbytes := load_segment_bytes mc
          ((buf + p_vaddr m (ELF32_PH_GET m header ii)) % WORD)
          (ELF32_PH_CONTENT m header (ELF32_PH_GET m header ii))
          (p_filesz m (ELF32_PH_GET m header ii)) (p_memsz m (ELF32_PH_GET m header ii))
          hle hmw (by omega)
        apply ih (ii + 1) _ (by omega)
        · intro x hx1 hx2
          rw [hbytes x, if_neg (by omega), if_neg (by omega)]
          exact hag x hx1 hx2
        · intro i hi1 hi2 hli
          by_cases hii : i = ii
          · subst hii
            constructor
            · intro k hk
              unfold read8
              rw [hbytes _, if_pos (by omega), Nat.add_sub_cancel_left, if_neg (by omega),
                hag _ (by omega) (by omega)]
            · intro k hk1 hk2
              unfold read8
              rw [hbytes _, if_neg (by omega), if_pos (by omega)]
          · obtain ⟨hd1, hd2⟩ := hdone i (by omega) hi2 hli
            obtain ⟨hle2, _, _, _⟩ := hseg i hi2 hli
            have hap := hdis i hi2 ii hlt ⟨hii, hli, hload⟩
            unfold segments_apart at hap
            constructor
            · intro k hk
              have hprev := hd1 k hk
              unfold read8 at hprev ⊢
              rw [hbytes _, if_neg (by omega), if_neg (by omega)]
              exact hprev
            · intro k hk1 hk2
              have hprev := hd2 k hk1 hk2
              unfold read8 at hprev ⊢
              rw [hbytes _, if_neg (by omega), if_neg (by omega)]
              exact hprev
      · rw [elf_link_load_skip m mc header buf L b ii himg hag hlt hload]
        apply ih (ii + 1) mc (by omega) hag
        intro i hi1 hi2 hli
        by_cases hii : i = ii
        · subst hii
          exact absurd hli hload
        · exact hdone i (by omega) hi2 hli
    · rw [elf_link_load_end m mc header buf L (b + 1) ii himg hag hlt]
      exact ⟨hag, fun i hi hl => hdone i (by omega) hi hl⟩

/-! ## From `elf_link` to symbol resolution -/

/-- When a dynamic segment is found, its scan ends at the terminator and the five
required locals are non-zero, `elf_link` is symbol resolution from index 1 on,
run on the memory the loading loop leaves and the handle the scan leaves. -/
theorem elf_link_enters_resolution (fuel : Nat) (m : Mem) (handle handle1 : Elf_handle)
    (buf : Nat) (d : Elf_dynamic)
    (hdyn : elf_link_find_dynamic (elf_link_load handle.header buf 65536 0 m) handle.header
      65536 0 ≠ 0)
    (hscan : elf_link_scan (elf_link_load handle.header buf 65536 0 m) handle.header buf fuel
      (ELF32_PH_CONTENT (elf_link_load handle.header buf 65536 0 m) handle.header
        (elf_link_find_dynamic (elf_link_load handle.header buf 65536 0 m) handle.header
          65536 0)) handle Elf_dynamic.zero = some (Flow.go (handle1, d)))
    (hreq : ¬ (d.hash = 0 ∨ d.strtab = 0 ∨ d.symtab = 0 ∨ d.syment = 0 ∨ d.strsz = 0)) :
    elf_link fuel m handle buf
      = elf_link_symbols fuel buf d WORD 1 (elf_link_load handle.header buf 65536 0 m)
          handle1 := by
  unfold elf_link
  simp only []
  rw [if_neg hdyn]
  unfold elf_link_dynamic
  simp only []
  rw [hscan]
  simp only []
  rw [if_neg hreq]

/-! ## The demo image inside `elf_link` -/

/-- On the demo image with the buffer at 0x8000, `elf_link` finds the dynamic
segment at 0x1054 and its scan ends with the locals `demoDynamic 0x8000`, the
handle unchanged: `demoLoaded`, `demoDynamic` and `demoHandle` are the state in
which `elf_link` enters symbol resolution. -/
theorem demo_enters_resolution :
    elf_link_find_dynamic (demoLoaded 0x20 0x40 0x8000) 0x1000 65536 0 = 0x1054
    ∧ elf_link_scan (demoLoaded 0x20 0x40 0x8000) 0x1000 0x8000 100
        (ELF32_PH_CONTENT (demoLoaded 0x20 0x40 0x8000) 0x1000 0x1054) (demoHandle 0x20 0x40)
        Elf_dynamic.zero = some (Flow.go (demoHandle 0x20 0x40, demoDynamic 0x8000))
    ∧ elf_link_scan (demoLoaded 0x10 0x40 0x8000) 0x1000 0x8000 100
        (ELF32_PH_CONTENT (demoLoaded 0x10 0x40 0x8000) 0x1000 0x1054) (demoHandle 0x10 0x40)
        Elf_dynamic.zero = some (Flow.go (demoHandle 0x10 0x40, demoDynamic 0x8000))
    ∧ elf_link_scan (demoLoaded 0x20 0x2000 0xFFFFF000) 0x1000 0xFFFFF000 100
        (ELF32_PH_CONTENT (demoLoaded 0x20 0x2000 0xFFFFF000) 0x1000 0x1054)
        (demoHandle 0x20 0x2000) Elf_dynamic.zero
        = some (Flow.go (demoHandle 0x20 0x2000, demoDynamic 0xFFFFF000)) := by
  refine ⟨by decide!, by decide!, by decide!, by decide!⟩

/-! ## The scan of the dynamic table -/

/-- One turn of the scan loop on an entry that is not the terminator. -/
theorem elf_link_scan_succ (m : Mem) (header buf fuel dynamics : Nat) (handle : Elf_handle)
    (d : Elf_dynamic) (h0 : d_tag m dynamics ≠ DT_NULL) :
    elf_link_scan m header buf (fuel + 1) dynamics handle d
      = match elf_link_scan_switch header buf (d_tag m dynamics) (d_un m dynamics) handle d with
        | .ret s => some (.ret s)
        | .go (handle1, d1) =>
          elf_link_scan m header buf fuel ((dynamics + sizeof_Elf32_Dyn) % WORD) handle1 d1 := by
  rw [elf_link_scan, if_neg h0]
  unfold elf_link_scan_switch
  by_cases h1 : d_tag m dynamics = DT_NEEDED
  · rw [if_pos h1, if_pos h1]
  rw [if_neg h1, if_neg h1]
  by_cases h2 : d_tag m dynamics = DT_PLTRELSZ
  · rw [if_pos h2, if_pos h2]
  rw [if_neg h2, if_neg h2]
  by_cases h3 : d_tag m dynamics = DT_HASH
  · rw [if_pos h3, if_pos h3]
  rw [if_neg h3, if_neg h3]
  by_cases h4 : d_tag m dynamics = DT_STRTAB
  · rw [if_pos h4, if_pos h4]
  rw [if_neg h4, if_neg h4]
  by_cases h5 : d_tag m dynamics = DT_SYMTAB
  · rw [if_pos h5, if_pos h5]
  rw [if_neg h5, if_neg h5]
  by_cases h6 : d_tag m dynamics = DT_STRSZ
  · rw [if_pos h6, if_pos h6]
  rw [if_neg h6, if_neg h6]
  by_cases h7 : d_tag m dynamics = DT_SYMENT
  · rw [if_pos h7, if_pos h7]
  rw [if_neg h7, if_neg h7]
  by_cases h8 : d_tag m dynamics = DT_REL
  · rw [if_pos h8, if_pos h8]
  rw [if_neg h8, if_neg h8]
  by_cases h9 : d_tag m dynamics = DT_RELSZ
  · rw [if_pos h9, if_pos h9]
  rw [if_neg h9, if_neg h9]
  by_cases h10 : d_tag m dynamics = DT_RELENT
  · rw [if_pos h10, if_pos h10]
  rw [if_neg h10, if_neg h10]
  by_cases h11 : d_tag m dynamics = DT_JMPREL
  · rw [if_pos h11, if_pos h11]
  rw [if_neg h11, if_neg h11]
  by_cases h12 : d_tag m dynamics = DT_INIT_ARRAY
  · rw [if_pos h12, if_pos h12]
  rw [if_neg h12, if_neg h12]
  by_cases h13 : d_tag m dynamics = DT_INIT_ARRAYSZ
  · rw [if_pos h13, if_pos h13]
  rw [if_neg h13, if_neg h13]
  by_cases h14 : d_tag m dynamics = DT_FINI_ARRAY
  · rw [if_pos h14, if_pos h14]
  rw [if_neg h14, if_neg h14]
  by_cases h15 : d_tag m dynamics = DT_FINI_ARRAYSZ
  · rw [if_pos h15, if_pos h15]
  rw [if_neg h15, if_neg h15]
  by_cases hi : d_tag m dynamics = DT_PLTGOT ∨ d_tag m dynamics = DT_INIT
      ∨ d_tag m dynamics = DT_FINI ∨ d_tag m dynamics = DT_PLTREL
      ∨ d_tag m dynamics = DT_TEXTREL ∨ d_tag m dynamics = 0x6FFFFFFA
  · rw [if_pos hi, if_pos hi]
  · rw [if_neg hi, if_neg hi]

/-- The scan loop over `k` entries none of which is the terminator. -/
theorem elf_link_scan_head (m : Mem) (header buf : Nat) :
    ∀ (k fuel dynamics : Nat) (handle : Elf_handle) (d : Elf_dynamic),
      (∀ e ∈ dyn_entries m k dynamics, e.1 ≠ DT_NULL) →
      elf_link_scan m header buf (fuel + k) dynamics handle d
        = match elf_link_scan_entries header buf (dyn_entries m k dynamics) handle d with
          | .ret s => some (.ret s)
          | .go (handle1, d1) =>
            elf_link_scan m header buf fuel (dyn_ptr dynamics k) handle1 d1 := by
  intro k
  induction k with
  | zero => intro fuel dynamics handle d _; rfl
  | succ k ih =>
    intro fuel dynamics handle d hall
    have h0 : d_tag m dynamics ≠ DT_NULL := hall (d_tag m dynamics, d_un m dynamics) (by
      simp [dyn_entries])
    have hrest : ∀ e ∈ dyn_entries m k ((dynamics + sizeof_Elf32_Dyn) % WORD),
        e.1 ≠ DT_NULL := fun e he => hall e (by simp [dyn_entries, he])
    rw [← Nat.add_assoc, elf_link_scan_succ m header buf (fuel + k) dynamics handle d h0]
    simp only [dyn_entries, elf_link_scan_entries, dyn_ptr]
    cases hsw : elf_link_scan_switch header buf (d_tag m dynamics) (d_un m dynamics) handle d with
    | ret s => rfl
    | go s =>
      obtain ⟨handle1, d1⟩ := s
      exact ih fuel _ handle1 d1 hrest

/-- The scan loop on a table of `k` entries followed by the terminator. -/
theorem elf_link_scan_table (m : Mem) (header buf k fuel dynamics : Nat) (handle : Elf_handle)
    (d : Elf_dynamic) (hall : ∀ e ∈ dyn_entries m k dynamics, e.1 ≠ DT_NULL)
    (hend : d_tag m (dyn_ptr dynamics k) = DT_NULL) (hfuel : k < fuel) :
    elf_link_scan m header buf fuel dynamics handle d
      = some (elf_link_scan_entries header buf (dyn_entries m k dynamics) handle d) := by
  obtain ⟨f, rfl⟩ : ∃ f, fuel = (f + 1) + k := ⟨fuel - k - 1, by omega⟩
  rw [elf_link_scan_head m header buf k (f + 1) dynamics handle d hall]
  cases hs : elf_link_scan_entries header buf (dyn_entries m k dynamics) handle d with
  | ret s => rfl
  | go s =>
    obtain ⟨handle1, d1⟩ := s
    show elf_link_scan m header buf (f + 1) (dyn_ptr dynamics k) handle1 d1 = _
    rw [elf_link_scan, if_pos hend]

/-- An entry with an ignored tag leaves the handle and the locals as they are. -/
theorem elf_link_scan_switch_ignored (header buf tag val : Nat) (handle : Elf_handle)
    (d : Elf_dynamic) (h : dt_ignored tag) :
    elf_link_scan_switch header buf tag val handle d = .go (handle, d) := by
  unfold dt_ignored at h
  unfold elf_link_scan_switch
  rcases h with h | h | h | h | h | h
  all_goals subst h; rfl

/-- The tag `DT_NEEDED` makes the scan return with "Dependency". -/
theorem elf_link_scan_switch_needed (header buf val : Nat) (handle : Elf_handle)
    (d : Elf_dynamic) :
    elf_link_scan_switch header buf DT_NEEDED val handle d
      = .ret (elf_set_error handle _elf_error_dependency, d) := by
  unfold elf_link_scan_switch
  rw [if_pos rfl]

/-- A tag with no `case` label makes the scan return with "D_tag". -/
theorem elf_link_scan_switch_default (header buf tag val : Nat) (handle : Elf_handle)
    (d : Elf_dynamic) (h1 : tag ≠ DT_NEEDED) (h2 : ¬ dt_recorded tag) (h3 : ¬ dt_ignored tag) :
    elf_link_scan_switch header buf tag val handle d
      = .ret (elf_set_error handle _elf_error_d_tag, d) := by
  unfold dt_recorded at h2
  unfold dt_ignored at h3
  simp only [not_or] at h2
  obtain ⟨a1, a2, a3, a4, a5, a6, a7, a8, a9, a10, a11, a12, a13, a14⟩ := h2
  unfold elf_link_scan_switch
  rw [if_neg h1, if_neg a1, if_neg a2, if_neg a3, if_neg a4, if_neg a5, if_neg a6, if_neg a7,
    if_neg a8, if_neg a9, if_neg a10, if_neg a11, if_neg a12, if_neg a13, if_neg a14, if_neg h3]

/-- Entries with ignored tags can be dropped from the list without changing the scan. -/
theorem elf_link_scan_entries_filter (header buf : Nat) :
    ∀ (l : List (Nat × Nat)) (handle : Elf_handle) (d : Elf_dynamic),
      elf_link_scan_entries header buf (l.filter (fun e => decide (¬ dt_ignored e.1))) handle d
        = elf_link_scan_entries header buf l handle d := by
  intro l
  induction l with
  | nil => intro handle d; rfl
  | cons e rest ih =>
    intro handle d
    by_cases hi : dt_ignored e.1
    · have hf : (e :: rest).filter (fun e => decide (¬ dt_ignored e.1))
          = rest.filter (fun e => decide (¬ dt_ignored e.1)) := by
        simp [List.filter, hi]
      rw [hf, ih handle d]
      conv_rhs => rw [elf_link_scan_entries]
      rw [elf_link_scan_switch_ignored header buf e.1 e.2 handle d hi]
    · have hf : (e :: rest).filter (fun e => decide (¬ dt_ignored e.1))
          = e :: rest.filter (fun e => decide (¬ dt_ignored e.1)) := by
        simp [List.filter, hi]
      rw [hf]
      simp only [elf_link_scan_entries]
      cases hsw : elf_link_scan_switch header buf e.1 e.2 handle d with
      | ret s => rfl
      | go s =>
        obtain ⟨handle1, d1⟩ := s
        exact ih handle1 d1

/-- The cases of the `switch` of the scan, one disjunct for every `case` label. -/
theorem elf_link_scan_switch_cases (header buf tag val : Nat) (handle : Elf_handle)
    (d : Elf_dynamic) :
    (tag = DT_NEEDED ∧ elf_link_scan_switch header buf tag val handle d
        = .ret (elf_set_error handle _elf_error_dependency, d))
    ∨ (tag = DT_PLTRELSZ ∧ elf_link_scan_switch header buf tag val handle d
        = .go (handle, { d with pltrelsz := val }))
    ∨ (tag = DT_HASH ∧ elf_link_scan_switch header buf tag val handle d
        = .go (handle, { d with hash := (header + val) % WORD }))
    ∨ (tag = DT_STRTAB ∧ elf_link_scan_switch header buf tag val handle d
        = .go (handle, { d with strtab := (header + val) % WORD }))
    ∨ (tag = DT_SYMTAB ∧ elf_link_scan_switch header buf tag val handle d
        = .go (handle, { d with symtab := (buf + val) % WORD }))
    ∨ (tag = DT_STRSZ ∧ elf_link_scan_switch header buf tag val handle d
        = .go (handle, { d with strsz := val }))
    ∨ (tag = DT_SYMENT ∧ elf_link_scan_switch header buf tag val handle d
        = .go (handle, { d with syment := val }))
    ∨ (tag = DT_REL ∧ elf_link_scan_switch header buf tag val handle d
        = .go (handle, { d with reltab := (header + val) % WORD }))
    ∨ (tag = DT_RELSZ ∧ elf_link_scan_switch header buf tag val handle d
        = .go (handle, { d with relsz := val }))
    ∨ (tag = DT_RELENT ∧ elf_link_scan_switch header buf tag val handle d
        = .go (handle, { d with relent := val }))
    ∨ (tag = DT_JMPREL ∧ elf_link_scan_switch header buf tag val handle d
        = .go (handle, { d with jmpReltab := (header + val) % WORD }))
    ∨ (tag = DT_INIT_ARRAY ∧ elf_link_scan_switch header buf tag val handle d
        = .go (handle, { d with initArray := (val + buf) % WORD }))
    ∨ (tag = DT_INIT_ARRAYSZ ∧ elf_link_scan_switch header buf tag val handle d
        = .go (handle, { d with initLength := val / sizeof_Elf32_Addr }))
    ∨ (tag = DT_FINI_ARRAY ∧ elf_link_scan_switch header buf tag val handle d
        = .go ({ handle with finiArray := (val + buf) % WORD }, d))
    ∨ (tag = DT_FINI_ARRAYSZ ∧ elf_link_scan_switch header buf tag val handle d
        = .go ({ handle with finiLength := val / sizeof_Elf32_Addr }, d))
    ∨ (dt_ignored tag ∧ elf_link_scan_switch header buf tag val handle d = .go (handle, d))
    ∨ (tag ≠ DT_NEEDED ∧ ¬ dt_recorded tag ∧ ¬ dt_ignored tag
        ∧ elf_link_scan_switch header buf tag val handle d
          = .ret (elf_set_error handle _elf_error_d_tag, d)) := by
  by_cases h0 : tag = DT_NEEDED
  · left
    refine ⟨h0, ?_⟩
    unfold elf_link_scan_switch
    rw [if_pos h0]
  right
  by_cases h1 : tag = DT_PLTRELSZ
  · left
    refine ⟨h1, ?_⟩
    unfold elf_link_scan_switch
    rw [if_neg h0, if_pos h1]
  right
  by_cases h2 : tag = DT_HASH
  · left
    refine ⟨h2, ?_⟩
    unfold elf_link_scan_switch
    rw [if_neg h0, if_neg h1, if_pos h2]
  right
  by_cases h3 : tag = DT_STRTAB
  · left
    refine ⟨h3, ?_⟩
    unfold elf_link_scan_switch
    rw [if_neg h0, if_neg h1, if_neg h2, if_pos h3]
  right
  by_cases h4 : tag = DT_SYMTAB
  · left
    refine ⟨h4, ?_⟩
    unfold elf_link_scan_switch
    rw [if_neg h0, if_neg h1, if_neg h2, if_neg h3, if_pos h4]
  right
  by_cases h5 : tag = DT_STRSZ
  · left
    refine ⟨h5, ?_⟩
    unfold elf_link_scan_switch
    rw [if_neg h0, if_neg h1, if_neg h2, if_neg h3, if_neg h4, if_pos h5]
  right
  by_cases h6 : tag = DT_SYMENT
  · left
    refine ⟨h6, ?_⟩
    unfold elf_link_scan_switch
    rw [if_neg h0, if_neg h1, if_neg h2, if_neg h3, if_neg h4, if_neg h5, if_pos h6]
  right
  by_cases h7 : tag = DT_REL
  · left
    refine ⟨h7, ?_⟩
    unfold elf_link_scan_switch
    rw [if_neg h0, if_neg h1, if_neg h2, if_neg h3, if_neg h4, if_neg h5, if_neg h6, if_pos h7]
  right
  by_cases h8 : tag = DT_RELSZ
  · left
    refine ⟨h8, ?_⟩
    unfold elf_link_scan_switch
    rw [if_neg h0, if_neg h1, if_neg h2, if_neg h3, if_neg h4, if_neg h5, if_neg h6, if_neg h7, if_pos h8]
  right
  by_cases h9 : tag = DT_RELENT
  · left
    refine ⟨h9, ?_⟩
    unfold elf_link_scan_switch
    rw [if_neg h0, if_neg h1, if_neg h2, if_neg h3, if_neg h4, if_neg h5, if_neg h6, if_neg h7, if_neg h8, if_pos h9]
  right
  by_cases h10 : tag = DT_JMPREL
  · left
    refine ⟨h10, ?_⟩
    unfold elf_link_scan_switch
    rw [if_neg h0, if_neg h1, if_neg h2, if_neg h3, if_neg h4, if_neg h5, if_neg h6, if_neg h7, if_neg h8, if_neg h9, if_pos h10]
  right
  by_cases h11 : tag = DT_INIT_ARRAY
  · left
    refine ⟨h11, ?_⟩
    unfold elf_link_scan_switch
    rw [if_neg h0, if_neg h1, if_neg h2, if_neg h3, if_neg h4, if_neg h5, if_neg h6, if_neg h7, if_neg h8, if_neg h9, if_neg h10, if_pos h11]
  right
  by_cases h12 : tag = DT_INIT_ARRAYSZ
  · left
    refine ⟨h12, ?_⟩
    unfold elf_link_scan_switch
    rw [if_neg h0, if_neg h1, if_neg h2, if_neg h3, if_neg h4, if_neg h5, if_neg h6, if_neg h7, if_neg h8, if_neg h9, if_neg h10, if_neg h11, if_pos h12]
  right
  by_cases h13 : tag = DT_FINI_ARRAY
  · left
    refine ⟨h13, ?_⟩
    unfold elf_link_scan_switch
    rw [if_neg h0, if_neg h1, if_neg h2, if_neg h3, if_neg h4, if_neg h5, if_neg h6, if_neg h7, if_neg h8, if_neg h9, if_neg h10, if_neg h11, if_neg h12, if_pos h13]
  right
  by_cases h14 : tag = DT_FINI_ARRAYSZ
  · left
    refine ⟨h14, ?_⟩
    unfold elf_link_scan_switch
    rw [if_neg h0, if_neg h1, if_neg h2, if_neg h3, if_neg h4, if_neg h5, if_neg h6, if_neg h7, if_neg h8, if_neg h9, if_neg h10, if_neg h11, if_neg h12, if_neg h13, if_pos h14]
  right
  by_cases hi : dt_ignored tag
  · left
    exact ⟨hi, elf_link_scan_switch_ignored header buf tag val handle d hi⟩
  right
  have hr : ¬ dt_recorded tag := by
    unfold dt_recorded
    simp only [not_or]
    exact ⟨h1, h2, h3, h4, h5, h6, h7, h8, h9, h10, h11, h12, h13, h14⟩
  exact ⟨h0, hr, hi, elf_link_scan_switch_default header buf tag val handle d h0 hr hi⟩

/-- What an entry that ends in `break` leaves untouched: the flags, the message, the
image pointer and the map of the handle, and every local its tag does not name. -/
theorem elf_link_scan_switch_go (header buf tag val : Nat) (handle : Elf_handle)
    (d : Elf_dynamic) (handle1 : Elf_handle) (d1 : Elf_dynamic)
    (h : elf_link_scan_switch header buf tag val handle d = .go (handle1, d1)) :
    handle1.flags = handle.flags ∧ handle1.error = handle.error
      ∧ handle1.header = handle.header ∧ handle1.globalSymbols = handle.globalSymbols
      ∧ (tag ≠ DT_HASH → d1.hash = d.hash) ∧ (tag ≠ DT_STRTAB → d1.strtab = d.strtab)
      ∧ (tag ≠ DT_SYMTAB → d1.symtab = d.symtab) ∧ (tag ≠ DT_SYMENT → d1.syment = d.syment)
      ∧ (tag ≠ DT_STRSZ → d1.strsz = d.strsz) := by
  rcases elf_link_scan_switch_cases header buf tag val handle d with
    ⟨ht, hr⟩ | ⟨ht, hr⟩ | ⟨ht, hr⟩ | ⟨ht, hr⟩ | ⟨ht, hr⟩ | ⟨ht, hr⟩ | ⟨ht, hr⟩ | ⟨ht, hr⟩ | ⟨ht, hr⟩ | ⟨ht, hr⟩ | ⟨ht, hr⟩ | ⟨ht, hr⟩ | ⟨ht, hr⟩ | ⟨ht, hr⟩ | ⟨ht, hr⟩ | ⟨ht, hr⟩ | ⟨_, _, _, hr⟩
  all_goals rw [hr] at h
  all_goals cases h
  all_goals refine ⟨rfl, rfl, rfl, rfl, ?_, ?_, ?_, ?_, ?_⟩
  all_goals intro hne
  all_goals first | rfl | exact absurd ht hne

/-- An entry whose `case` returns latches "Dependency" or "D_tag" on the handle as it
stands and leaves the locals as they are. -/
theorem elf_link_scan_switch_ret (header buf tag val : Nat) (handle : Elf_handle)
    (d : Elf_dynamic) (handle1 : Elf_handle) (d1 : Elf_dynamic)
    (h : elf_link_scan_switch header buf tag val handle d = .ret (handle1, d1)) :
    d1 = d ∧ (handle1 = elf_set_error handle _elf_error_dependency
      ∨ handle1 = elf_set_error handle _elf_error_d_tag) := by
  rcases elf_link_scan_switch_cases header buf tag val handle d with
    ⟨ht, hr⟩ | ⟨ht, hr⟩ | ⟨ht, hr⟩ | ⟨ht, hr⟩ | ⟨ht, hr⟩ | ⟨ht, hr⟩ | ⟨ht, hr⟩ | ⟨ht, hr⟩ | ⟨ht, hr⟩ | ⟨ht, hr⟩ | ⟨ht, hr⟩ | ⟨ht, hr⟩ | ⟨ht, hr⟩ | ⟨ht, hr⟩ | ⟨ht, hr⟩ | ⟨ht, hr⟩ | ⟨_, _, _, hr⟩
  all_goals rw [hr] at h
  all_goals cases h
  · exact ⟨rfl, Or.inl rfl⟩
  · exact ⟨rfl, Or.inr rfl⟩

/-- A recorded or ignored tag is neither the terminator nor `DT_NEEDED`, and its `case`
ends in `break`. -/
theorem elf_link_scan_switch_pass (header buf tag val : Nat) (handle : Elf_handle)
    (d : Elf_dynamic) (h : dt_recorded tag ∨ dt_ignored tag) :
    tag ≠ DT_NULL ∧ tag ≠ DT_NEEDED
      ∧ ∃ handle1 d1, elf_link_scan_switch header buf tag val handle d = .go (handle1, d1) := by
  have hne : tag ≠ DT_NULL ∧ tag ≠ DT_NEEDED := by
    unfold dt_recorded dt_ignored at h
    rcases h with (h | h | h | h | h | h | h | h | h | h | h | h | h | h)
      | (h | h | h | h | h | h)
    all_goals subst h; decide
  refine ⟨hne.1, hne.2, ?_⟩
  rcases elf_link_scan_switch_cases header buf tag val handle d with
    ⟨ht, hr⟩ | ⟨ht, hr⟩ | ⟨ht, hr⟩ | ⟨ht, hr⟩ | ⟨ht, hr⟩ | ⟨ht, hr⟩ | ⟨ht, hr⟩ | ⟨ht, hr⟩ | ⟨ht, hr⟩ | ⟨ht, hr⟩ | ⟨ht, hr⟩ | ⟨ht, hr⟩ | ⟨ht, hr⟩ | ⟨ht, hr⟩ | ⟨ht, hr⟩ | ⟨ht, hr⟩ | ⟨_, h2, h3, hr⟩
  · exact absurd ht hne.2
  all_goals first | exact ⟨_, _, hr⟩ | skip
  rcases h with h | h
  · exact absurd h h2
  · exact absurd h h3

/-- The scan over a list: what it leaves untouched when it reaches the terminator. -/
theorem elf_link_scan_entries_go (header buf : Nat) :
    ∀ (l : List (Nat × Nat)) (handle : Elf_handle) (d : Elf_dynamic) (handle1 : Elf_handle)
      (d1 : Elf_dynamic), elf_link_scan_entries header buf l handle d = .go (handle1, d1) →
      handle1.flags = handle.flags ∧ handle1.error = handle.error
        ∧ handle1.header = handle.header ∧ handle1.globalSymbols = handle.globalSymbols
        ∧ ((∀ e ∈ l, e.1 ≠ DT_HASH) → d1.hash = d.hash)
        ∧ ((∀ e ∈ l, e.1 ≠ DT_STRTAB) → d1.strtab = d.strtab)
        ∧ ((∀ e ∈ l, e.1 ≠ DT_SYMTAB) → d1.symtab = d.symtab)
        ∧ ((∀ e ∈ l, e.1 ≠ DT_SYMENT) → d1.syment = d.syment)
        ∧ ((∀ e ∈ l, e.1 ≠ DT_STRSZ) → d1.strsz = d.strsz) := by
  intro l
  induction l with
  | nil =>
    intro handle d handle1 d1 h
    cases h
    exact ⟨rfl, rfl, rfl, rfl, fun _ => rfl, fun _ => rfl, fun _ => rfl, fun _ => rfl,
      fun _ => rfl⟩
  | cons e rest ih =>
    intro handle d handle1 d1 h
    rw [elf_link_scan_entries] at h
    cases hsw : elf_link_scan_switch header buf e.1 e.2 handle d with
    | ret s => rw [hsw] at h; cases h
    | go s =>
      obtain ⟨handle2, d2⟩ := s
      rw [hsw] at h
      obtain ⟨a1, a2, a3, a4, a5, a6, a7, a8, a9⟩ :=
        elf_link_scan_switch_go header buf e.1 e.2 handle d handle2 d2 hsw
      obtain ⟨b1, b2, b3, b4, b5, b6, b7, b8, b9⟩ := ih handle2 d2 handle1 d1 h
      refine ⟨b1.trans a1, b2.trans a2, b3.trans a3, b4.trans a4, ?_, ?_, ?_, ?_, ?_⟩
      · intro hall
        exact (b5 (fun x hx => hall x (List.mem_cons_of_mem _ hx))).trans
          (a5 (hall e (List.mem_cons_self _ _)))
      · intro hall
        exact (b6 (fun x hx => hall x (List.mem_cons_of_mem _ hx))).trans
          (a6 (hall e (List.mem_cons_self _ _)))
      · intro hall
        exact (b7 (fun x hx => hall x (List.mem_cons_of_mem _ hx))).trans
          (a7 (hall e (List.mem_cons_self _ _)))
      · intro hall
        exact (b8 (fun x hx => hall x (List.mem_cons_of_mem _ hx))).trans
          (a8 (hall e (List.mem_cons_self _ _)))
      · intro hall
        exact (b9 (fun x hx => hall x (List.mem_cons_of_mem _ hx))).trans
          (a9 (hall e (List.mem_cons_self _ _)))

/-- The scan over a list: when a `case` returns, "Dependency" or "D_tag" is latched on
a handle that differs from the one at entry in the fini fields at most. -/
theorem elf_link_scan_entries_ret (header buf : Nat) :
    ∀ (l : List (Nat × Nat)) (handle : Elf_handle) (d : Elf_dynamic) (handle1 : Elf_handle)
      (d1 : Elf_dynamic), elf_link_scan_entries header buf l handle d = .ret (handle1, d1) →
      ∃ handle2 : Elf_handle, handle2.flags = handle.flags ∧ handle2.error = handle.error
        ∧ handle2.header = handle.header ∧ handle2.globalSymbols = handle.globalSymbols
        ∧ (handle1 = elf_set_error handle2 _elf_error_dependency
          ∨ handle1 = elf_set_error handle2 _elf_error_d_tag) := by
  intro l
  induction l with
  | nil => intro handle d handle1 d1 h; cases h
  | cons e rest ih =>
    intro handle d handle1 d1 h
    rw [elf_link_scan_entries] at h
    cases hsw : elf_link_scan_switch header buf e.1 e.2 handle d with
    | ret s =>
      obtain ⟨handle2, d2⟩ := s
      rw [hsw] at h
      cases h
      exact ⟨handle, rfl, rfl, rfl, rfl,
        (elf_link_scan_switch_ret header buf e.1 e.2 handle d handle1 d1 hsw).2⟩
    | go s =>
      obtain ⟨handle2, d2⟩ := s
      rw [hsw] at h
      obtain ⟨a1, a2, a3, a4, _⟩ :=
        elf_link_scan_switch_go header buf e.1 e.2 handle d handle2 d2 hsw
      obtain ⟨handle3, b1, b2, b3, b4, b5⟩ := ih handle2 d2 handle1 d1 h
      exact ⟨handle3, b1.trans a1, b2.trans a2, b3.trans a3, b4.trans a4, b5⟩

/-- A list of recorded and ignored entries is scanned to its end. -/
theorem elf_link_scan_entries_pass (header buf : Nat) :
    ∀ (l : List (Nat × Nat)) (handle : Elf_handle) (d : Elf_dynamic),
      (∀ e ∈ l, dt_recorded e.1 ∨ dt_ignored e.1) →
      ∃ handle1 d1, elf_link_scan_entries header buf l handle d = .go (handle1, d1) := by
  intro l
  induction l with
  | nil => intro handle d _; exact ⟨handle, d, rfl⟩
  | cons e rest ih =>
    intro handle d hall
    obtain ⟨_, _, handle2, d2, hsw⟩ :=
      elf_link_scan_switch_pass header buf e.1 e.2 handle d (hall e (List.mem_cons_self _ _))
    obtain ⟨handle1, d1, hrest⟩ :=
      ih handle2 d2 (fun x hx => hall x (List.mem_cons_of_mem _ hx))
    refine ⟨handle1, d1, ?_⟩
    rw [elf_link_scan_entries, hsw]
    exact hrest

/-! ## The loops of relocation and resolution, turn by turn -/

/-- A byte outside the word written by `write32` keeps its value. -/
theorem write32_other_byte (m : Mem) (a v x : Nat) (h : x < a ∨ a + 4 ≤ x) :
    write32 m a v x = m x := by
  unfold write32 write8
  have h0 : x ≠ a := by omega
  have h1 : x ≠ a + 1 := by omega
  have h2 : x ≠ a + 2 := by omega
  have h3 : x ≠ a + 3 := by omega
  simp only [if_neg h0, if_neg h1, if_neg h2, if_neg h3]

/-- An entry of a relocation table writes at most the word at its `ref`. -/
theorem _elf_relocate_entry_frame (m : Mem) (handle : Elf_handle)
    (buf reltab symtab syment x : Nat)
    (h : x < (buf + r_offset m reltab) % WORD ∨ (buf + r_offset m reltab) % WORD + 4 ≤ x) :
    (Flow.val (_elf_relocate_entry m handle buf reltab symtab syment)).1 x = m x := by
  unfold _elf_relocate_entry
  dsimp only
  split_ifs
  all_goals first | rfl | exact write32_other_byte m _ _ x h

/-- The loop of `_elf_relocate` goes on from the state its first `k` turns leave. -/
theorem _elf_relocate_loop_after (buf entsize tableEnd symtab syment : Nat) :
    ∀ (k fuel reltab : Nat) (m : Mem) (handle : Elf_handle) (rk : Nat) (mk : Mem)
      (hk : Elf_handle),
      _elf_relocate_after buf entsize tableEnd symtab syment k reltab m handle
        = some (rk, mk, hk) →
      hk = handle
      ∧ _elf_relocate_loop buf entsize tableEnd symtab syment (fuel + k) reltab m handle
        = _elf_relocate_loop buf entsize tableEnd symtab syment fuel rk mk hk := by
  intro k
  induction k with
  | zero =>
    intro fuel reltab m handle rk mk hk h
    simp only [_elf_relocate_after, Option.some.injEq, Prod.mk.injEq] at h
    obtain ⟨rfl, rfl, rfl⟩ := h
    exact ⟨rfl, rfl⟩
  | succ k ih =>
    intro fuel reltab m handle rk mk hk h
    rw [_elf_relocate_after] at h
    by_cases hlt : reltab < tableEnd
    · rw [if_pos hlt] at h
      rw [← Nat.add_assoc, _elf_relocate_loop, if_pos hlt]
      cases he : _elf_relocate_entry m handle buf reltab symtab syment with
      | ret s => rw [he] at h; cases h
      | go s =>
        obtain ⟨m1, handle1⟩ := s
        rw [he] at h
        have hh : handle1 = handle :=
          (_elf_relocate_entry_handle m handle buf reltab symtab syment).1 m1 handle1 he
        obtain ⟨a, b⟩ := ih fuel _ m1 handle1 rk mk hk h
        exact ⟨a.trans hh, b⟩
    · rw [if_neg hlt] at h; cases h

/-- Bytes outside the words at the `ref` of the first `k` entries are as before. -/
theorem _elf_relocate_after_frame (buf entsize tableEnd symtab syment : Nat) :
    ∀ (k reltab : Nat) (m : Mem) (handle : Elf_handle) (rk : Nat) (mk : Mem)
      (hk : Elf_handle) (x : Nat),
      _elf_relocate_after buf entsize tableEnd symtab syment k reltab m handle
        = some (rk, mk, hk) →
      (∀ r ∈ _elf_relocate_refs buf entsize symtab syment k reltab m handle,
        x < r ∨ r + 4 ≤ x) →
      mk x = m x := by
  intro k
  induction k with
  | zero =>
    intro reltab m handle rk mk hk x h _
    simp only [_elf_relocate_after, Option.some.injEq, Prod.mk.injEq] at h
    obtain ⟨rfl, rfl, rfl⟩ := h
    rfl
  | succ k ih =>
    intro reltab m handle rk mk hk x h hx
    rw [_elf_relocate_after] at h
    by_cases hlt : reltab < tableEnd
    · rw [if_pos hlt] at h
      have hfr := _elf_relocate_entry_frame m handle buf reltab symtab syment x
        (hx _ (by simp [_elf_relocate_refs]))
      have hrest : ∀ r ∈ _elf_relocate_refs buf entsize symtab syment k
          ((reltab + entsize) % WORD)
          (Flow.val (_elf_relocate_entry m handle buf reltab symtab syment)).1
          (Flow.val (_elf_relocate_entry m handle buf reltab symtab syment)).2,
          x < r ∨ r + 4 ≤ x := fun r hr => hx r (by simp [_elf_relocate_refs, hr])
      cases he : _elf_relocate_entry m handle buf reltab symtab syment with
      | ret s => rw [he] at h; cases h
      | go s =>
        obtain ⟨m1, handle1⟩ := s
        rw [he] at h hfr hrest
        exact (ih _ m1 handle1 rk mk hk x h hrest).trans hfr
    · rw [if_neg hlt] at h; cases h

/-- Every return of the loop of `_elf_relocate` is reached by turns that end in
`break`: the loop ends at the table end with the handle as it was, or it returns from
the first entry whose `default` branch is taken, in the state that entry found. -/
theorem _elf_relocate_loop_trace (buf entsize tableEnd symtab syment : Nat) :
    ∀ (fuel reltab : Nat) (m m1 : Mem) (handle handle1 : Elf_handle),
      _elf_relocate_loop buf entsize tableEnd symtab syment fuel reltab m handle
        = some (m1, handle1) →
      ∃ k rk, _elf_relocate_after buf entsize tableEnd symtab syment k reltab m handle
          = some (rk, m1, handle)
        ∧ ((¬ rk < tableEnd ∧ handle1 = handle)
          ∨ (rk < tableEnd
            ∧ _elf_relocate_entry m1 handle buf rk symtab syment = Flow.ret (m1, handle1)
            ∧ handle1 = elf_set_error handle _elf_error_unimplemented_relocation)) := by
  intro fuel
  induction fuel with
  | zero => intro reltab m m1 handle handle1 h; cases h
  | succ fuel ih =>
    intro reltab m m1 handle handle1 h
    rw [_elf_relocate_loop] at h
    by_cases hlt : reltab < tableEnd
    · rw [if_pos hlt] at h
      cases he : _elf_relocate_entry m handle buf reltab symtab syment with
      | ret s =>
        obtain ⟨m2, handle2⟩ := s
        rw [he] at h
        simp only [Option.some.injEq, Prod.mk.injEq] at h
        obtain ⟨rfl, rfl⟩ := h
        obtain ⟨a, b⟩ :=
          (_elf_relocate_entry_handle m handle buf reltab symtab syment).2 m2 handle2 he
        subst a
        exact ⟨0, reltab, rfl, Or.inr ⟨hlt, he, b⟩⟩
      | go s =>
        obtain ⟨m2, handle2⟩ := s
        rw [he] at h
        have hh : handle2 = handle :=
          (_elf_relocate_entry_handle m handle buf reltab symtab syment).1 m2 handle2 he
        subst hh
        obtain ⟨k, rk, hk, hcase⟩ := ih _ m2 m1 handle2 handle1 h
        refine ⟨k + 1, rk, ?_, hcase⟩
        rw [_elf_relocate_after, if_pos hlt, he]
        exact hk
    · rw [if_neg hlt] at h
      simp only [Option.some.injEq, Prod.mk.injEq] at h
      obtain ⟨rfl, rfl⟩ := h
      exact ⟨0, reltab, rfl, Or.inl ⟨hlt, rfl⟩⟩

/-- The loop of `_elf_relocate` returns at the first entry whose `default` branch is
taken, with the memory the turns before it left. -/
theorem _elf_relocate_loop_stops (buf entsize tableEnd symtab syment : Nat)
    (k fuel reltab : Nat) (m : Mem) (handle : Elf_handle) (rk : Nat) (mk : Mem)
    (hk : Elf_handle)
    (hafter : _elf_relocate_after buf entsize tableEnd symtab syment k reltab m handle
      = some (rk, mk, hk))
    (hlt : rk < tableEnd)
    (h1 : ELF32_R_TYPE (r_info mk rk) ≠ R_ARM_ABS32)
    (h2 : ELF32_R_TYPE (r_info mk rk) ≠ R_ARM_JUMP_SLOT)
    (h3 : ELF32_R_TYPE (r_info mk rk) ≠ R_ARM_RELATIVE)
    (hfuel : k < fuel) :
    _elf_relocate_loop buf entsize tableEnd symtab syment fuel reltab m handle
      = some (mk, elf_set_error handle _elf_error_unimplemented_relocation) := by
  obtain ⟨f, rfl⟩ : ∃ f, fuel = (f + 1) + k := ⟨fuel - k - 1, by omega⟩
  obtain ⟨a, b⟩ := _elf_relocate_loop_after buf entsize tableEnd symtab syment k (f + 1)
    reltab m handle rk mk hk hafter
  rw [b, a, _elf_relocate_loop, if_pos hlt]
  simp only [_elf_relocate_entry]
  rw [if_neg h1, if_neg h2, if_neg h3]

/-- A call that leaves the handle alone leaves the error state alone. -/
theorem error_state_from_same (handle final : Elf_handle) (msgs : List String)
    (hf : final.flags = handle.flags) (he : final.error = handle.error) :
    error_state_from handle final msgs := Or.inl ⟨hf, he⟩

/-- Latching one of the messages is a step the error state allows. -/
theorem error_state_from_set (handle : Elf_handle) (msg : String) (msgs : List String)
    (h : msg ∈ msgs) : error_state_from handle (elf_set_error handle msg) msgs :=
  Or.inr ⟨rfl, h⟩

/-- The error state seen from a handle with the same flags and message. -/
theorem error_state_from_of_eq (handle handle1 final : Elf_handle) (msgs : List String)
    (hf : handle1.flags = handle.flags) (he : handle1.error = handle.error)
    (h : error_state_from handle1 final msgs) : error_state_from handle final msgs := by
  unfold error_state_from at h ⊢
  rw [← hf, ← he]
  exact h

/-- More messages allowed. -/
theorem error_state_from_mono (handle final : Elf_handle) (msgs msgs1 : List String)
    (hsub : ∀ x ∈ msgs, x ∈ msgs1) (h : error_state_from handle final msgs) :
    error_state_from handle final msgs1 := by
  unfold error_state_from at h ⊢
  rcases h with h | ⟨h1, h2⟩
  · exact Or.inl h
  · exact Or.inr ⟨h1, hsub _ h2⟩

/-- A turn of the resolution loop that reaches the end of the body leaves the flags
and the message alone. -/
theorem elf_link_symbol_go_state (fuel buf : Nat) (d : Elf_dynamic) (ii : Nat) (m m1 : Mem)
    (handle handle1 : Elf_handle)
    (h : elf_link_symbol fuel buf d ii m handle = some (Flow.go (m1, handle1))) :
    handle1.flags = handle.flags ∧ handle1.error = handle.error := by
  have hp := elf_link_symbol_go fuel buf d ii m m1 handle handle1 h
  obtain ⟨handle2, hr, hf, he, _⟩ :=
    elf_link_publish_result fuel d (elf_link_symbol_at d ii) m1 handle _ hp
  cases hr
  exact ⟨hf, he⟩

/-- Every return of the resolution loop is reached by turns that reach the end of the
body: the loop ends at the symbol count, or it returns from the first entry at which
an error is latched, in the memory that entry found. -/
theorem elf_link_resolve_trace (fuel buf : Nat) (d : Elf_dynamic) :
    ∀ (n ii : Nat) (m : Mem) (handle : Elf_handle) (r : Flow (Mem × Elf_handle)),
      elf_link_resolve fuel buf d n ii m handle = some r →
      ∃ (k : Nat) (mk : Mem) (hk : Elf_handle),
        elf_link_resolve_after fuel buf d k ii m handle = some (ii + k, mk, hk)
        ∧ hk.flags = handle.flags ∧ hk.error = handle.error
        ∧ ((¬ ii + k < read32 mk (d.hash + 4) ∧ r = Flow.go (mk, hk))
          ∨ (ii + k < read32 mk (d.hash + 4)
            ∧ ∃ h1, r = Flow.ret (mk, h1)
              ∧ elf_link_symbol fuel buf d (ii + k) mk hk = some (Flow.ret (mk, h1))
              ∧ (h1 = elf_set_error hk _elf_error_unresolved_symbol
                ∨ h1 = elf_set_error hk _elf_error_unimplemented_st_shndx))) := by
  intro n
  induction n with
  | zero => intro ii m handle r h; cases h
  | succ n ih =>
    intro ii m handle r h
    rw [elf_link_resolve] at h
    by_cases hlt : ii < read32 m (d.hash + 4)
    · rw [if_pos hlt] at h
      rcases Option.eq_none_or_eq_some (elf_link_symbol fuel buf d ii m handle) with
        hs | ⟨s, hs⟩
      · rw [hs] at h; cases h
      · cases s with
        | ret s =>
          obtain ⟨m2, h2⟩ := s
          rw [hs] at h
          simp only [Option.some.injEq] at h
          subst h
          obtain ⟨a, b⟩ := elf_link_symbol_ret fuel buf d ii m m2 handle h2 hs
          subst a
          exact ⟨0, m2, handle, rfl, rfl, rfl, Or.inr ⟨hlt, h2, rfl, hs, b⟩⟩
        | go s =>
          obtain ⟨m2, h2⟩ := s
          rw [hs] at h
          obtain ⟨a, b⟩ := elf_link_symbol_go_state fuel buf d ii m m2 handle h2 hs
          obtain ⟨k, mk, hk, hafter, hf, he, hcase⟩ := ih (ii + 1) m2 h2 r h
          have hidx : ii + 1 + k = ii + (k + 1) := by omega
          refine ⟨k + 1, mk, hk, ?_, hf.trans a, he.trans b, ?_⟩
          · rw [elf_link_resolve_after, if_pos hlt, hs]
            rw [← hidx]
            exact hafter
          · rw [← hidx]
            exact hcase
    · rw [if_neg hlt] at h
      simp only [Option.some.injEq] at h
      subst h
      exact ⟨0, m, handle, rfl, rfl, rfl, Or.inl ⟨hlt, rfl⟩⟩

/-- Error state after the resolution loop. -/
theorem elf_link_resolve_state (fuel buf : Nat) (d : Elf_dynamic) (n ii : Nat) (m m1 : Mem)
    (handle handle1 : Elf_handle) :
    (elf_link_resolve fuel buf d n ii m handle = some (Flow.go (m1, handle1)) →
      handle1.flags = handle.flags ∧ handle1.error = handle.error)
    ∧ (elf_link_resolve fuel buf d n ii m handle = some (Flow.ret (m1, handle1)) →
      handle1.flags = handle.flags ||| _ELF_ERROR
      ∧ (handle1.error = _elf_error_unresolved_symbol
        ∨ handle1.error = _elf_error_unimplemented_st_shndx)) := by
  constructor
  · intro h
    obtain ⟨k, mk, hk, _, hf, he, hcase⟩ := elf_link_resolve_trace fuel buf d n ii m handle _ h
    rcases hcase with ⟨_, hr⟩ | ⟨_, h1, hr, _⟩
    · cases hr; exact ⟨hf, he⟩
    · cases hr
  · intro h
    obtain ⟨k, mk, hk, _, hf, he, hcase⟩ := elf_link_resolve_trace fuel buf d n ii m handle _ h
    rcases hcase with ⟨_, hr⟩ | ⟨_, h1, hr, _, hmsg⟩
    · cases hr
    · cases hr
      rcases hmsg with hmsg | hmsg
      · subst hmsg
        exact ⟨by rw [← hf]; rfl, Or.inl rfl⟩
      · subst hmsg
        exact ⟨by rw [← hf]; rfl, Or.inr rfl⟩

/-! ## The phases of `elf_link` -/

/-- Every return of the scan loop is the scan of the list of the entries it visited. -/
theorem elf_link_scan_trace (m : Mem) (header buf : Nat) :
    ∀ (fuel dynamics : Nat) (handle : Elf_handle) (d : Elf_dynamic)
      (r : Flow (Elf_handle × Elf_dynamic)),
      elf_link_scan m header buf fuel dynamics handle d = some r →
      ∃ k, k ≤ fuel
        ∧ r = elf_link_scan_entries header buf (dyn_entries m k dynamics) handle d
        ∧ (∀ e ∈ dyn_entries m k dynamics, e.1 ≠ DT_NULL)
        ∧ (∀ s, r = Flow.go s → d_tag m (dyn_ptr dynamics k) = DT_NULL) := by
  intro fuel
  induction fuel with
  | zero => intro dynamics handle d r h; cases h
  | succ fuel ih =>
    intro dynamics handle d r h
    by_cases h0 : d_tag m dynamics = DT_NULL
    · rw [elf_link_scan, if_pos h0] at h
      simp only [Option.some.injEq] at h
      subst h
      exact ⟨0, Nat.zero_le _, rfl, by simp [dyn_entries], fun _ _ => h0⟩
    · rw [elf_link_scan_succ m header buf fuel dynamics handle d h0] at h
      cases hsw : elf_link_scan_switch header buf (d_tag m dynamics) (d_un m dynamics)
          handle d with
      | ret s =>
        rw [hsw] at h
        simp only [Option.some.injEq] at h
        subst h
        refine ⟨1, ?_, ?_, ?_, ?_⟩
        · omega
        · simp only [dyn_entries, elf_link_scan_entries, hsw]
        · intro e he
          simp only [dyn_entries, List.mem_singleton] at he
          subst he
          exact h0
        · intro s1 hs1; cases hs1
      | go s =>
        obtain ⟨handle1, d1⟩ := s
        rw [hsw] at h
        obtain ⟨k, hk, hr, hall, hend⟩ := ih _ handle1 d1 r h
        refine ⟨k + 1, by omega, ?_, ?_, ?_⟩
        · simp only [dyn_entries, elf_link_scan_entries, hsw]
          exact hr
        · intro e he
          simp only [dyn_entries, List.mem_cons] at he
          rcases he with he | he
          · subst he; exact h0
          · exact hall e he
        · intro s1 hs1
          exact hend s1 hs1

/-- The function `elf_link` after its first two loops. -/
theorem elf_link_eq (fuel : Nat) (m : Mem) (handle : Elf_handle) (buf : Nat) :
    elf_link fuel m handle buf
      = if elf_link_dynamicSection m handle buf = 0 then
          some { mem := elf_link_loaded m handle buf,
                 handle := elf_set_error handle _elf_error_dynamic_section, events := [] }
        else elf_link_dynamic fuel buf (elf_link_dynamicSection m handle buf)
          (elf_link_loaded m handle buf) handle := rfl

/-- The function `elf_link` when the scan returns from a `case`. -/
theorem elf_link_of_scan_ret (fuel : Nat) (m : Mem) (handle handle1 : Elf_handle) (buf : Nat)
    (d : Elf_dynamic) (hdyn : elf_link_dynamicSection m handle buf ≠ 0)
    (hscan : elf_link_scan (elf_link_loaded m handle buf) handle.header buf fuel
      (elf_link_dynamics m handle buf) handle Elf_dynamic.zero = some (Flow.ret (handle1, d))) :
    elf_link fuel m handle buf
      = some { mem := elf_link_loaded m handle buf, handle := handle1, events := [] } := by
  rw [elf_link_eq, if_neg hdyn]
  unfold elf_link_dynamics at hscan
  simp only [elf_link_dynamic, hscan]

/-- The function `elf_link` when the scan reaches the terminator. -/
theorem elf_link_of_scan_go (fuel : Nat) (m : Mem) (handle handle1 : Elf_handle) (buf : Nat)
    (d : Elf_dynamic) (hdyn : elf_link_dynamicSection m handle buf ≠ 0)
    (hscan : elf_link_scan (elf_link_loaded m handle buf) handle.header buf fuel
      (elf_link_dynamics m handle buf) handle Elf_dynamic.zero = some (Flow.go (handle1, d))) :
    elf_link fuel m handle buf
      = if d.hash = 0 ∨ d.strtab = 0 ∨ d.symtab = 0 ∨ d.syment = 0 ∨ d.strsz = 0 then
          some { mem := elf_link_loaded m handle buf,
                 handle := elf_set_error handle1 _elf_error_missing_entries, events := [] }
        else elf_link_symbols fuel buf d WORD 1 (elf_link_loaded m handle buf) handle1 := by
  rw [elf_link_eq, if_neg hdyn]
  unfold elf_link_dynamics at hscan
  simp only [elf_link_dynamic, hscan]

/-- Handle after `_elf_relocate`. -/
theorem _elf_relocate_state (fuel : Nat) (m m1 : Mem) (handle handle1 : Elf_handle)
    (buf reltab entsize limit symtab syment : Nat)
    (h : _elf_relocate fuel m handle buf reltab entsize limit symtab syment
      = some (m1, handle1)) :
    handle1 = handle ∨ handle1 = elf_set_error handle _elf_error_unimplemented_relocation :=
  _elf_relocate_loop_handle buf entsize ((reltab + limit) % WORD) symtab syment fuel reltab m
    m1 handle handle1 h

/-- Handle after `elf_link` from the jump-table relocation on. -/
theorem elf_link_jmprel_state (fuel buf : Nat) (d : Elf_dynamic) (m : Mem)
    (handle : Elf_handle) (final : Elf_state)
    (h : elf_link_jmprel fuel buf d m handle = some final) :
    final.handle = handle
      ∨ final.handle = elf_set_error handle _elf_error_unimplemented_relocation := by
  unfold elf_link_jmprel at h
  by_cases hj : d.jmpReltab ≠ 0
  · rw [if_pos hj] at h
    rcases Option.eq_none_or_eq_some (_elf_relocate fuel m handle buf d.jmpReltab
      sizeof_Elf32_Rel d.pltrelsz d.symtab d.syment) with hr | ⟨⟨m1, handle1⟩, hr⟩
    · rw [hr] at h; cases h
    · rw [hr] at h
      have hs := _elf_relocate_state fuel m m1 handle handle1 buf _ _ _ _ _ hr
      dsimp only at h
      split_ifs at h
      all_goals cases h
      all_goals exact hs
  · rw [if_neg hj] at h
    cases h
    exact Or.inl rfl

/-- Handle after `elf_link` from the symbol relocation on. -/
theorem elf_link_rel_state (fuel buf : Nat) (d : Elf_dynamic) (m : Mem)
    (handle : Elf_handle) (final : Elf_state)
    (h : elf_link_rel fuel buf d m handle = some final) :
    final.handle = handle
      ∨ final.handle = elf_set_error handle _elf_error_unimplemented_relocation
      ∨ final.handle = elf_set_error handle _elf_error_zero_sized_rel := by
  unfold elf_link_rel at h
  by_cases hj : d.reltab ≠ 0
  · rw [if_pos hj] at h
    by_cases hz : d.relsz = 0 ∨ d.relent = 0
    · rw [if_pos hz] at h
      cases h
      exact Or.inr (Or.inr rfl)
    · rw [if_neg hz] at h
      rcases Option.eq_none_or_eq_some (_elf_relocate fuel m handle buf d.reltab
        d.relent d.relsz d.symtab d.syment) with hr | ⟨⟨m1, handle1⟩, hr⟩
      · rw [hr] at h; cases h
      · rw [hr] at h
        have hs := _elf_relocate_state fuel m m1 handle handle1 buf _ _ _ _ _ hr
        dsimp only at h
        by_cases he : handle1.flags &&& _ELF_ERROR ≠ 0
        · rw [if_pos he] at h
          cases h
          rcases hs with hs | hs
          · exact Or.inl hs
          · exact Or.inr (Or.inl hs)
        · rw [if_neg he] at h
          rcases hs with hs | hs
          · subst hs
            rcases elf_link_jmprel_state fuel buf d m1 handle1 final h with hf | hf
            · exact Or.inl hf
            · exact Or.inr (Or.inl hf)
          · subst hs
            exact absurd (elf_set_error_latched handle _) he
  · rw [if_neg hj] at h
    rcases elf_link_jmprel_state fuel buf d m handle final h with hf | hf
    · exact Or.inl hf
    · exact Or.inr (Or.inl hf)

/-- Error state after `elf_link` from the symbol resolution on. -/
theorem elf_link_symbols_state (fuel buf : Nat) (d : Elf_dynamic) (n ii : Nat) (m : Mem)
    (handle : Elf_handle) (final : Elf_state)
    (h : elf_link_symbols fuel buf d n ii m handle = some final) :
    error_state_from handle final.handle elf_link_symbols_errors := by
  unfold elf_link_symbols at h
  rcases Option.eq_none_or_eq_some (elf_link_resolve fuel buf d n ii m handle) with
    hr | ⟨r, hr⟩
  · rw [hr] at h; cases h
  · cases r with
    | ret s =>
      obtain ⟨m1, handle1⟩ := s
      rw [hr] at h
      cases h
      obtain ⟨hf, he⟩ := (elf_link_resolve_state fuel buf d n ii m m1 handle handle1).2 hr
      refine Or.inr ⟨hf, ?_⟩
      rcases he with he | he
      all_goals rw [he]; decide
    | go s =>
      obtain ⟨m1, handle1⟩ := s
      rw [hr] at h
      obtain ⟨hf, he⟩ := (elf_link_resolve_state fuel buf d n ii m m1 handle handle1).1 hr
      apply error_state_from_of_eq handle handle1 final.handle _ hf he
      rcases elf_link_rel_state fuel buf d m1 handle1 final h with hs | hs | hs
      · exact Or.inl ⟨by rw [hs], by rw [hs]⟩
      · rw [hs]; exact error_state_from_set _ _ _ (by decide)
      · rw [hs]; exact error_state_from_set _ _ _ (by decide)

/-- Error state after `elf_link`: untouched, or one of the eight messages latched. -/
theorem elf_link_state (fuel : Nat) (m : Mem) (handle : Elf_handle) (buf : Nat)
    (final : Elf_state) (h : elf_link fuel m handle buf = some final) :
    error_state_from handle final.handle elf_link_errors := by
  rw [elf_link_eq] at h
  by_cases hdyn : elf_link_dynamicSection m handle buf = 0
  · rw [if_pos hdyn] at h
    cases h
    exact error_state_from_set _ _ _ (by decide)
  · rw [if_neg hdyn] at h
    unfold elf_link_dynamic at h
    dsimp only at h
    rcases Option.eq_none_or_eq_some (elf_link_scan (elf_link_loaded m handle buf)
      handle.header buf fuel (ELF32_PH_CONTENT (elf_link_loaded m handle buf) handle.header
        (elf_link_dynamicSection m handle buf)) handle Elf_dynamic.zero) with hs | ⟨r, hs⟩
    · rw [hs] at h; cases h
    · obtain ⟨k, _, hr, _, _⟩ := elf_link_scan_trace _ _ _ _ _ _ _ _ hs
      cases r with
      | ret s =>
        obtain ⟨handle1, d⟩ := s
        rw [hs] at h
        cases h
        obtain ⟨handle2, a1, a2, _, _, a5⟩ :=
          elf_link_scan_entries_ret _ _ _ _ _ _ _ hr.symm
        apply error_state_from_of_eq handle handle2 _ _ a1 a2
        rcases a5 with a5 | a5
        all_goals rw [a5]; exact error_state_from_set _ _ _ (by decide)
      | go s =>
        obtain ⟨handle1, d⟩ := s
        rw [hs] at h
        obtain ⟨a1, a2, _⟩ := elf_link_scan_entries_go _ _ _ _ _ _ _ hr.symm
        apply error_state_from_of_eq handle handle1 _ _ a1 a2
        dsimp only at h
        split_ifs at h
        · cases h
          exact error_state_from_set _ _ _ (by decide)
        · exact error_state_from_mono _ _ _ _ (by decide)
            (elf_link_symbols_state fuel buf d WORD 1 _ handle1 final h)

/-- The function `elf_dlerror` reports the message `elf_set_error` latched. -/
theorem elf_dlerror_set_error (handle : Elf_handle) (msg : String) :
    (elf_dlerror (elf_set_error handle msg)).1 = some msg := by
  unfold elf_dlerror
  rw [if_pos (elf_set_error_latched handle msg)]
  rfl

/-- The second loop of `elf_link` ends with `NULL` when no header from `ii` on has type
dynamic. -/
theorem elf_link_find_dynamic_none (m : Mem) (header : Nat) :
    ∀ (b ii : Nat),
      (∀ i, ii ≤ i → i < e_phnum m header →
        p_type m (ELF32_PH_GET m header i) ≠ PT_DYNAMIC) →
      elf_link_find_dynamic m header b ii = 0 := by
  intro b
  induction b with
  | zero => intro ii _; rfl
  | succ b ih =>
    intro ii hall
    rw [elf_link_find_dynamic]
    by_cases hlt : ii < e_phnum m header
    · rw [if_pos hlt]
      dsimp only
      rw [if_neg (hall ii (Nat.le_refl _) hlt)]
      exact ih (ii + 1) (fun i hi hi2 => hall i (by omega) hi2)
    · rw [if_neg hlt]

/-- The second loop of `elf_link` stops at the first header of type dynamic. -/
theorem elf_link_find_dynamic_first (m : Mem) (header : Nat) :
    ∀ (b ii k : Nat), ii ≤ k → k < e_phnum m header →
      (∀ i, ii ≤ i → i < k → p_type m (ELF32_PH_GET m header i) ≠ PT_DYNAMIC) →
      p_type m (ELF32_PH_GET m header k) = PT_DYNAMIC → k - ii < b →
      elf_link_find_dynamic m header b ii = ELF32_PH_GET m header k := by
  intro b
  induction b with
  | zero => intro ii k _ _ _ _ hb; omega
  | succ b ih =>
    intro ii k hik hk hall htype hb
    rw [elf_link_find_dynamic, if_pos (by omega)]
    dsimp only
    by_cases heq : ii = k
    · subst heq
      rw [if_pos htype]
    · rw [if_neg (hall ii (Nat.le_refl _) (by omega))]
      exact ih (ii + 1) k (by omega) hk (fun i hi hi2 => hall i (by omega) hi2) htype
        (by omega)

/-- Releasing the link map calls nothing. -/
theorem _elf_tree_free_no_call (t : Elf_symbolNode) (f : Nat) :
    Elf_event.call f ∉ _elf_tree_free t := by
  induction t with
  | null => simp [_elf_tree_free]
  | node h s lt gt ih1 ih2 =>
    simp only [_elf_tree_free, List.mem_append, List.mem_singleton, not_or]
    exact ⟨⟨ih1, ih2⟩, fun h => by cases h⟩

/-- The function `elf_link` from the jump-table relocation on, when it ends with the
error bit clear: the jmprel table, if there is one, has been processed to its end, and
then the init-array entries are called in order. -/
theorem elf_link_jmprel_clear (fuel buf : Nat) (d : Elf_dynamic) (m : Mem)
    (handle : Elf_handle) (final : Elf_state)
    (h : elf_link_jmprel fuel buf d m handle = some final)
    (hclear : final.handle.flags &&& _ELF_ERROR = 0) :
    final.handle = handle
    ∧ (d.jmpReltab ≠ 0 →
      _elf_relocate fuel m handle buf d.jmpReltab sizeof_Elf32_Rel d.pltrelsz d.symtab
        d.syment = some (final.mem, handle))
    ∧ (d.jmpReltab = 0 → final.mem = m)
    ∧ final.events = elf_link_init final.mem d.initArray d.initLength := by
  unfold elf_link_jmprel at h
  by_cases hj : d.jmpReltab ≠ 0
  · rw [if_pos hj] at h
    rcases Option.eq_none_or_eq_some (_elf_relocate fuel m handle buf d.jmpReltab
      sizeof_Elf32_Rel d.pltrelsz d.symtab d.syment) with hr | ⟨⟨m1, handle1⟩, hr⟩
    · rw [hr] at h; cases h
    · rw [hr] at h
      dsimp only at h
      by_cases he : handle1.flags &&& _ELF_ERROR ≠ 0
      · rw [if_pos he] at h
        cases h
        exact absurd hclear he
      · rw [if_neg he] at h
        cases h
        rcases _elf_relocate_state fuel m m1 handle handle1 buf _ _ _ _ _ hr with hs | hs
        · subst hs
          exact ⟨rfl, fun _ => hr, fun h0 => absurd h0 hj, rfl⟩
        · subst hs
          exact absurd (elf_set_error_latched handle _) he
  · rw [if_neg hj] at h
    cases h
    exact ⟨rfl, fun h0 => absurd h0 hj, fun _ => rfl, rfl⟩

/-- The function `elf_link` from the symbol relocation on, when it ends with the error
bit clear: both tables, where there are any, have been processed to their end, the rel
table first, and then the init-array entries are called in order. -/
theorem elf_link_rel_clear (fuel buf : Nat) (d : Elf_dynamic) (m : Mem)
    (handle : Elf_handle) (final : Elf_state)
    (h : elf_link_rel fuel buf d m handle = some final)
    (hclear : final.handle.flags &&& _ELF_ERROR = 0) :
    final.handle = handle
    ∧ ∃ m1 : Mem,
      (d.reltab ≠ 0 →
        _elf_relocate fuel m handle buf d.reltab d.relent d.relsz d.symtab d.syment
          = some (m1, handle))
      ∧ (d.reltab = 0 → m1 = m)
      ∧ (d.jmpReltab ≠ 0 →
        _elf_relocate fuel m1 handle buf d.jmpReltab sizeof_Elf32_Rel d.pltrelsz d.symtab
          d.syment = some (final.mem, handle))
      ∧ (d.jmpReltab = 0 → final.mem = m1)
      ∧ final.events = elf_link_init final.mem d.initArray d.initLength := by
  unfold elf_link_rel at h
  by_cases hj : d.reltab ≠ 0
  · rw [if_pos hj] at h
    by_cases hz : d.relsz = 0 ∨ d.relent = 0
    · rw [if_pos hz] at h
      cases h
      exact absurd hclear (elf_set_error_latched handle _)
    · rw [if_neg hz] at h
      rcases Option.eq_none_or_eq_some (_elf_relocate fuel m handle buf d.reltab
        d.relent d.relsz d.symtab d.syment) with hr | ⟨⟨m1, handle1⟩, hr⟩
      · rw [hr] at h; cases h
      · rw [hr] at h
        dsimp only at h
        by_cases he : handle1.flags &&& _ELF_ERROR ≠ 0
        · rw [if_pos he] at h
          cases h
          exact absurd hclear he
        · rw [if_neg he] at h
          rcases _elf_relocate_state fuel m m1 handle handle1 buf _ _ _ _ _ hr with hs | hs
          · subst hs
            obtain ⟨a, b, c, e⟩ := elf_link_jmprel_clear fuel buf d m1 handle1 final h hclear
            exact ⟨a, m1, fun _ => hr, fun h0 => absurd h0 hj, b, c, e⟩
          · subst hs
            exact absurd (elf_set_error_latched handle _) he
  · rw [if_neg hj] at h
    obtain ⟨a, b, c, e⟩ := elf_link_jmprel_clear fuel buf d m handle final h hclear
    exact ⟨a, m, fun h0 => absurd h0 hj, fun _ => rfl, b, c, e⟩

/-- A 16-bit field is not changed by the store of another 16-bit field. -/
theorem read16_write16_other (m : Mem) (a v x : Nat) (h : x + 2 ≤ a ∨ a + 2 ≤ x) :
    read16 (write16 m a v) x = read16 m x := by
  unfold read16
  rw [read8_write16_other _ _ _ _ (by omega), read8_write16_other _ _ _ _ (by omega)]

/-- The function `_elf_check` reads the magic, three more identification bytes and
`e_type`: two memories that agree on these are checked alike. -/
theorem _elf_check_congr (m1 m2 : Mem) (handle : Elf_handle)
    (h0 : read32 m1 handle.header = read32 m2 handle.header)
    (h1 : e_ident m1 handle.header EI_CLASS = e_ident m2 handle.header EI_CLASS)
    (h2 : e_ident m1 handle.header EI_DATA = e_ident m2 handle.header EI_DATA)
    (h3 : e_ident m1 handle.header EI_VERSION = e_ident m2 handle.header EI_VERSION)
    (h4 : e_type m1 handle.header = e_type m2 handle.header) :
    _elf_check m1 handle = _elf_check m2 handle := by
  unfold _elf_check
  rw [h0, h1, h2, h3, h4]

/-- The function `_elf_check` leaves the handle alone when its five tests pass. -/
theorem _elf_check_pass (m : Mem) (handle : Elf_handle)
    (h0 : read32 m handle.header = 0x464C457F)
    (h1 : e_ident m handle.header EI_CLASS = ELFCLASS32)
    (h2 : e_ident m handle.header EI_DATA = ELFDATA2LSB)
    (h3 : e_ident m handle.header EI_VERSION = 1)
    (h4 : e_type m handle.header = ET_DYN) :
    _elf_check m handle = handle := by
  unfold _elf_check
  dsimp only
  rw [if_neg (not_not.mpr h0), if_neg (not_not.mpr h1), if_neg (not_not.mpr h2),
    if_neg (not_not.mpr h3), if_neg (not_not.mpr h4)]

/-! ## Facts about the full image -/

/-- The scan of the full image, image at 0x1000 and buffer at 0x8000: the dynamic
program header is found and the scan reaches the terminator with the locals
`fullDynamic`. -/
theorem full_image_scan :
    elf_link_dynamicSection (goodMem fullDyn) goodHandle 0x8000 ≠ 0
    ∧ elf_link_scan (elf_link_loaded (goodMem fullDyn) goodHandle 0x8000)
        goodHandle.header 0x8000 100
        (elf_link_dynamics (goodMem fullDyn) goodHandle 0x8000) goodHandle
        Elf_dynamic.zero
      = some (Flow.go (scannedHandle, fullDynamic)) := by
  refine ⟨by decide!, by decide!⟩

/-- The function `elf_link` on the full image, image at 0x1000 and buffer at 0x8000:
no error, both constructors called, the symbol `mul` at 0x8040 in the slot. -/
theorem full_image_link :
    (elf_link 100 (goodMem fullDyn) goodHandle 0x8000).map
        (fun s => ((elf_dlerror s.handle).1, s.events, read32 s.mem (0x8000 + 384)))
      = some (none, [Elf_event.call 0x8010, Elf_event.call 0x8020], 0x8040) := by
  decide!

/-- The function `elf_link` on the full image with type 20 in the second entry of its
rel table, image at 0x1000 and buffer at 0x8000. -/
theorem type20_image_link :
    (elf_link 100 (fullMem 0x7F 40 PT_DYNAMIC fullDyn 20) goodHandle 0x8000).map
        (fun s => ((elf_dlerror s.handle).1, s.events, read32 s.mem (0x8000 + 360),
          read32 s.mem (0x8000 + 364), read32 s.mem (0x8000 + 384)))
      = some (some _elf_error_unimplemented_relocation, [], 0x8010, 0x20, 0) := by
  decide!

/-! ## The number of turns of the relocation loop -/

/-- The `default` branch of the `switch` of `_elf_relocate` is taken exactly for the
types other than 2, 22 and 23. -/
theorem _elf_relocate_entry_ret_type (m : Mem) (handle : Elf_handle)
    (buf reltab symtab syment : Nat) (s : Mem × Elf_handle)
    (h : _elf_relocate_entry m handle buf reltab symtab syment = Flow.ret s) :
    ELF32_R_TYPE (r_info m reltab) ≠ R_ARM_ABS32
    ∧ ELF32_R_TYPE (r_info m reltab) ≠ R_ARM_JUMP_SLOT
    ∧ ELF32_R_TYPE (r_info m reltab) ≠ R_ARM_RELATIVE := by
  unfold _elf_relocate_entry at h
  dsimp only at h
  by_cases h1 : ELF32_R_TYPE (r_info m reltab) = R_ARM_ABS32
  · rw [if_pos h1] at h; cases h
  rw [if_neg h1] at h
  by_cases h2 : ELF32_R_TYPE (r_info m reltab) = R_ARM_JUMP_SLOT
  · rw [if_pos h2] at h; cases h
  rw [if_neg h2] at h
  by_cases h3 : ELF32_R_TYPE (r_info m reltab) = R_ARM_RELATIVE
  · rw [if_pos h3] at h; cases h
  exact ⟨h1, h2, h3⟩

/-- The loop of `_elf_relocate` over `c` places of stride `entsize` that lie below the
table end and below `2^32`, the place after them being at or past the table end: the
loop returns, either after all `c` entries with the handle as it was, or from the first
unsupported entry; the entry of turn `i` is read at `reltab + i * entsize`. -/
theorem _elf_relocate_loop_count (buf entsize tableEnd symtab syment : Nat) :
    ∀ (c reltab fuel : Nat) (m : Mem) (handle : Elf_handle),
      reltab + c * entsize < WORD →
      (∀ i, i < c → reltab + i * entsize < tableEnd) →
      ¬ reltab + c * entsize < tableEnd →
      c < fuel →
      ∃ (k : Nat) (mk : Mem), k ≤ c
        ∧ (∀ i, i ≤ k → ∃ mi, _elf_relocate_after buf entsize tableEnd symtab syment i
            reltab m handle = some (reltab + i * entsize, mi, handle))
        ∧ _elf_relocate_after buf entsize tableEnd symtab syment k reltab m handle
          = some (reltab + k * entsize, mk, handle)
        ∧ ((k = c
            ∧ _elf_relocate_loop buf entsize tableEnd symtab syment fuel reltab m handle
              = some (mk, handle)
            ∧ _elf_relocate_after buf entsize tableEnd symtab syment (c + 1) reltab m handle
              = none)
          ∨ (k < c
            ∧ _elf_relocate_entry mk handle buf (reltab + k * entsize) symtab syment
              = Flow.ret (mk, elf_set_error handle _elf_error_unimplemented_relocation)
            ∧ _elf_relocate_loop buf entsize tableEnd symtab syment fuel reltab m handle
              = some (mk, elf_set_error handle _elf_error_unimplemented_relocation))) := by
  intro c
  induction c with
  | zero =>
    intro reltab fuel m handle _ _ hend hfuel
    obtain ⟨f, rfl⟩ : ∃ f, fuel = f + 1 := ⟨fuel - 1, by omega⟩
    have hend0 : ¬ reltab < tableEnd := by simpa using hend
    refine ⟨0, m, Nat.le_refl _, ?_, by simp [_elf_relocate_after], Or.inl ⟨rfl, ?_, ?_⟩⟩
    · intro i hi
      obtain rfl : i = 0 := by omega
      exact ⟨m, by simp [_elf_relocate_after]⟩
    · rw [_elf_relocate_loop, if_neg hend0]
    · rw [_elf_relocate_after, if_neg hend0]
  | succ c ih =>
    intro reltab fuel m handle hfit hin hend hfuel
    obtain ⟨f, rfl⟩ : ∃ f, fuel = f + 1 := ⟨fuel - 1, by omega⟩
    have hlt : reltab < tableEnd := by simpa using hin 0 (Nat.succ_pos c)
    have hmul : (c + 1) * entsize = c * entsize + entsize := Nat.succ_mul c entsize
    cases he : _elf_relocate_entry m handle buf reltab symtab syment with
    | ret s =>
      obtain ⟨m2, handle2⟩ := s
      obtain ⟨a, b⟩ :=
        (_elf_relocate_entry_handle m handle buf reltab symtab syment).2 m2 handle2 he
      subst a
      subst b
      refine ⟨0, m2, Nat.zero_le _, ?_, by simp [_elf_relocate_after],
        Or.inr ⟨Nat.succ_pos c, by simpa using he, ?_⟩⟩
      · intro i hi
        obtain rfl : i = 0 := by omega
        exact ⟨m2, by simp [_elf_relocate_after]⟩
      · rw [_elf_relocate_loop, if_pos hlt, he]
    | go s =>
      obtain ⟨m2, handle2⟩ := s
      have hh : handle2 = handle :=
        (_elf_relocate_entry_handle m handle buf reltab symtab syment).1 m2 handle2 he
      subst hh
      have hnext : (reltab + entsize) % WORD = reltab + entsize :=
        Nat.mod_eq_of_lt (by omega)
      have hstep : ∀ j, reltab + entsize + j * entsize = reltab + (j + 1) * entsize := by
        intro j
        rw [Nat.succ_mul]
        omega
      obtain ⟨k, mk, hk, hall, hafter, hcase⟩ := ih (reltab + entsize) f m2 handle2
        (by rw [hstep]; exact hfit)
        (fun i hi => by rw [hstep]; exact hin (i + 1) (by omega))
        (by rw [hstep]; exact hend) (by omega)
      have hunfold : ∀ j, _elf_relocate_after buf entsize tableEnd symtab syment (j + 1)
          reltab m handle2
          = _elf_relocate_after buf entsize tableEnd symtab syment j (reltab + entsize) m2
              handle2 := by
        intro j
        rw [_elf_relocate_after, if_pos hlt, he, hnext]
      refine ⟨k + 1, mk, by omega, ?_, ?_, ?_⟩
      · intro i hi
        cases i with
        | zero => exact ⟨m, by simp [_elf_relocate_after]⟩
        | succ j =>
          obtain ⟨mi, hmi⟩ := hall j (by omega)
          exact ⟨mi, by rw [hunfold, hmi, hstep]⟩
      · rw [hunfold, hafter, hstep]
      · rcases hcase with ⟨e1, e2, e3⟩ | ⟨e1, e2, e3⟩
        · refine Or.inl ⟨by omega, ?_, ?_⟩
          · rw [_elf_relocate_loop, if_pos hlt, he, hnext]
            exact e2
          · rw [hunfold]
            exact e3
        · refine Or.inr ⟨by omega, ?_, ?_⟩
          · rw [← hstep]
            exact e2
          · rw [_elf_relocate_loop, if_pos hlt, he, hnext]
            exact e3

/-- Places of stride `S` in a table of `L` bytes: the places `i * S` for `i` below
`ceil(L / S)` start inside the table, the next one does not. -/
theorem ceil_div_places (L S : Nat) (hS : 0 < S) :
    (∀ i, i < (L + S - 1) / S → i * S < L) ∧ L ≤ (L + S - 1) / S * S := by
  have h1 : (L + S - 1) / S * S ≤ L + S - 1 := Nat.div_mul_le_self _ _
  have h2 : L + S - 1 < S * ((L + S - 1) / S + 1) := Nat.lt_mul_div_succ _ hS
  rw [Nat.mul_succ, Nat.mul_comm S] at h2
  refine ⟨?_, by omega⟩
  intro i hi
  have h3 : (i + 1) * S ≤ (L + S - 1) / S * S := Nat.mul_le_mul_right S hi
  rw [Nat.succ_mul] at h3
  omega

/-! ## What a completed turn of the resolution loop stores -/

/-- A turn of the resolution loop that reaches the end of the body leaves the memory as
it was or with the two stores into the entry, to `st_shndx` and to `st_value`. -/
theorem elf_link_symbol_go_mem (fuel buf : Nat) (d : Elf_dynamic) (ii : Nat) (m m1 : Mem)
    (handle handle1 : Elf_handle)
    (h : elf_link_symbol fuel buf d ii m handle = some (Flow.go (m1, handle1))) :
    m1 = m ∨ ∃ v, m1 = write32 (write16 m (elf_link_symbol_at d ii + 14) SHN_ABS)
      (elf_link_symbol_at d ii + 4) v := by
  unfold elf_link_symbol at h
  simp only [] at h
  split_ifs at h with c1 c2 c3
  · cases hc : cstring m fuel ((d.strtab + st_name m (elf_link_symbol_at d ii)) % WORD) with
    | none => rw [hc] at h; cases h
    | some name =>
      rw [hc] at h
      simp only [] at h
      split_ifs at h with c4
      · cases h
      · obtain ⟨h1, hr, _⟩ := elf_link_publish_result _ _ _ _ _ _ h
        simp only [Flow.go.injEq, Prod.mk.injEq] at hr
        exact Or.inr ⟨_, hr.1⟩
  · obtain ⟨h1, hr, _⟩ := elf_link_publish_result _ _ _ _ _ _ h
    simp only [Flow.go.injEq, Prod.mk.injEq] at hr
    exact Or.inr ⟨_, hr.1⟩
  · cases h
  · obtain ⟨h1, hr, _⟩ := elf_link_publish_result _ _ _ _ _ _ h
    simp only [Flow.go.injEq, Prod.mk.injEq] at hr
    exact Or.inl hr.1

/-- A turn of the resolution loop that reaches the end of the body leaves `st_info` of
its entry as it was. -/
theorem elf_link_symbol_go_info (fuel buf : Nat) (d : Elf_dynamic) (ii : Nat) (m m1 : Mem)
    (handle handle1 : Elf_handle)
    (h : elf_link_symbol fuel buf d ii m handle = some (Flow.go (m1, handle1))) :
    st_info m1 (elf_link_symbol_at d ii) = st_info m (elf_link_symbol_at d ii) := by
  rcases elf_link_symbol_go_mem fuel buf d ii m m1 handle handle1 h with hm | ⟨v, hm⟩
  · rw [hm]
  · rw [hm]
    exact (symbol_fields_after_stores m (elf_link_symbol_at d ii) v).2.2.1

/-! ## The fini fields of the handle -/

/-- What an entry that ends in `break` does to the fini fields of the handle: the
fini-array entry stores `val + buf`, the fini-array-size entry stores `val / 4`, every
other entry leaves them as they were. -/
theorem elf_link_scan_switch_fini (header buf tag val : Nat) (handle : Elf_handle)
    (d : Elf_dynamic) (handle1 : Elf_handle) (d1 : Elf_dynamic)
    (h : elf_link_scan_switch header buf tag val handle d = .go (handle1, d1)) :
    (tag ≠ DT_FINI_ARRAY → handle1.finiArray = handle.finiArray)
      ∧ (tag ≠ DT_FINI_ARRAYSZ → handle1.finiLength = handle.finiLength)
      ∧ (tag = DT_FINI_ARRAY → handle1.finiArray = (val + buf) % WORD)
      ∧ (tag = DT_FINI_ARRAYSZ → handle1.finiLength = val / 4) := by
  rcases elf_link_scan_switch_cases header buf tag val handle d with
    ⟨ht, hr⟩ | ⟨ht, hr⟩ | ⟨ht, hr⟩ | ⟨ht, hr⟩ | ⟨ht, hr⟩ | ⟨ht, hr⟩ | ⟨ht, hr⟩ | ⟨ht, hr⟩
      | ⟨ht, hr⟩ | ⟨ht, hr⟩ | ⟨ht, hr⟩ | ⟨ht, hr⟩ | ⟨ht, hr⟩ | ⟨ht, hr⟩ | ⟨ht, hr⟩
      | ⟨ht, hr⟩ | ⟨_, _, _, hr⟩
  all_goals rw [hr] at h
  all_goals cases h
  all_goals refine ⟨?_, ?_, ?_, ?_⟩
  all_goals intro hne
  all_goals first
    | rfl
    | exact absurd ht hne
    | (subst ht; exact absurd hne (by decide))
    | (unfold dt_ignored at ht
       rcases ht with ht | ht | ht | ht | ht | ht
       all_goals subst ht
       all_goals exact absurd hne (by decide))

/-- The scan over a list followed by another is the scan over the first, then, if no
`case` returned, over the second. -/
theorem elf_link_scan_entries_append (header buf : Nat) :
    ∀ (l1 l2 : List (Nat × Nat)) (handle : Elf_handle) (d : Elf_dynamic),
      elf_link_scan_entries header buf (l1 ++ l2) handle d
        = match elf_link_scan_entries header buf l1 handle d with
          | .ret s => .ret s
          | .go (handle1, d1) => elf_link_scan_entries header buf l2 handle1 d1 := by
  intro l1
  induction l1 with
  | nil => intro l2 handle d; rfl
  | cons e rest ih =>
    intro l2 handle d
    simp only [List.cons_append, elf_link_scan_entries]
    cases hsw : elf_link_scan_switch header buf e.1 e.2 handle d with
    | ret s => rfl
    | go s =>
      obtain ⟨handle1, d1⟩ := s
      exact ih l2 handle1 d1

/-- The scan over a list that reaches its end leaves a fini field as it was when no
entry of the list names it. -/
theorem elf_link_scan_entries_fini_keep (header buf : Nat) :
    ∀ (l : List (Nat × Nat)) (handle : Elf_handle) (d : Elf_dynamic) (handle1 : Elf_handle)
      (d1 : Elf_dynamic), elf_link_scan_entries header buf l handle d = .go (handle1, d1) →
      ((∀ e ∈ l, e.1 ≠ DT_FINI_ARRAY) → handle1.finiArray = handle.finiArray)
      ∧ ((∀ e ∈ l, e.1 ≠ DT_FINI_ARRAYSZ) → handle1.finiLength = handle.finiLength) := by
  intro l
  induction l with
  | nil =>
    intro handle d handle1 d1 h
    cases h
    exact ⟨fun _ => rfl, fun _ => rfl⟩
  | cons e rest ih =>
    intro handle d handle1 d1 h
    rw [elf_link_scan_entries] at h
    cases hsw : elf_link_scan_switch header buf e.1 e.2 handle d with
    | ret s => rw [hsw] at h; cases h
    | go s =>
      obtain ⟨handle2, d2⟩ := s
      rw [hsw] at h
      obtain ⟨a1, a2, _, _⟩ := elf_link_scan_switch_fini header buf e.1 e.2 handle d handle2 d2 hsw
      obtain ⟨b1, b2⟩ := ih handle2 d2 handle1 d1 h
      constructor
      · intro hall
        exact (b1 (fun x hx => hall x (List.mem_cons_of_mem _ hx))).trans
          (a1 (hall e (List.mem_cons_self _ _)))
      · intro hall
        exact (b2 (fun x hx => hall x (List.mem_cons_of_mem _ hx))).trans
          (a2 (hall e (List.mem_cons_self _ _)))

/-- The scan over a list that reaches its end leaves in a fini field what the last
entry naming it records. -/
theorem elf_link_scan_entries_fini_last (header buf : Nat) (l1 l2 : List (Nat × Nat))
    (val : Nat) (handle : Elf_handle) (d : Elf_dynamic) (handle1 : Elf_handle)
    (d1 : Elf_dynamic) :
    (elf_link_scan_entries header buf (l1 ++ (DT_FINI_ARRAY, val) :: l2) handle d
        = .go (handle1, d1) →
      (∀ e ∈ l2, e.1 ≠ DT_FINI_ARRAY) → handle1.finiArray = (val + buf) % WORD)
    ∧ (elf_link_scan_entries header buf (l1 ++ (DT_FINI_ARRAYSZ, val) :: l2) handle d
        = .go (handle1, d1) →
      (∀ e ∈ l2, e.1 ≠ DT_FINI_ARRAYSZ) → handle1.finiLength = val / 4) := by
  constructor
  · intro h hall
    rw [elf_link_scan_entries_append] at h
    cases h1 : elf_link_scan_entries header buf l1 handle d with
    | ret s => rw [h1] at h; cases h
    | go s =>
      obtain ⟨handle2, d2⟩ := s
      rw [h1] at h
      simp only [elf_link_scan_entries] at h
      cases hsw : elf_link_scan_switch header buf DT_FINI_ARRAY val handle2 d2 with
      | ret s => rw [hsw] at h; cases h
      | go s =>
        obtain ⟨handle3, d3⟩ := s
        rw [hsw] at h
        obtain ⟨_, _, a3, _⟩ :=
          elf_link_scan_switch_fini header buf DT_FINI_ARRAY val handle2 d2 handle3 d3 hsw
        exact ((elf_link_scan_entries_fini_keep header buf l2 handle3 d3 handle1 d1 h).1
          hall).trans (a3 rfl)
  · intro h hall
    rw [elf_link_scan_entries_append] at h
    cases h1 : elf_link_scan_entries header buf l1 handle d with
    | ret s => rw [h1] at h; cases h
    | go s =>
      obtain ⟨handle2, d2⟩ := s
      rw [h1] at h
      simp only [elf_link_scan_entries] at h
      cases hsw : elf_link_scan_switch header buf DT_FINI_ARRAYSZ val handle2 d2 with
      | ret s => rw [hsw] at h; cases h
      | go s =>
        obtain ⟨handle3, d3⟩ := s
        rw [hsw] at h
        obtain ⟨_, _, _, a4⟩ :=
          elf_link_scan_switch_fini header buf DT_FINI_ARRAYSZ val handle2 d2 handle3 d3 hsw
        exact ((elf_link_scan_entries_fini_keep header buf l2 handle3 d3 handle1 d1 h).2
          hall).trans (a4 rfl)

/-- A turn of the resolution loop leaves the fini fields of the handle as they were,
however it ends. -/
theorem elf_link_symbol_fini (fuel buf : Nat) (d : Elf_dynamic) (ii : Nat) (m : Mem)
    (handle : Elf_handle) (r : Flow (Mem × Elf_handle))
    (h : elf_link_symbol fuel buf d ii m handle = some r) :
    (Flow.val r).2.finiArray = handle.finiArray
      ∧ (Flow.val r).2.finiLength = handle.finiLength := by
  cases r with
  | ret s =>
    obtain ⟨m1, handle1⟩ := s
    obtain ⟨_, hmsg⟩ := elf_link_symbol_ret fuel buf d ii m m1 handle handle1 h
    rcases hmsg with hmsg | hmsg
    all_goals rw [Flow.val, hmsg]; exact ⟨rfl, rfl⟩
  | go s =>
    obtain ⟨m1, handle1⟩ := s
    have hp := elf_link_symbol_go fuel buf d ii m m1 handle handle1 h
    obtain ⟨handle2, hr, _, _, hcase⟩ := elf_link_publish_result _ _ _ _ _ _ hp
    simp only [Flow.go.injEq, Prod.mk.injEq, true_and] at hr
    subst hr
    rcases hcase with ⟨_, he⟩ | ⟨_, name, _, he⟩
    all_goals rw [Flow.val, he]; exact ⟨rfl, rfl⟩

/-- The resolution loop leaves the fini fields of the handle as they were. -/
theorem elf_link_resolve_fini (fuel buf : Nat) (d : Elf_dynamic) :
    ∀ (n ii : Nat) (m : Mem) (handle : Elf_handle) (r : Flow (Mem × Elf_handle)),
      elf_link_resolve fuel buf d n ii m handle = some r →
      (Flow.val r).2.finiArray = handle.finiArray
        ∧ (Flow.val r).2.finiLength = handle.finiLength := by
  intro n
  induction n with
  | zero => intro ii m handle r h; cases h
  | succ n ih =>
    intro ii m handle r h
    rw [elf_link_resolve] at h
    by_cases hlt : ii < read32 m (d.hash + 4)
    · rw [if_pos hlt] at h
      rcases Option.eq_none_or_eq_some (elf_link_symbol fuel buf d ii m handle) with
        hs | ⟨s, hs⟩
      · rw [hs] at h; cases h
      · have hf := elf_link_symbol_fini fuel buf d ii m handle s hs
        cases s with
        | ret s =>
          rw [hs] at h
          simp only [Option.some.injEq] at h
          subst h
          exact hf
        | go s =>
          obtain ⟨m2, h2⟩ := s
          rw [hs] at h
          obtain ⟨a, b⟩ := ih (ii + 1) m2 h2 r h
          exact ⟨a.trans hf.1, b.trans hf.2⟩
    · rw [if_neg hlt] at h
      simp only [Option.some.injEq] at h
      subst h
      exact ⟨rfl, rfl⟩

/-- The function `elf_link` from the symbol resolution on leaves the fini fields of the
handle as they were. -/
theorem elf_link_symbols_fini (fuel buf : Nat) (d : Elf_dynamic) (n ii : Nat) (m : Mem)
    (handle : Elf_handle) (final : Elf_state)
    (h : elf_link_symbols fuel buf d n ii m handle = some final) :
    final.handle.finiArray = handle.finiArray
      ∧ final.handle.finiLength = handle.finiLength := by
  unfold elf_link_symbols at h
  rcases Option.eq_none_or_eq_some (elf_link_resolve fuel buf d n ii m handle) with
    hr | ⟨r, hr⟩
  · rw [hr] at h; cases h
  · have hf := elf_link_resolve_fini fuel buf d n ii m handle r hr
    cases r with
    | ret s =>
      obtain ⟨m1, handle1⟩ := s
      rw [hr] at h
      cases h
      exact hf
    | go s =>
      obtain ⟨m1, handle1⟩ := s
      rw [hr] at h
      rcases elf_link_rel_state fuel buf d m1 handle1 final h with hs | hs | hs
      all_goals rw [hs]
      · exact hf
      · exact hf
      · exact hf

/-- The function `elf_dlmemopen` returns a handle with no fini array. -/
theorem elf_dlmemopen_fini (m : Mem) (buf flag : Nat) (error0 : String) :
    (elf_dlmemopen m buf flag error0).finiArray = 0
      ∧ (elf_dlmemopen m buf flag error0).finiLength = 0 := by
  unfold elf_dlmemopen
  simp only []
  split_ifs
  · unfold _elf_check
    simp only []
    split_ifs <;> exact ⟨rfl, rfl⟩
  · exact ⟨rfl, rfl⟩

/-- The events of `elf_dlclose` begin with `finiLength` calls, the fini-array entries in
order, and hold no other call. -/
theorem elf_dlclose_calls (m : Mem) (handle : Elf_handle) :
    (∀ i, i < handle.finiLength →
      (elf_dlclose m handle)[i]? = some (Elf_event.call
        (read32 m ((handle.finiArray + sizeof_Elf32_Addr * i) % WORD))))
    ∧ ∀ f, Elf_event.call f ∉ (elf_dlclose m handle).drop handle.finiLength := by
  have hlen : ((List.range handle.finiLength).map (fun ii => Elf_event.call
      (read32 m ((handle.finiArray + sizeof_Elf32_Addr * ii) % WORD)))).length
      = handle.finiLength := by simp
  have hdrop : (elf_dlclose m handle).drop handle.finiLength
      = _elf_tree_free handle.globalSymbols ++ [Elf_event.free_handle] := by
    unfold elf_dlclose
    rw [List.append_assoc]
    exact List.drop_left' hlen
  constructor
  · intro i hi
    unfold elf_dlclose
    rw [List.append_assoc, List.getElem?_append_left (by rw [hlen]; exact hi)]
    simp [hi]
  · intro f
    rw [hdrop]
    simp only [List.mem_append, List.mem_singleton, not_or]
    exact ⟨_elf_tree_free_no_call _ f, fun h => by cases h⟩

/-! ## The claims -/

/-! ### Claim C1 -/

/-- Claim C1, amended: a locally defined global symbol.  When the resolution loop
of `elf_link` processes entry `ii` (below `hash[1]`) whose section index is
regular (non-zero, below 0xff00) and whose binding has the global bit, the body
of the loop completes as soon as the entry's name is read, and when it completes
it goes on to the next entry with this entry's value at
`(st_value + buf) mod 2^32` and its section index at 0xfff1, and `elf_dlsym` of
the entry's name gives `(st_value + buf) mod 2^32`; when the link has returned
it still does, provided no entry processed later publishes a name with the same
hash. -/
theorem published_symbol_lookup (fuel buf : Nat) (d : Elf_dynamic) (n ii : Nat) (m : Mem)
    (handle : Elf_handle)
    (hlt : ii < read32 m (d.hash + 4))
    (hreg : st_shndx m (elf_link_symbol_at d ii) ≠ SHN_UNDEF
      ∧ st_shndx m (elf_link_symbol_at d ii) < SHN_LORESERVE)
    (hglob : ELF32_ST_BIND (st_info m (elf_link_symbol_at d ii)) &&& STB_GLOBAL ≠ 0) :
    (∀ name : List Nat,
        cstring (write32 (write16 m (elf_link_symbol_at d ii + 14) SHN_ABS)
            (elf_link_symbol_at d ii + 4) ((st_value m (elf_link_symbol_at d ii) + buf) % WORD))
          fuel ((d.strtab + st_name m (elf_link_symbol_at d ii)) % WORD) = some name →
        elf_link_symbol fuel buf d ii m handle
          = some (Flow.go (write32 (write16 m (elf_link_symbol_at d ii + 14) SHN_ABS)
              (elf_link_symbol_at d ii + 4) ((st_value m (elf_link_symbol_at d ii) + buf) % WORD),
            elf_mapsym handle name ((st_value m (elf_link_symbol_at d ii) + buf) % WORD))))
    ∧ (∀ r, elf_link_symbol fuel buf d ii m handle = some r →
        ∃ (m1 : Mem) (handle1 : Elf_handle) (name : List Nat),
          r = Flow.go (m1, handle1)
          ∧ st_value m1 (elf_link_symbol_at d ii)
              = (st_value m (elf_link_symbol_at d ii) + buf) % WORD
          ∧ st_shndx m1 (elf_link_symbol_at d ii) = SHN_ABS
          ∧ cstring m1 fuel ((d.strtab + st_name m1 (elf_link_symbol_at d ii)) % WORD)
              = some name
          ∧ elf_dlsym handle1 name = (st_value m (elf_link_symbol_at d ii) + buf) % WORD
          ∧ ∀ final, elf_link_symbols fuel buf d (n + 1) ii m handle = some final →
              elf_link_symbols fuel buf d n (ii + 1) m1 handle1 = some final
              ∧ (_elf_hash name ∉ elf_link_resolve_keys fuel buf d n (ii + 1) m1 handle1 →
                  elf_dlsym final.handle name
                    = (st_value m (elf_link_symbol_at d ii) + buf) % WORD)) := by
  -- the body of the loop on a regular entry: two stores, then the publishing tail
  have hbody : elf_link_symbol fuel buf d ii m handle
      = elf_link_publish fuel d (elf_link_symbol_at d ii)
          (write32 (write16 m (elf_link_symbol_at d ii + 14) SHN_ABS)
            (elf_link_symbol_at d ii + 4)
            ((st_value m (elf_link_symbol_at d ii) + buf) % WORD)) handle := by
    unfold elf_link_symbol
    simp only []
    rw [if_neg hreg.1, if_pos hreg.2, st_value_after_shndx_store]
  obtain ⟨hname, hvalue, hinfo, hshndx⟩ := symbol_fields_after_stores m (elf_link_symbol_at d ii)
    ((st_value m (elf_link_symbol_at d ii) + buf) % WORD)
  rw [Nat.mod_mod] at hvalue
  constructor
  · intro name hc
    rw [hbody]
    unfold elf_link_publish
    rw [hinfo, if_pos hglob, hname, hc, hvalue]
  · intro r hs
    have hs0 := hs
    rw [hbody] at hs
    obtain ⟨handle1, hr, _, _, hcase⟩ := elf_link_publish_result _ _ _ _ _ _ hs
    rw [hinfo] at hcase
    rcases hcase with ⟨hg0, _⟩ | ⟨_, name, hc, hh⟩
    · exact absurd hg0 hglob
    · have hd : elf_dlsym handle1 name
          = (st_value m (elf_link_symbol_at d ii) + buf) % WORD := by
        rw [hh, hvalue]
        unfold elf_dlsym elf_mapsym
        exact _elf_tree_find_add_same _ _ _
      refine ⟨_, handle1, name, hr, hvalue, hshndx, hc, hd, ?_⟩
      intro final hfinal
      rw [hr] at hs0
      have hnext := elf_link_symbols_go fuel buf d n ii m _ handle handle1 hlt hs0
      rw [hfinal] at hnext
      refine ⟨hnext.symm, ?_⟩
      intro hk
      unfold elf_dlsym at hd ⊢
      rw [elf_link_symbols_find _ _ _ _ _ _ _ _ _ hnext.symm hk]
      exact hd

/-- Claim C1 on the demo image, buffer at 0x8000: entry 2 (`mul`, section 1,
global, value 0x40) is rebased to 0x8040 and published under its name, no later
entry publishes anything, and after the link `elf_dlsym` of "mul" gives 0x8040. -/
theorem published_symbol_lookup_witness :
    (2 < read32 (demoLoaded 0x20 0x40 0x8000) ((demoDynamic 0x8000).hash + 4))
    ∧ (st_shndx (demoLoaded 0x20 0x40 0x8000) (elf_link_symbol_at (demoDynamic 0x8000) 2)
          ≠ SHN_UNDEF
        ∧ st_shndx (demoLoaded 0x20 0x40 0x8000) (elf_link_symbol_at (demoDynamic 0x8000) 2)
          < SHN_LORESERVE)
    ∧ (ELF32_ST_BIND (st_info (demoLoaded 0x20 0x40 0x8000)
          (elf_link_symbol_at (demoDynamic 0x8000) 2)) &&& STB_GLOBAL ≠ 0)
    ∧ (∃ (m1 : Mem) (handle1 : Elf_handle) (name : List Nat),
        elf_link_symbol 100 0x8000 (demoDynamic 0x8000) 2 (demoLoaded 0x20 0x40 0x8000)
            (demoHandle 0x20 0x40) = some (Flow.go (m1, handle1))
        ∧ st_value m1 (elf_link_symbol_at (demoDynamic 0x8000) 2) = 0x8040
        ∧ st_shndx m1 (elf_link_symbol_at (demoDynamic 0x8000) 2) = SHN_ABS
        ∧ elf_dlsym handle1 name = 0x8040)
    ∧ (elf_link_symbol 100 0x8000 (demoDynamic 0x8000) 2 (demoLoaded 0x20 0x40 0x8000)
          (demoHandle 0x20 0x40)).map
        (fun r => (cstring r.val.1 100 (((demoDynamic 0x8000).strtab
              + st_name r.val.1 (elf_link_symbol_at (demoDynamic 0x8000) 2)) % WORD),
            elf_link_resolve_keys 100 0x8000 (demoDynamic 0x8000) 1 3 r.val.1 r.val.2))
        = some (some name_mul, [])
    ∧ (elf_link 100 (demoMem 0x20 0x40) (demoHandle 0x20 0x40) 0x8000).map
        (fun s => (s.handle.flags &&& _ELF_ERROR, elf_dlsym s.handle name_mul))
        = some (0, 0x8040) :=
  have h1 : 2 < read32 (demoLoaded 0x20 0x40 0x8000) ((demoDynamic 0x8000).hash + 4) := by
    decide!
  have h2 : st_shndx (demoLoaded 0x20 0x40 0x8000) (elf_link_symbol_at (demoDynamic 0x8000) 2)
        ≠ SHN_UNDEF
      ∧ st_shndx (demoLoaded 0x20 0x40 0x8000) (elf_link_symbol_at (demoDynamic 0x8000) 2)
        < SHN_LORESERVE := by decide!
  have h3 : ELF32_ST_BIND (st_info (demoLoaded 0x20 0x40 0x8000)
      (elf_link_symbol_at (demoDynamic 0x8000) 2)) &&& STB_GLOBAL ≠ 0 := by decide!
  have h4 : (elf_link_symbol 100 0x8000 (demoDynamic 0x8000) 2 (demoLoaded 0x20 0x40 0x8000)
      (demoHandle 0x20 0x40)).isSome = true := by decide!
  have hv : (st_value (demoLoaded 0x20 0x40 0x8000) (elf_link_symbol_at (demoDynamic 0x8000) 2)
      + 0x8000) % WORD = 0x8040 := by decide!
  ⟨h1, h2, h3,
    match Option.isSome_iff_exists.mp h4 with
    | ⟨r, hr⟩ =>
      match (published_symbol_lookup 100 0x8000 (demoDynamic 0x8000) 1 2
          (demoLoaded 0x20 0x40 0x8000) (demoHandle 0x20 0x40) h1 h2 h3).2 r hr with
      | ⟨m1, handle1, name, e1, e2, e3, _, e5, _⟩ =>
        ⟨m1, handle1, name, e1 ▸ hr, hv ▸ e2, e3, hv ▸ e5⟩,
    by decide!, by decide!⟩

/-- Claim C1 fails as stated: with the buffer at 0xFFFFF000 and `mul` (entry 2, the
last one, section 1, global) at value 0x2000, the link latches no error and
`elf_dlsym` of "mul" returns 0x1000, which is `(0x2000 + 0xFFFFF000) mod 2^32`
and not `0x2000 + 0xFFFFF000`. -/
theorem published_symbol_wraps :
    st_value (demoLoaded 0x20 0x2000 0xFFFFF000)
        (elf_link_symbol_at (demoDynamic 0xFFFFF000) 2) = 0x2000
    ∧ st_shndx (demoLoaded 0x20 0x2000 0xFFFFF000)
        (elf_link_symbol_at (demoDynamic 0xFFFFF000) 2) = 1
    ∧ ELF32_ST_BIND (st_info (demoLoaded 0x20 0x2000 0xFFFFF000)
        (elf_link_symbol_at (demoDynamic 0xFFFFF000) 2)) = STB_GLOBAL
    ∧ cstring (demoLoaded 0x20 0x2000 0xFFFFF000) 100
        (((demoDynamic 0xFFFFF000).strtab + st_name (demoLoaded 0x20 0x2000 0xFFFFF000)
          (elf_link_symbol_at (demoDynamic 0xFFFFF000) 2)) % WORD) = some name_mul
    ∧ read32 (demoLoaded 0x20 0x2000 0xFFFFF000) ((demoDynamic 0xFFFFF000).hash + 4) = 3
    ∧ (elf_link 100 (demoMem 0x20 0x2000) (demoHandle 0x20 0x2000) 0xFFFFF000).map
        (fun s => (s.handle.flags &&& _ELF_ERROR, elf_dlsym s.handle name_mul))
        = some (0, 0x1000)
    ∧ 0x1000 ≠ 0x2000 + 0xFFFFF000 := by
  refine ⟨by decide!, by decide!, by decide!, by decide!, by decide!, by decide!, by decide⟩

/-! ### Claim C2 -/

/-- Claim C2: one relocation entry.  With `X = r_offset`, `I = r_info`, `V` the
word at `buf + X` before the entry and `s` the symbol entry at index `I >> 8`
(the upper 24 bits; the type is `I & 0xff`), the body of the loop of
`_elf_relocate` leaves the handle alone and leaves at `buf + X` the word
`(V + s.st_value) mod 2^32` for `abs32`, `s.st_value` for `jump_slot` and
`(V + buf) mod 2^32` for `relative`; the loop then goes on with the next entry. -/
theorem relocation_entry_word (m : Mem) (handle : Elf_handle)
    (buf reltab symtab syment : Nat) :
    (ELF32_R_SYM (r_info m reltab) = r_info m reltab / 256
      ∧ ELF32_R_SYM (r_info m reltab) < 16777216
      ∧ ELF32_R_TYPE (r_info m reltab) = r_info m reltab % 256)
    ∧ (ELF32_R_TYPE (r_info m reltab) = R_ARM_ABS32 →
        ∃ m1, _elf_relocate_entry m handle buf reltab symtab syment = Flow.go (m1, handle)
          ∧ read32 m1 ((buf + r_offset m reltab) % WORD)
            = (read32 m ((buf + r_offset m reltab) % WORD)
                + st_value m ((symtab + ELF32_R_SYM (r_info m reltab) * syment) % WORD)) % WORD)
    ∧ (ELF32_R_TYPE (r_info m reltab) = R_ARM_JUMP_SLOT →
        ∃ m1, _elf_relocate_entry m handle buf reltab symtab syment = Flow.go (m1, handle)
          ∧ read32 m1 ((buf + r_offset m reltab) % WORD)
            = st_value m ((symtab + ELF32_R_SYM (r_info m reltab) * syment) % WORD))
    ∧ (ELF32_R_TYPE (r_info m reltab) = R_ARM_RELATIVE →
        ∃ m1, _elf_relocate_entry m handle buf reltab symtab syment = Flow.go (m1, handle)
          ∧ read32 m1 ((buf + r_offset m reltab) % WORD)
            = (read32 m ((buf + r_offset m reltab) % WORD) + buf) % WORD)
    ∧ (∀ (fuel entsize tableEnd : Nat) (m1 : Mem) (handle1 : Elf_handle),
        reltab < tableEnd →
        _elf_relocate_entry m handle buf reltab symtab syment = Flow.go (m1, handle1) →
        _elf_relocate_loop buf entsize tableEnd symtab syment (fuel + 1) reltab m handle
          = _elf_relocate_loop buf entsize tableEnd symtab syment fuel
              ((reltab + entsize) % WORD) m1 handle1) := by
  refine ⟨⟨?_, ?_, rfl⟩, ?_, ?_, ?_, ?_⟩
  · simp [ELF32_R_SYM, Nat.shiftRight_eq_div_pow]
  · have h := read32_lt m (reltab + 4)
    simp only [ELF32_R_SYM, Nat.shiftRight_eq_div_pow, r_info]
    unfold WORD at h
    omega
  · intro h
    refine ⟨_, _elf_relocate_entry_abs32 m handle buf reltab symtab syment h, ?_⟩
    rw [read32_write32_same, Nat.mod_mod]
  · intro h
    refine ⟨_, _elf_relocate_entry_jump_slot m handle buf reltab symtab syment h, ?_⟩
    rw [read32_write32_same]
    exact Nat.mod_eq_of_lt (read32_lt _ _)
  · intro h
    refine ⟨_, _elf_relocate_entry_relative m handle buf reltab symtab syment h, ?_⟩
    rw [read32_write32_same, Nat.mod_mod]
  · intro fuel entsize tableEnd m1 handle1 hlt he
    simp only [_elf_relocate_loop, hlt, if_true, he]

/-- Scenario S6 for claim C2: a `relative` entry at offset 0x100 over the word
0x40, buffer at 0x8000, yields 0x40 + 0x8000. -/
theorem relocation_entry_word_witness :
    ELF32_R_TYPE (r_info relativeMem 0x10) = R_ARM_RELATIVE
    ∧ r_offset relativeMem 0x10 = 0x100
    ∧ read32 relativeMem (0x8000 + 0x100) = 0x40
    ∧ ∃ m1, _elf_relocate_entry relativeMem (demoHandle 0x20 0x40) 0x8000 0x10 0 16
          = Flow.go (m1, demoHandle 0x20 0x40)
        ∧ read32 m1 ((0x8000 + r_offset relativeMem 0x10) % WORD)
          = (read32 relativeMem ((0x8000 + r_offset relativeMem 0x10) % WORD) + 0x8000) % WORD
        ∧ (read32 relativeMem ((0x8000 + r_offset relativeMem 0x10) % WORD) + 0x8000) % WORD
          = 0x40 + 0x8000 :=
  have h : ELF32_R_TYPE (r_info relativeMem 0x10) = R_ARM_RELATIVE := by decide!
  ⟨h, by decide!, by decide!,
    match (relocation_entry_word relativeMem (demoHandle 0x20 0x40) 0x8000 0x10 0 16).2.2.2.1 h
      with
    | ⟨m1, h1, h2⟩ => ⟨m1, h1, h2, by decide!⟩⟩

/-! ### Claim C3 -/

/-- Claim C3, amended: the unresolved symbol rule.  For an undefined entry
(section index 0) whose binding is not weak and whose name `foo` is read: if the
link map binds nothing to `hash(foo)` at that point, the body of the loop latches
"Unresolved symbol", leaves memory alone, and the link returns right there; if
the map binds `hash(foo)` to an address `A` other than `NULL` (as after the
host's `elf_mapsym( handle, foo, A )`), the body latches no error, the entry's
value becomes `A` and its section index 0xfff1, `elf_dlsym` of `foo` gives `A`
right after the entry, and still does when the link has returned provided no
entry processed later publishes a name with the same hash. -/
theorem unresolved_symbol_rule (fuel buf : Nat) (d : Elf_dynamic) (n ii : Nat) (m : Mem)
    (handle : Elf_handle) (foo : List Nat)
    (hlt : ii < read32 m (d.hash + 4))
    (hundef : st_shndx m (elf_link_symbol_at d ii) = SHN_UNDEF)
    (hstrong : ELF32_ST_BIND (st_info m (elf_link_symbol_at d ii)) &&& STB_WEAK = 0)
    (hname : cstring m fuel ((d.strtab + st_name m (elf_link_symbol_at d ii)) % WORD)
      = some foo) :
    (_elf_tree_find handle (_elf_hash foo) = 0 →
        elf_link_symbol fuel buf d ii m handle
          = some (Flow.ret (m, elf_set_error handle _elf_error_unresolved_symbol))
        ∧ elf_link_symbols fuel buf d (n + 1) ii m handle
          = some { mem := m, handle := elf_set_error handle _elf_error_unresolved_symbol,
                   events := [] }
        ∧ (elf_dlerror (elf_set_error handle _elf_error_unresolved_symbol)).1
          = some _elf_error_unresolved_symbol)
    ∧ (∀ A : Nat, A ≠ 0 → A < WORD → _elf_tree_find handle (_elf_hash foo) = A →
        (∀ name2 : List Nat,
          cstring (write32 (write16 m (elf_link_symbol_at d ii + 14) SHN_ABS)
              (elf_link_symbol_at d ii + 4) A) fuel
            ((d.strtab + st_name m (elf_link_symbol_at d ii)) % WORD) = some name2 →
          ∃ handle1, elf_link_symbol fuel buf d ii m handle
            = some (Flow.go (write32 (write16 m (elf_link_symbol_at d ii + 14) SHN_ABS)
                (elf_link_symbol_at d ii + 4) A, handle1)))
        ∧ ∀ r, elf_link_symbol fuel buf d ii m handle = some r →
          ∃ (m1 : Mem) (handle1 : Elf_handle), r = Flow.go (m1, handle1)
            ∧ handle1.flags = handle.flags ∧ handle1.error = handle.error
            ∧ st_value m1 (elf_link_symbol_at d ii) = A
            ∧ st_shndx m1 (elf_link_symbol_at d ii) = SHN_ABS
            ∧ elf_dlsym handle1 foo = A
            ∧ ∀ final, elf_link_symbols fuel buf d (n + 1) ii m handle = some final →
                elf_link_symbols fuel buf d n (ii + 1) m1 handle1 = some final
                ∧ (_elf_hash foo ∉ elf_link_resolve_keys fuel buf d n (ii + 1) m1 handle1 →
                    elf_dlsym final.handle foo = A))
    ∧ (∀ (h0 : Elf_handle) (A : Nat),
        _elf_tree_find (elf_mapsym h0 foo A) (_elf_hash foo) = A) := by
  refine ⟨?_, ?_, ?_⟩
  · intro habs
    have hs := elf_link_symbol_undef_absent fuel buf d ii m handle foo hundef hname
      ⟨habs, hstrong⟩
    refine ⟨hs, elf_link_symbols_ret fuel buf d n ii m m handle _ hlt hs, ?_⟩
    have hl := elf_set_error_latched handle _elf_error_unresolved_symbol
    simp only [elf_dlerror, hl, ne_eq, not_false_eq_true, if_true]
    rfl
  · intro A hA0 hAw hfind
    have hbody := elf_link_symbol_undef_bound fuel buf d ii m handle foo hundef hname
      (fun h => hA0 (hfind ▸ h.1))
    rw [hfind] at hbody
    obtain ⟨hn2, hvalue, hinfo, hshndx⟩ := symbol_fields_after_stores m (elf_link_symbol_at d ii) A
    rw [Nat.mod_eq_of_lt hAw] at hvalue
    constructor
    · intro name2 hc2
      rw [hbody]
      unfold elf_link_publish
      rw [hn2, hc2]
      split_ifs
      · exact ⟨_, rfl⟩
      · exact ⟨_, rfl⟩
    · intro r hs
      have hs0 := hs
      rw [hbody] at hs
      obtain ⟨handle1, hr, hfl, her, hcase⟩ := elf_link_publish_result _ _ _ _ _ _ hs
      have hd : elf_dlsym handle1 foo = A := by
        unfold elf_dlsym
        rcases hcase with ⟨_, hh⟩ | ⟨_, name2, _, hh⟩
        · rw [hh, hfind]
        · rw [hh, hvalue]
          unfold elf_mapsym
          by_cases hk : _elf_hash foo = _elf_hash name2
          · rw [hk, _elf_tree_find_add_same]
          · rw [_elf_tree_find_add_other _ _ _ _ hk, hfind]
      refine ⟨_, handle1, hr, hfl, her, hvalue, hshndx, hd, ?_⟩
      intro final hfinal
      rw [hr] at hs0
      have hnext := elf_link_symbols_go fuel buf d n ii m _ handle handle1 hlt hs0
      rw [hfinal] at hnext
      refine ⟨hnext.symm, ?_⟩
      intro hk
      unfold elf_dlsym at hd ⊢
      rw [elf_link_symbols_find _ _ _ _ _ _ _ _ _ hnext.symm hk]
      exact hd
  · intro h0 A
    unfold elf_mapsym
    exact _elf_tree_find_add_same _ _ _

/-- Claim C3 on the demo image with `foo` undefined and global (not weak), buffer
at 0x8000: with `foo` mapped to 0x5000 by the host the entry resolves to 0x5000
and the link latches no error; with nothing mapped the link latches "Unresolved
symbol". -/
theorem unresolved_symbol_rule_witness :
    (1 < read32 (demoLoaded 0x10 0x40 0x8000) ((demoDynamic 0x8000).hash + 4))
    ∧ st_shndx (demoLoaded 0x10 0x40 0x8000) (elf_link_symbol_at (demoDynamic 0x8000) 1)
        = SHN_UNDEF
    ∧ ELF32_ST_BIND (st_info (demoLoaded 0x10 0x40 0x8000)
        (elf_link_symbol_at (demoDynamic 0x8000) 1)) &&& STB_WEAK = 0
    ∧ cstring (demoLoaded 0x10 0x40 0x8000) 100
        (((demoDynamic 0x8000).strtab + st_name (demoLoaded 0x10 0x40 0x8000)
          (elf_link_symbol_at (demoDynamic 0x8000) 1)) % WORD) = some name_foo
    ∧ (∃ (m1 : Mem) (handle1 : Elf_handle),
        elf_link_symbol 100 0x8000 (demoDynamic 0x8000) 1 (demoLoaded 0x10 0x40 0x8000)
            (elf_mapsym (demoHandle 0x10 0x40) name_foo 0x5000) = some (Flow.go (m1, handle1))
        ∧ st_value m1 (elf_link_symbol_at (demoDynamic 0x8000) 1) = 0x5000
        ∧ st_shndx m1 (elf_link_symbol_at (demoDynamic 0x8000) 1) = SHN_ABS
        ∧ elf_dlsym handle1 name_foo = 0x5000)
    ∧ (elf_link 100 (demoMem 0x10 0x40) (elf_mapsym (demoHandle 0x10 0x40) name_foo 0x5000)
          0x8000).map (fun s => (s.handle.flags &&& _ELF_ERROR, elf_dlsym s.handle name_foo))
        = some (0, 0x5000)
    ∧ (elf_link 100 (demoMem 0x10 0x40) (demoHandle 0x10 0x40) 0x8000).map
          (fun s => (elf_dlerror s.handle).1) = some (some _elf_error_unresolved_symbol) :=
  have h1 : 1 < read32 (demoLoaded 0x10 0x40 0x8000) ((demoDynamic 0x8000).hash + 4) := by
    decide!
  have h2 : st_shndx (demoLoaded 0x10 0x40 0x8000) (elf_link_symbol_at (demoDynamic 0x8000) 1)
      = SHN_UNDEF := by decide!
  have h3 : ELF32_ST_BIND (st_info (demoLoaded 0x10 0x40 0x8000)
      (elf_link_symbol_at (demoDynamic 0x8000) 1)) &&& STB_WEAK = 0 := by decide!
  have h4 : cstring (demoLoaded 0x10 0x40 0x8000) 100
      (((demoDynamic 0x8000).strtab + st_name (demoLoaded 0x10 0x40 0x8000)
        (elf_link_symbol_at (demoDynamic 0x8000) 1)) % WORD) = some name_foo := by decide!
  have h5 : _elf_tree_find (elf_mapsym (demoHandle 0x10 0x40) name_foo 0x5000)
      (_elf_hash name_foo) = 0x5000 := by decide!
  have h6 : (elf_link_symbol 100 0x8000 (demoDynamic 0x8000) 1 (demoLoaded 0x10 0x40 0x8000)
      (elf_mapsym (demoHandle 0x10 0x40) name_foo 0x5000)).isSome = true := by decide!
  ⟨h1, h2, h3, h4,
    match Option.isSome_iff_exists.mp h6 with
    | ⟨r, hr⟩ =>
      match ((unresolved_symbol_rule 100 0x8000 (demoDynamic 0x8000) 2 1
          (demoLoaded 0x10 0x40 0x8000) (elf_mapsym (demoHandle 0x10 0x40) name_foo 0x5000)
          name_foo h1 h2 h3 h4).2.1 0x5000 (by decide) (by decide) h5).2 r hr with
      | ⟨m1, handle1, e1, _, _, e4, e5, e6, _⟩ => ⟨m1, handle1, e1 ▸ hr, e4, e5, e6⟩,
    by decide!, by decide!⟩

/-- Claim C3 fails as stated for the address 0: on the demo image with `foo`
undefined and global (not weak), after the host's `elf_mapsym( handle, "foo", 0 )`
the link still latches "Unresolved symbol". -/
theorem unresolved_symbol_mapped_to_null :
    st_shndx (demoLoaded 0x10 0x40 0x8000) (elf_link_symbol_at (demoDynamic 0x8000) 1)
        = SHN_UNDEF
    ∧ ELF32_ST_BIND (st_info (demoLoaded 0x10 0x40 0x8000)
        (elf_link_symbol_at (demoDynamic 0x8000) 1)) = STB_GLOBAL
    ∧ cstring (demoLoaded 0x10 0x40 0x8000) 100
        (((demoDynamic 0x8000).strtab + st_name (demoLoaded 0x10 0x40 0x8000)
          (elf_link_symbol_at (demoDynamic 0x8000) 1)) % WORD) = some name_foo
    ∧ (elf_link 100 (demoMem 0x10 0x40) (elf_mapsym (demoHandle 0x10 0x40) name_foo 0)
          0x8000).map (fun s => (elf_dlerror s.handle).1)
        = some (some _elf_error_unresolved_symbol) := by
  refine ⟨by decide!, by decide!, by decide!, by decide!⟩

/-! ### Claim C4 -/

/-- Claim C4, amended: the loader contract holds for the memory the first loop of
`elf_link` leaves.  When the image lies in `[header, header + L)`, every loadable
segment has `filesz ≤ memsz` and its destination inside the buffer
`[buf, buf + N)` below `2^32`, image and buffer do not overlap and the
destinations of the loadable segments do not overlap, then after the loop, for
every program header of type load, the bytes `buf[vaddr .. vaddr+filesz)` equal
the image bytes `image[offset .. offset+filesz)` and the bytes
`buf[vaddr+filesz .. vaddr+memsz)` are zero, and the image is unchanged.  That
memory is the one `elf_link` returns when it stops before symbol resolution and
the one symbol resolution and relocation then start from (and write to). -/
theorem loader_contract (m : Mem) (handle : Elf_handle) (buf L N : Nat)
    (hsep : handle.header + L ≤ buf ∨ buf + N ≤ handle.header)
    (himg : image_within m handle.header L)
    (hseg : segments_within m handle.header buf N)
    (hdis : segments_disjoint m handle.header buf) :
    (∀ i, i < e_phnum m handle.header →
        p_type m (ELF32_PH_GET m handle.header i) = PT_LOAD →
        segment_loaded m handle.header buf (elf_link_load handle.header buf 65536 0 m)
          (ELF32_PH_GET m handle.header i))
    ∧ (∀ x, handle.header ≤ x → x < handle.header + L →
        elf_link_load handle.header buf 65536 0 m x = m x)
    ∧ (∀ (fuel : Nat) (final : Elf_state), elf_link fuel m handle buf = some final →
        final.mem = elf_link_load handle.header buf 65536 0 m
        ∨ ∃ (d : Elf_dynamic) (handle1 : Elf_handle),
            elf_link_symbols fuel buf d WORD 1 (elf_link_load handle.header buf 65536 0 m)
              handle1 = some final) := by
  have hn : e_phnum m handle.header < 65536 := read16_lt m _
  obtain ⟨h1, h2⟩ := elf_link_load_inv m handle.header buf L N hsep himg hseg hdis 65536 0 m
    (by omega) (fun _ _ _ => rfl) (fun i hi => absurd hi (Nat.not_lt_zero i))
  refine ⟨h2, h1, ?_⟩
  intro fuel final hfin
  unfold elf_link at hfin
  simp only [] at hfin
  split_ifs at hfin with c1
  · simp only [Option.some.injEq] at hfin
    rw [← hfin]
    exact Or.inl rfl
  · unfold elf_link_dynamic at hfin
    simp only [] at hfin
    split at hfin
    · cases hfin
    · simp only [Option.some.injEq] at hfin
      rw [← hfin]
      exact Or.inl rfl
    · split_ifs at hfin with c2
      · simp only [Option.some.injEq] at hfin
        rw [← hfin]
        exact Or.inl rfl
      · exact Or.inr ⟨_, _, hfin⟩

/-- Claim C4 on the demo image (272 bytes at 0x1000), buffer of 288 bytes at
0x8000: after the first loop of `elf_link` the one loadable segment is in place. -/
theorem loader_contract_witness :
    ((demoHandle 0x20 0x40).header + 272 ≤ 0x8000 ∨ 0x8000 + 288 ≤ (demoHandle 0x20 0x40).header)
    ∧ image_within (demoMem 0x20 0x40) (demoHandle 0x20 0x40).header 272
    ∧ segments_within (demoMem 0x20 0x40) (demoHandle 0x20 0x40).header 0x8000 288
    ∧ segments_disjoint (demoMem 0x20 0x40) (demoHandle 0x20 0x40).header 0x8000
    ∧ p_type (demoMem 0x20 0x40) (ELF32_PH_GET (demoMem 0x20 0x40) (demoHandle 0x20 0x40).header 0)
        = PT_LOAD
    ∧ segment_loaded (demoMem 0x20 0x40) (demoHandle 0x20 0x40).header 0x8000
        (elf_link_load (demoHandle 0x20 0x40).header 0x8000 65536 0 (demoMem 0x20 0x40))
        (ELF32_PH_GET (demoMem 0x20 0x40) (demoHandle 0x20 0x40).header 0) :=
  have h1 : (demoHandle 0x20 0x40).header + 272 ≤ 0x8000
      ∨ 0x8000 + 288 ≤ (demoHandle 0x20 0x40).header := by decide!
  have h2 : image_within (demoMem 0x20 0x40) (demoHandle 0x20 0x40).header 272 := by decide!
  have h3 : segments_within (demoMem 0x20 0x40) (demoHandle 0x20 0x40).header 0x8000 288 := by
    decide!
  have h4 : segments_disjoint (demoMem 0x20 0x40) (demoHandle 0x20 0x40).header 0x8000 := by
    decide!
  have h5 : p_type (demoMem 0x20 0x40)
      (ELF32_PH_GET (demoMem 0x20 0x40) (demoHandle 0x20 0x40).header 0) = PT_LOAD := by decide!
  ⟨h1, h2, h3, h4, h5,
    (loader_contract (demoMem 0x20 0x40) (demoHandle 0x20 0x40) 0x8000 272 288 h1 h2 h3 h4).1 0
      (by decide!) h5⟩

/-- Claim C4 fails as stated: on the demo image (one loadable segment, file
offset 0, `vaddr` 0, `filesz` 272 ≤ `memsz` 288), buffer at 0x8000, the link
latches no error, and when it has returned the segment's bytes in the buffer
differ from the image's: symbol resolution has stored 0xfff1 in the section index
of `foo` (bytes 238 and 239), where the image has 0. -/
theorem loader_contract_broken_by_resolution :
    load_headers (demoMem 0x20 0x40) 0x1000 = [0x1034]
    ∧ p_offset (demoMem 0x20 0x40) 0x1034 = 0
    ∧ p_vaddr (demoMem 0x20 0x40) 0x1034 = 0
    ∧ p_filesz (demoMem 0x20 0x40) 0x1034 = 272
    ∧ p_memsz (demoMem 0x20 0x40) 0x1034 = 288
    ∧ (elf_link 100 (demoMem 0x20 0x40) (demoHandle 0x20 0x40) 0x8000).map
        (fun s => (s.handle.flags &&& _ELF_ERROR,
          decide (segment_loaded (demoMem 0x20 0x40) 0x1000 0x8000 s.mem 0x1034),
          read8 s.mem (0x8000 + 238), read8 (demoMem 0x20 0x40) (0x1000 + 238)))
        = some (0, false, 0xf1, 0) := by
  refine ⟨by decide!, by decide!, by decide!, by decide!, by decide!, by decide!⟩

/-! ### Claim C5 -/

/-- Claim C5, amended: the size planner.  When every loadable segment has a
non-zero alignment, its rounded end `align_up (vaddr + memsz) align` fits in 32
bits and, if `vaddr + memsz` is 0, its alignment divides `2^32`, `elf_lbounds`
returns exactly the maximum over the loadable segments of `vaddr + memsz` rounded
up to a multiple of the alignment (0 when there is none); so the result is at
least the rounded end of every loadable segment, and a segment with `memsz = 0`
contributes `vaddr` rounded up.  `align_up x a` is the least multiple of `a`
that is at least `x`. -/
theorem size_planner_exact (m : Mem) (handle : Elf_handle)
    (hfit : ∀ p ∈ load_headers m handle.header, segment_fits m p) :
    elf_lbounds m handle = some (size_planner m handle.header)
    ∧ (∀ p ∈ load_headers m handle.header,
        align_up (p_vaddr m p + p_memsz m p) (p_align m p) ≤ size_planner m handle.header)
    ∧ (∀ p ∈ load_headers m handle.header, p_memsz m p = 0 →
        align_up (p_vaddr m p) (p_align m p) ≤ size_planner m handle.header)
    ∧ (load_headers m handle.header = [] → elf_lbounds m handle = some 0)
    ∧ (∀ x a : Nat, 0 < a →
        a ∣ align_up x a ∧ x ≤ align_up x a ∧ align_up x a < x + a) := by
  have hn : e_phnum m handle.header < 65536 := read16_lt m _
  have hmain : elf_lbounds m handle = some (size_planner m handle.header) := by
    unfold elf_lbounds size_planner load_headers
    rw [elf_lbounds_loop_eq m handle.header 65536 0 0 (by omega)]
    · rw [Nat.sub_zero, List.range_eq_range']
    · intro i _ hi hl
      exact hfit _ ((mem_load_headers m handle.header _).mpr ⟨i, hi, rfl, hl⟩)
  have hle : ∀ p ∈ load_headers m handle.header,
      align_up (p_vaddr m p + p_memsz m p) (p_align m p) ≤ size_planner m handle.header := by
    intro p hp
    unfold size_planner
    exact foldl_max_le _ 0 _ (List.mem_map_of_mem _ hp)
  refine ⟨hmain, hle, ?_, ?_, ?_⟩
  · intro p hp h0
    have h := hle p hp
    rw [h0, Nat.add_zero] at h
    exact h
  · intro h0
    rw [hmain]
    unfold size_planner
    rw [h0]
    rfl
  · intro x a ha
    exact ⟨dvd_align_up x a, le_align_up x a ha, align_up_lt x a ha⟩

/-- The demo image satisfies the side conditions of claim C5 and needs 288 bytes. -/
theorem size_planner_exact_witness :
    (∀ p ∈ load_headers (demoMem 0x20 0x40) (demoHandle 0x20 0x40).header,
        segment_fits (demoMem 0x20 0x40) p)
    ∧ elf_lbounds (demoMem 0x20 0x40) (demoHandle 0x20 0x40) = some 288
    ∧ size_planner (demoMem 0x20 0x40) (demoHandle 0x20 0x40).header = 288 :=
  have h : ∀ p ∈ load_headers (demoMem 0x20 0x40) (demoHandle 0x20 0x40).header,
      segment_fits (demoMem 0x20 0x40) p := by decide!
  have h1 : size_planner (demoMem 0x20 0x40) (demoHandle 0x20 0x40).header = 288 := by decide!
  ⟨h, h1 ▸ (size_planner_exact (demoMem 0x20 0x40) (demoHandle 0x20 0x40) h).1, h1⟩

/-- Claim C5 fails as stated.  For one loadable segment with `p_vaddr` 0xFFFFF001,
`p_memsz` 0 and `p_align` 0x1000 the rounding wraps and `elf_lbounds` returns 0,
not the rounded end `2^32`, and so less than the segment's `vaddr`.  For one
loadable segment with `p_vaddr` 0, `p_memsz` 0 and `p_align` 3 the decrement
wraps and `elf_lbounds` returns 2, where 0 rounded up to a multiple of 3 is 0.
For `p_align` 0 the division has no defined result. -/
theorem size_planner_wraps :
    load_headers (onePhdrMem 0xFFFFF001 0 0x1000) 0x1000 = [0x1034]
    ∧ p_vaddr (onePhdrMem 0xFFFFF001 0 0x1000) 0x1034 = 0xFFFFF001
    ∧ p_memsz (onePhdrMem 0xFFFFF001 0 0x1000) 0x1034 = 0
    ∧ p_align (onePhdrMem 0xFFFFF001 0 0x1000) 0x1034 = 0x1000
    ∧ size_planner (onePhdrMem 0xFFFFF001 0 0x1000) 0x1000 = 4294967296
    ∧ elf_lbounds (onePhdrMem 0xFFFFF001 0 0x1000)
        (elf_dlmemopen (onePhdrMem 0xFFFFF001 0 0x1000) 0x1000 ELF_RTLD_DEFAULT
          _elf_error_magic_id) = some 0
    ∧ load_headers (onePhdrMem 0 0 3) 0x1000 = [0x1034]
    ∧ p_vaddr (onePhdrMem 0 0 3) 0x1034 = 0
    ∧ p_memsz (onePhdrMem 0 0 3) 0x1034 = 0
    ∧ p_align (onePhdrMem 0 0 3) 0x1034 = 3
    ∧ size_planner (onePhdrMem 0 0 3) 0x1000 = 0
    ∧ elf_lbounds (onePhdrMem 0 0 3)
        (elf_dlmemopen (onePhdrMem 0 0 3) 0x1000 ELF_RTLD_DEFAULT _elf_error_magic_id) = some 2
    ∧ elf_lbounds (onePhdrMem 0 16 0)
        (elf_dlmemopen (onePhdrMem 0 16 0) 0x1000 ELF_RTLD_DEFAULT _elf_error_magic_id) = none := by
  refine ⟨by decide!, by decide!, by decide!, by decide!, by decide!, by decide!, by decide!,
    by decide!, by decide!, by decide!, by decide!, by decide!, by decide!⟩

/-! ### Claim C6 -/

/-- Claim C6: the link map is a dictionary keyed by hash alone.  After
`_elf_tree_add( h, a )` a find of `h` gives `a` and a find of any other key is
unchanged; on a map built from the empty one by additions, a find of a key that
was never added gives `NULL`; two names with one hash ("Aa" and "BB") share one
entry, so the later `elf_mapsym` wins; and between open and link `elf_dlsym`
gives the address of the host's last `elf_mapsym` on that hash, `NULL` if none. -/
theorem symbol_map_dictionary :
    (∀ (handle : Elf_handle) (h : Int) (a : Nat),
        _elf_tree_find (_elf_tree_add handle h a) h = a
        ∧ ∀ k : Int, k ≠ h →
            _elf_tree_find (_elf_tree_add handle h a) k = _elf_tree_find handle k)
    ∧ (∀ (handle : Elf_handle) (calls : List (Int × Nat)) (k : Int),
        handle.globalSymbols = Elf_symbolNode.null → (∀ c ∈ calls, c.1 ≠ k) →
        _elf_tree_find (_elf_tree_add_calls handle calls) k = 0)
    ∧ ([65, 97] ≠ [66, 66] ∧ _elf_hash [65, 97] = _elf_hash [66, 66])
    ∧ (∀ (handle : Elf_handle) (n1 n2 : List Nat) (a1 a2 : Nat),
        _elf_hash n1 = _elf_hash n2 →
        elf_dlsym (elf_mapsym (elf_mapsym handle n1 a1) n2 a2) n1 = a2)
    ∧ (∀ (handle : Elf_handle) (a1 a2 : Nat),
        elf_dlsym (elf_mapsym (elf_mapsym handle [65, 97] a1) [66, 66] a2) [65, 97] = a2)
    ∧ (∀ (m : Mem) (buf flag : Nat) (error0 : String) (calls : List (List Nat × Nat))
        (name : List Nat),
        elf_dlsym (elf_mapsym_calls (elf_dlmemopen m buf flag error0) calls) name
          = last_mapped calls (_elf_hash name) 0) := by
  refine ⟨fun handle h a => ⟨_elf_tree_find_add_same handle h a,
      fun k hk => _elf_tree_find_add_other handle h a k hk⟩, ?_, ⟨by decide, by decide⟩, ?_, ?_, ?_⟩
  · intro handle calls k h0 hk
    rw [_elf_tree_find_add_calls_absent calls handle k hk]
    simp [_elf_tree_find, h0, _elf_tree_find_loop]
  · intro handle n1 n2 a1 a2 he
    simp only [elf_dlsym, elf_mapsym]
    rw [he, _elf_tree_find_add_same]
  · intro handle a1 a2
    have he : _elf_hash [65, 97] = _elf_hash [66, 66] := by decide
    simp only [elf_dlsym, elf_mapsym]
    rw [he, _elf_tree_find_add_same]
  · intro m buf flag error0 calls name
    simp only [elf_dlsym]
    rw [_elf_tree_find_mapsym_calls]
    simp [_elf_tree_find, elf_dlmemopen_globalSymbols, _elf_tree_find_loop]

/-- Claim C6 at concrete inputs: on the demo handle with "mul" mapped to 0x100,
a find of the hash of "foo", never added, gives `NULL`, and mapping "Aa" to 1
and then "BB" to 2 makes `elf_dlsym` of "Aa" give 2. -/
theorem symbol_map_dictionary_witness :
    (demoHandle 0x20 0x40).globalSymbols = Elf_symbolNode.null
    ∧ (∀ c ∈ [(_elf_hash name_mul, 0x100)], c.1 ≠ _elf_hash name_foo)
    ∧ _elf_tree_find (_elf_tree_add_calls (demoHandle 0x20 0x40) [(_elf_hash name_mul, 0x100)])
        (_elf_hash name_foo) = 0
    ∧ _elf_hash [65, 97] = _elf_hash [66, 66]
    ∧ elf_dlsym (elf_mapsym (elf_mapsym (demoHandle 0x20 0x40) [65, 97] 1) [66, 66] 2) [65, 97]
        = 2 :=
  have h1 : (demoHandle 0x20 0x40).globalSymbols = Elf_symbolNode.null := by decide!
  have h2 : ∀ c ∈ [(_elf_hash name_mul, 0x100)], c.1 ≠ _elf_hash name_foo := by decide!
  have h3 : _elf_hash [65, 97] = _elf_hash [66, 66] := by decide
  ⟨h1, h2,
    symbol_map_dictionary.2.1 (demoHandle 0x20 0x40) [(_elf_hash name_mul, 0x100)]
      (_elf_hash name_foo) h1 h2,
    h3, symbol_map_dictionary.2.2.2.1 (demoHandle 0x20 0x40) [65, 97] [66, 66] 1 2 h3⟩

/-! ### Claim C7 -/

/-- Claim C7: the hash law.  The hash of the empty name is 7; appending a
non-zero character `c` to a name `s` without zero characters gives
`_elf_hash s * 31 + c` wrapped to a signed 32-bit integer; the hash of "printf"
is the wrapped value of the written-out recurrence, 937574944; and
`elf_mapsym`, `elf_dlsym` and the resolver (lookup of an undefined symbol,
publication of a global one) all key the map by `_elf_hash` of the name. -/
theorem hash_law :
    _elf_hash [] = 7
    ∧ (∀ (s : List Nat) (c : Nat), (∀ x ∈ s, x ≠ 0) → c ≠ 0 →
        _elf_hash (s ++ [c]) = wrapInt (_elf_hash s * 31 + c))
    ∧ _elf_hash [112, 114, 105, 110, 116, 102]
        = wrapInt (((((((7 * 31) + 112) * 31 + 114) * 31 + 105) * 31 + 110) * 31 + 116) * 31 + 102)
    ∧ _elf_hash [112, 114, 105, 110, 116, 102] = 937574944
    ∧ (∀ (handle : Elf_handle) (name : List Nat) (sym : Nat),
        elf_mapsym handle name sym = _elf_tree_add handle (_elf_hash name) sym)
    ∧ (∀ (handle : Elf_handle) (name : List Nat),
        elf_dlsym handle name = _elf_tree_find handle (_elf_hash name))
    ∧ (∀ (fuel buf : Nat) (d : Elf_dynamic) (ii : Nat) (m : Mem) (handle : Elf_handle)
        (name : List Nat),
        st_shndx m (elf_link_symbol_at d ii) = SHN_UNDEF →
        cstring m fuel ((d.strtab + st_name m (elf_link_symbol_at d ii)) % WORD) = some name →
        _elf_tree_find handle (_elf_hash name) = 0 →
        ELF32_ST_BIND (st_info m (elf_link_symbol_at d ii)) &&& STB_WEAK = 0 →
        elf_link_symbol fuel buf d ii m handle
          = some (Flow.ret (m, elf_set_error handle _elf_error_unresolved_symbol)))
    ∧ (∀ (fuel : Nat) (d : Elf_dynamic) (symbol : Nat) (m : Mem) (handle : Elf_handle)
        (name : List Nat),
        ELF32_ST_BIND (st_info m symbol) &&& STB_GLOBAL ≠ 0 →
        cstring m fuel ((d.strtab + st_name m symbol) % WORD) = some name →
        elf_link_publish fuel d symbol m handle
          = some (Flow.go (m, _elf_tree_add handle (_elf_hash name) (st_value m symbol)))) := by
  refine ⟨rfl, ?_, by decide, by decide, fun _ _ _ => rfl, fun _ _ => rfl, ?_, ?_⟩
  · intro s c hs hc
    exact _elf_hash_loop_append_one s c 7 hs hc
  · intro fuel buf d ii m handle name h1 h2 h3 h4
    simp only [elf_link_symbol, h1, if_true, h2, h3, h4, and_self]
  · intro fuel d symbol m handle name h1 h2
    simp only [elf_link_publish, h1, h2, ne_eq, not_false_eq_true, if_true, elf_mapsym]

/-- Claim C7 at a concrete input: "printf" is "print" followed by 'f'. -/
theorem hash_law_witness :
    (∀ x ∈ [112, 114, 105, 110, 116], x ≠ 0) ∧ 102 ≠ 0
    ∧ _elf_hash ([112, 114, 105, 110, 116] ++ [102])
        = wrapInt (_elf_hash [112, 114, 105, 110, 116] * 31 + (102 : Nat))
    ∧ _elf_hash [112, 114, 105, 110, 116] = 307339014 :=
  have h1 : ∀ x ∈ [112, 114, 105, 110, 116], x ≠ 0 := by decide
  ⟨h1, by decide, hash_law.2.1 [112, 114, 105, 110, 116] 102 h1 (by decide), by decide⟩

/-! ### Claim C8 -/

/-- Claim C8: validation, first failure wins.  For an image opened with the
default flag, `elf_dlerror` right after the open returns "Magic ID" when bytes
0..3 are not 0x7F 'E' 'L' 'F'; otherwise "Class" when ident byte 4 is not 1;
otherwise "Endian" when ident byte 5 is not 1; otherwise "Version" when ident
byte 6 is not 1; otherwise "Type" when `e_type` is not 3; and `NULL` when all
five checks pass. -/
theorem validation_priority (m : Mem) (buf : Nat) (error0 : String) :
    (elf_dlerror (elf_dlmemopen m buf ELF_RTLD_DEFAULT error0)).1 =
      if ¬ (read8 m buf = 0x7F ∧ read8 m (buf + 1) = 0x45 ∧ read8 m (buf + 2) = 0x4C
            ∧ read8 m (buf + 3) = 0x46) then some _elf_error_magic_id
      else if read8 m (buf + 4) ≠ 1 then some _elf_error_class
      else if read8 m (buf + 5) ≠ 1 then some _elf_error_endian
      else if read8 m (buf + 6) ≠ 1 then some _elf_error_version
      else if read16 m (buf + 16) ≠ 3 then some _elf_error_type
      else none := by
  have hm := read32_magic m buf
  have hl : ∀ (h : Elf_handle) (msg : String),
      (elf_dlerror (elf_set_error h msg)).1 = some msg := by
    intro h msg
    have h1 := elf_set_error_latched h msg
    simp only [elf_dlerror, h1, ne_eq, not_false_eq_true, if_true]
    rfl
  have h0 : (0 : Nat) &&& 1 = 0 := by decide
  simp only [elf_dlmemopen, ELF_RTLD_DEFAULT, h0, if_true, _elf_check, e_ident, e_type,
    EI_CLASS, EI_DATA, EI_VERSION, ELFCLASS32, ELFDATA2LSB, ET_DYN, ne_eq]
  by_cases c0 : read32 m buf = 0x464C457F
  · have c0' := hm.mp c0
    rw [if_neg (not_not.mpr c0), if_neg (not_not.mpr c0')]
    by_cases c1 : read8 m (buf + 4) = 1
    · rw [if_neg (not_not.mpr c1), if_neg (not_not.mpr c1)]
      by_cases c2 : read8 m (buf + 5) = 1
      · rw [if_neg (not_not.mpr c2), if_neg (not_not.mpr c2)]
        by_cases c3 : read8 m (buf + 6) = 1
        · rw [if_neg (not_not.mpr c3), if_neg (not_not.mpr c3)]
          by_cases c4 : read16 m (buf + 16) = 3
          · rw [if_neg (not_not.mpr c4), if_neg (not_not.mpr c4)]
            simp [elf_dlerror]
          · rw [if_pos c4, if_pos c4, hl]
        · rw [if_pos c3, if_pos c3, hl]
      · rw [if_pos c2, if_pos c2, hl]
    · rw [if_pos c1, if_pos c1, hl]
  · have c0' : ¬ (read8 m buf = 0x7F ∧ read8 m (buf + 1) = 0x45 ∧ read8 m (buf + 2) = 0x4C
            ∧ read8 m (buf + 3) = 0x46) := fun h => c0 (hm.mpr h)
    rw [if_pos c0, if_pos c0', hl]

/-! ### Claim C9 -/

/-- Claim C9: the error latch.  On a handle whose error bit is set, `elf_dlerror`
returns the latched message and clears the error bit, leaving the other flag
bits, the message pointer, the link map and the remaining fields as they were;
a second `elf_dlerror` right after returns `NULL` and changes nothing; a
failure point leaves the bit set with its message; and after two failures in a
row the query returns the message of the second. -/
theorem error_latch :
    (∀ handle : Elf_handle, handle.flags &&& _ELF_ERROR ≠ 0 →
        (elf_dlerror handle).1 = some handle.error
        ∧ (elf_dlerror handle).2.flags &&& _ELF_ERROR = 0
        ∧ (∀ i : Nat, i ≠ 15 → i < 32 →
            (elf_dlerror handle).2.flags.testBit i = handle.flags.testBit i)
        ∧ (elf_dlerror handle).2.error = handle.error
        ∧ (elf_dlerror handle).2.globalSymbols = handle.globalSymbols
        ∧ (elf_dlerror handle).2.header = handle.header
        ∧ (elf_dlerror handle).2.finiArray = handle.finiArray
        ∧ (elf_dlerror handle).2.finiLength = handle.finiLength
        ∧ elf_dlerror (elf_dlerror handle).2 = (none, (elf_dlerror handle).2))
    ∧ (∀ (handle : Elf_handle) (msg : String),
        (elf_set_error handle msg).flags &&& _ELF_ERROR ≠ 0
        ∧ (elf_set_error handle msg).error = msg
        ∧ (elf_dlerror (elf_set_error handle msg)).1 = some msg)
    ∧ (∀ (handle : Elf_handle) (msg1 msg2 : String),
        (elf_dlerror (elf_set_error (elf_set_error handle msg1) msg2)).1 = some msg2) := by
  refine ⟨?_, ?_, ?_⟩
  · intro handle h
    have h2 := clear_error_bit handle.flags
    simp only [elf_dlerror, h, ne_eq, not_false_eq_true, if_true, h2, not_true_eq_false,
      if_false, and_self, and_true, true_and]
    intro i hi h32
    exact clear_error_bit_other handle.flags i hi h32
  · intro handle msg
    have h := elf_set_error_latched handle msg
    refine ⟨h, rfl, ?_⟩
    simp only [elf_dlerror, h, ne_eq, not_false_eq_true, if_true]
    rfl
  · intro handle msg1 msg2
    have h := elf_set_error_latched (elf_set_error handle msg1) msg2
    simp only [elf_dlerror, h, ne_eq, not_false_eq_true, if_true]
    rfl

/-- Claim C9 at a concrete input: on the demo handle with "Type" latched and flag
bit 0 set besides, the first query returns "Type" and leaves the flags at 1, the
second returns `NULL`. -/
theorem error_latch_witness :
    (elf_set_error { demoHandle 0x20 0x40 with flags := 1 } _elf_error_type).flags
        &&& _ELF_ERROR ≠ 0
    ∧ (elf_dlerror (elf_set_error { demoHandle 0x20 0x40 with flags := 1 }
        _elf_error_type)).1 = some _elf_error_type
    ∧ (elf_dlerror (elf_set_error { demoHandle 0x20 0x40 with flags := 1 }
        _elf_error_type)).2.flags = 1
    ∧ elf_dlerror (elf_dlerror (elf_set_error { demoHandle 0x20 0x40 with flags := 1 }
        _elf_error_type)).2
      = (none, (elf_dlerror (elf_set_error { demoHandle 0x20 0x40 with flags := 1 }
        _elf_error_type)).2) :=
  have h : (elf_set_error { demoHandle 0x20 0x40 with flags := 1 } _elf_error_type).flags
      &&& _ELF_ERROR ≠ 0 := by decide!
  have hc := error_latch.1
    (elf_set_error { demoHandle 0x20 0x40 with flags := 1 } _elf_error_type) h
  ⟨h, hc.1, by decide!, hc.2.2.2.2.2.2.2.2⟩

/-! ### Claim C10 -/

/-- Claim C10, amended: a weak undefined symbol.  For an undefined entry whose
binding has the weak bit and whose name has no entry in the link map, the body of
the resolution loop latches no error, and leaves the entry's value at 0 (the
absent sentinel) and its section index at 0xfff1.  While the entry's value is 0,
a `jump_slot` relocation referring to it stores 0 in its word, and an `abs32`
relocation referring to it adds 0, so its word keeps the contents it had. -/
theorem weak_undefined_absent (fuel buf : Nat) (d : Elf_dynamic) (ii : Nat) (m : Mem)
    (handle : Elf_handle) (name : List Nat)
    (hundef : st_shndx m (elf_link_symbol_at d ii) = SHN_UNDEF)
    (hweak : ELF32_ST_BIND (st_info m (elf_link_symbol_at d ii)) &&& STB_WEAK ≠ 0)
    (hname : cstring m fuel ((d.strtab + st_name m (elf_link_symbol_at d ii)) % WORD)
      = some name)
    (habsent : _elf_tree_find handle (_elf_hash name) = 0) :
    (∀ name2 : List Nat,
        cstring (write32 (write16 m (elf_link_symbol_at d ii + 14) SHN_ABS)
            (elf_link_symbol_at d ii + 4) 0) fuel
          ((d.strtab + st_name m (elf_link_symbol_at d ii)) % WORD) = some name2 →
        ∃ handle1, elf_link_symbol fuel buf d ii m handle
          = some (Flow.go (write32 (write16 m (elf_link_symbol_at d ii + 14) SHN_ABS)
              (elf_link_symbol_at d ii + 4) 0, handle1)))
    ∧ (∀ r, elf_link_symbol fuel buf d ii m handle = some r →
        ∃ (m1 : Mem) (handle1 : Elf_handle), r = Flow.go (m1, handle1)
          ∧ handle1.flags = handle.flags ∧ handle1.error = handle.error
          ∧ st_value m1 (elf_link_symbol_at d ii) = 0
          ∧ st_shndx m1 (elf_link_symbol_at d ii) = SHN_ABS)
    ∧ (∀ (m2 : Mem) (handle2 : Elf_handle) (reltab : Nat),
        ELF32_R_SYM (r_info m2 reltab) = ii →
        st_value m2 (elf_link_symbol_at d ii) = 0 →
        (ELF32_R_TYPE (r_info m2 reltab) = R_ARM_JUMP_SLOT →
          ∃ m3, _elf_relocate_entry m2 handle2 buf reltab d.symtab d.syment
              = Flow.go (m3, handle2)
            ∧ read32 m3 ((buf + r_offset m2 reltab) % WORD) = 0)
        ∧ (ELF32_R_TYPE (r_info m2 reltab) = R_ARM_ABS32 →
          ∃ m3, _elf_relocate_entry m2 handle2 buf reltab d.symtab d.syment
              = Flow.go (m3, handle2)
            ∧ read32 m3 ((buf + r_offset m2 reltab) % WORD)
              = read32 m2 ((buf + r_offset m2 reltab) % WORD))) := by
  have hbody := elf_link_symbol_undef_bound fuel buf d ii m handle name hundef hname
    (fun h => hweak h.2)
  rw [habsent] at hbody
  obtain ⟨hn2, hvalue, hinfo, hshndx⟩ := symbol_fields_after_stores m (elf_link_symbol_at d ii) 0
  refine ⟨?_, ?_, ?_⟩
  · intro name2 hc2
    rw [hbody]
    unfold elf_link_publish
    rw [hn2, hc2]
    split_ifs
    · exact ⟨_, rfl⟩
    · exact ⟨_, rfl⟩
  · intro r hs
    rw [hbody] at hs
    obtain ⟨handle1, hr, hfl, her, _⟩ := elf_link_publish_result _ _ _ _ _ _ hs
    exact ⟨_, handle1, hr, hfl, her, hvalue, hshndx⟩
  · intro m2 handle2 reltab hsym hzero
    have haddr : (d.symtab + ELF32_R_SYM (r_info m2 reltab) * d.syment) % WORD
        = elf_link_symbol_at d ii := by rw [hsym]; rfl
    constructor
    · intro hty
      refine ⟨_, _elf_relocate_entry_jump_slot m2 handle2 buf reltab d.symtab d.syment hty, ?_⟩
      rw [read32_write32_same, haddr, hzero]
      rfl
    · intro hty
      refine ⟨_, _elf_relocate_entry_abs32 m2 handle2 buf reltab d.symtab d.syment hty, ?_⟩
      rw [read32_write32_same, haddr, hzero, Nat.add_zero, Nat.mod_mod]
      exact Nat.mod_eq_of_lt (read32_lt _ _)

/-- Claim C10 on the demo image with `foo` undefined and weak, nothing mapped,
buffer at 0x8000: the entry resolves to 0 and no error is latched. -/
theorem weak_undefined_absent_witness :
    st_shndx (demoLoaded 0x20 0x40 0x8000) (elf_link_symbol_at (demoDynamic 0x8000) 1)
        = SHN_UNDEF
    ∧ ELF32_ST_BIND (st_info (demoLoaded 0x20 0x40 0x8000)
        (elf_link_symbol_at (demoDynamic 0x8000) 1)) &&& STB_WEAK ≠ 0
    ∧ cstring (demoLoaded 0x20 0x40 0x8000) 100
        (((demoDynamic 0x8000).strtab + st_name (demoLoaded 0x20 0x40 0x8000)
          (elf_link_symbol_at (demoDynamic 0x8000) 1)) % WORD) = some name_foo
    ∧ _elf_tree_find (demoHandle 0x20 0x40) (_elf_hash name_foo) = 0
    ∧ (∃ (m1 : Mem) (handle1 : Elf_handle),
        elf_link_symbol 100 0x8000 (demoDynamic 0x8000) 1 (demoLoaded 0x20 0x40 0x8000)
            (demoHandle 0x20 0x40) = some (Flow.go (m1, handle1))
        ∧ handle1.flags = (demoHandle 0x20 0x40).flags
        ∧ st_value m1 (elf_link_symbol_at (demoDynamic 0x8000) 1) = 0
        ∧ st_shndx m1 (elf_link_symbol_at (demoDynamic 0x8000) 1) = SHN_ABS) :=
  have h2 : st_shndx (demoLoaded 0x20 0x40 0x8000) (elf_link_symbol_at (demoDynamic 0x8000) 1)
      = SHN_UNDEF := by decide!
  have h3 : ELF32_ST_BIND (st_info (demoLoaded 0x20 0x40 0x8000)
      (elf_link_symbol_at (demoDynamic 0x8000) 1)) &&& STB_WEAK ≠ 0 := by decide!
  have h4 : cstring (demoLoaded 0x20 0x40 0x8000) 100
      (((demoDynamic 0x8000).strtab + st_name (demoLoaded 0x20 0x40 0x8000)
        (elf_link_symbol_at (demoDynamic 0x8000) 1)) % WORD) = some name_foo := by decide!
  have h5 : _elf_tree_find (demoHandle 0x20 0x40) (_elf_hash name_foo) = 0 := by decide!
  have h6 : (elf_link_symbol 100 0x8000 (demoDynamic 0x8000) 1 (demoLoaded 0x20 0x40 0x8000)
      (demoHandle 0x20 0x40)).isSome = true := by decide!
  ⟨h2, h3, h4, h5,
    match Option.isSome_iff_exists.mp h6 with
    | ⟨r, hr⟩ =>
      match (weak_undefined_absent 100 0x8000 (demoDynamic 0x8000) 1
          (demoLoaded 0x20 0x40 0x8000) (demoHandle 0x20 0x40) name_foo h2 h3 h4 h5).2.1 r hr
        with
      | ⟨m1, handle1, e1, e2, _, e4, e5⟩ => ⟨m1, handle1, e1 ▸ hr, e2, e4, e5⟩⟩

/-- Claim C10 fails as stated: on the demo image (`foo` undefined and weak,
nothing mapped, one `abs32` relocation against `foo` at offset 264 whose word
holds 0x40) the link latches no error, `foo` resolves to 0, and the word at
`buf + 264` is 0x40 after the relocation, not 0. -/
theorem weak_abs32_keeps_addend :
    st_shndx (demoLoaded 0x20 0x40 0x8000) (elf_link_symbol_at (demoDynamic 0x8000) 1)
        = SHN_UNDEF
    ∧ ELF32_ST_BIND (st_info (demoLoaded 0x20 0x40 0x8000)
        (elf_link_symbol_at (demoDynamic 0x8000) 1)) = STB_WEAK
    ∧ _elf_tree_find (demoHandle 0x20 0x40) (_elf_hash name_foo) = 0
    ∧ ELF32_R_TYPE (r_info (demoLoaded 0x20 0x40 0x8000) (demoDynamic 0x8000).reltab)
        = R_ARM_ABS32
    ∧ ELF32_R_SYM (r_info (demoLoaded 0x20 0x40 0x8000) (demoDynamic 0x8000).reltab) = 1
    ∧ r_offset (demoLoaded 0x20 0x40 0x8000) (demoDynamic 0x8000).reltab = 264
    ∧ (elf_link 100 (demoMem 0x20 0x40) (demoHandle 0x20 0x40) 0x8000).map
          (fun s => (s.handle.flags &&& _ELF_ERROR,
            st_value s.mem (elf_link_symbol_at (demoDynamic 0x8000) 1),
            read32 s.mem (0x8000 + 264))) = some (0, 0, 0x40) := by
  refine ⟨by decide!, by decide!, by decide!, by decide!, by decide!, by decide!, by decide!⟩

/-! ### Claim C11 -/

/-- Claim C11, amended: dependency rejection.  When the dynamic program header is
found and entry `k` of its table has tag needed (1), every entry before it having a
recorded or an ignored tag (so that none is the terminator and none has failed),
`elf_link` latches "Dependency": it returns with the memory as the segment copy left
it (no resolution, no relocation), the symbol map as it was, and no init-array entry
called. -/
theorem dependency_rejection (fuel : Nat) (m : Mem) (handle : Elf_handle) (buf k : Nat)
    (hdyn : elf_link_dynamicSection m handle buf ≠ 0)
    (hpass : ∀ e ∈ dyn_entries (elf_link_loaded m handle buf) k
      (elf_link_dynamics m handle buf), dt_recorded e.1 ∨ dt_ignored e.1)
    (hneeded : d_tag (elf_link_loaded m handle buf)
      (dyn_ptr (elf_link_dynamics m handle buf) k) = DT_NEEDED)
    (hfuel : k < fuel) :
    ∃ final, elf_link fuel m handle buf = some final
      ∧ final.mem = elf_link_loaded m handle buf
      ∧ final.events = []
      ∧ final.handle.globalSymbols = handle.globalSymbols
      ∧ (elf_dlerror final.handle).1 = some _elf_error_dependency := by
  obtain ⟨handle1, d1, hgo⟩ := elf_link_scan_entries_pass handle.header buf _ handle
    Elf_dynamic.zero hpass
  have hall : ∀ e ∈ dyn_entries (elf_link_loaded m handle buf) k
      (elf_link_dynamics m handle buf), e.1 ≠ DT_NULL := fun e he =>
    (elf_link_scan_switch_pass handle.header buf e.1 e.2 handle Elf_dynamic.zero
      (hpass e he)).1
  obtain ⟨f, rfl⟩ : ∃ f, fuel = (f + 1) + k := ⟨fuel - k - 1, by omega⟩
  have hscan : elf_link_scan (elf_link_loaded m handle buf) handle.header buf (f + 1 + k)
      (elf_link_dynamics m handle buf) handle Elf_dynamic.zero
      = some (Flow.ret (elf_set_error handle1 _elf_error_dependency, d1)) := by
    rw [elf_link_scan_head _ _ _ k (f + 1) _ _ _ hall, hgo]
    show elf_link_scan _ _ _ (f + 1) _ handle1 d1 = _
    rw [elf_link_scan_succ _ _ _ _ _ _ _ (by rw [hneeded]; decide), hneeded,
      elf_link_scan_switch_needed]
  refine ⟨_, elf_link_of_scan_ret _ m handle _ buf d1 hdyn hscan, rfl, rfl, ?_,
    elf_dlerror_set_error _ _⟩
  exact (elf_link_scan_entries_go _ _ _ _ _ _ _ hgo).2.2.2.1

/-- Claim C11 on the full image with a needed entry put third in its table, image at
0x1000 and buffer at 0x8000: "Dependency", no symbol resolved, nothing called. -/
theorem dependency_rejection_witness :
    (∃ final, elf_link 100 (goodMem (fullDyn.take 2 ++ [(DT_NEEDED, 1)] ++ fullDyn.drop 2))
        goodHandle 0x8000 = some final
      ∧ final.events = []
      ∧ final.handle.globalSymbols = Elf_symbolNode.null
      ∧ (elf_dlerror final.handle).1 = some _elf_error_dependency)
    ∧ (elf_link 100 (goodMem (fullDyn.take 2 ++ [(DT_NEEDED, 1)] ++ fullDyn.drop 2))
        goodHandle 0x8000).map (fun s => st_value s.mem (0x8000 + 296 + 32))
        = some 0x40 :=
  ⟨match dependency_rejection 100
      (goodMem (fullDyn.take 2 ++ [(DT_NEEDED, 1)] ++ fullDyn.drop 2)) goodHandle 0x8000 2
      (by decide!) (by decide!) (by decide!) (by decide!) with
    | ⟨final, h1, _, h3, h4, h5⟩ => ⟨final, h1, h3, h4, h5⟩,
    by decide!⟩

/-- Claim C11 fails as stated: on the full image with an entry of tag 14 (the
shared-object name, a tag the scan has no `case` for) put first and a needed entry
second, both before the terminator, `elf_link` latches "D_tag", not "Dependency". -/
theorem dependency_after_unknown_tag :
    d_tag (elf_link_loaded (goodMem ((14, 1) :: (DT_NEEDED, 1) :: fullDyn)) goodHandle 0x8000)
        (dyn_ptr (elf_link_dynamics (goodMem ((14, 1) :: (DT_NEEDED, 1) :: fullDyn))
          goodHandle 0x8000) 1) = DT_NEEDED
    ∧ (elf_link 100 (goodMem ((14, 1) :: (DT_NEEDED, 1) :: fullDyn)) goodHandle 0x8000).map
        (fun s => (elf_dlerror s.handle).1) = some (some _elf_error_d_tag) := by
  refine ⟨by decide!, by decide!⟩

/-! ### Claim C12 -/

/-- Claim C12: the pinned set of dynamic tags.  An entry before the terminator whose
tag is neither recorded nor ignored (nor needed), every entry before it having a
recorded or an ignored tag, makes `elf_link` latch "D_tag" and return with the memory
as the segment copy left it and nothing called.  Entries with ignored tags do not count:
two tables whose entries before the terminator agree once the ignored ones are dropped
are scanned to the same result, so `elf_link` goes on from either of them in the same
way. -/
theorem pinned_dynamic_tags :
    (∀ (fuel : Nat) (m : Mem) (handle : Elf_handle) (buf k : Nat),
      elf_link_dynamicSection m handle buf ≠ 0 →
      (∀ e ∈ dyn_entries (elf_link_loaded m handle buf) k (elf_link_dynamics m handle buf),
        dt_recorded e.1 ∨ dt_ignored e.1) →
      d_tag (elf_link_loaded m handle buf) (dyn_ptr (elf_link_dynamics m handle buf) k)
        ≠ DT_NULL →
      d_tag (elf_link_loaded m handle buf) (dyn_ptr (elf_link_dynamics m handle buf) k)
        ≠ DT_NEEDED →
      ¬ dt_recorded (d_tag (elf_link_loaded m handle buf)
        (dyn_ptr (elf_link_dynamics m handle buf) k)) →
      ¬ dt_ignored (d_tag (elf_link_loaded m handle buf)
        (dyn_ptr (elf_link_dynamics m handle buf) k)) →
      k < fuel →
      ∃ final, elf_link fuel m handle buf = some final
        ∧ final.mem = elf_link_loaded m handle buf
        ∧ final.events = []
        ∧ final.handle.globalSymbols = handle.globalSymbols
        ∧ (elf_dlerror final.handle).1 = some _elf_error_d_tag)
    ∧ (∀ (m1 m2 : Mem) (header buf p1 p2 k1 k2 fuel : Nat) (handle : Elf_handle)
        (d : Elf_dynamic),
      (∀ e ∈ dyn_entries m1 k1 p1, e.1 ≠ DT_NULL) → d_tag m1 (dyn_ptr p1 k1) = DT_NULL →
      (∀ e ∈ dyn_entries m2 k2 p2, e.1 ≠ DT_NULL) → d_tag m2 (dyn_ptr p2 k2) = DT_NULL →
      (dyn_entries m1 k1 p1).filter (fun e => decide (¬ dt_ignored e.1))
        = (dyn_entries m2 k2 p2).filter (fun e => decide (¬ dt_ignored e.1)) →
      k1 < fuel → k2 < fuel →
      elf_link_scan m1 header buf fuel p1 handle d
        = elf_link_scan m2 header buf fuel p2 handle d)
    ∧ (∀ (m : Mem) (buf s1 s2 k1 k2 fuel : Nat) (handle : Elf_handle),
      (∀ e ∈ dyn_entries m k1 (ELF32_PH_CONTENT m handle.header s1), e.1 ≠ DT_NULL) →
      d_tag m (dyn_ptr (ELF32_PH_CONTENT m handle.header s1) k1) = DT_NULL →
      (∀ e ∈ dyn_entries m k2 (ELF32_PH_CONTENT m handle.header s2), e.1 ≠ DT_NULL) →
      d_tag m (dyn_ptr (ELF32_PH_CONTENT m handle.header s2) k2) = DT_NULL →
      (dyn_entries m k1 (ELF32_PH_CONTENT m handle.header s1)).filter
          (fun e => decide (¬ dt_ignored e.1))
        = (dyn_entries m k2 (ELF32_PH_CONTENT m handle.header s2)).filter
          (fun e => decide (¬ dt_ignored e.1)) →
      k1 < fuel → k2 < fuel →
      elf_link_dynamic fuel buf s1 m handle = elf_link_dynamic fuel buf s2 m handle) := by
  have hscan : ∀ (m1 m2 : Mem) (header buf p1 p2 k1 k2 fuel : Nat) (handle : Elf_handle)
      (d : Elf_dynamic),
      (∀ e ∈ dyn_entries m1 k1 p1, e.1 ≠ DT_NULL) → d_tag m1 (dyn_ptr p1 k1) = DT_NULL →
      (∀ e ∈ dyn_entries m2 k2 p2, e.1 ≠ DT_NULL) → d_tag m2 (dyn_ptr p2 k2) = DT_NULL →
      (dyn_entries m1 k1 p1).filter (fun e => decide (¬ dt_ignored e.1))
        = (dyn_entries m2 k2 p2).filter (fun e => decide (¬ dt_ignored e.1)) →
      k1 < fuel → k2 < fuel →
      elf_link_scan m1 header buf fuel p1 handle d
        = elf_link_scan m2 header buf fuel p2 handle d := by
    intro m1 m2 header buf p1 p2 k1 k2 fuel handle d ha1 he1 ha2 he2 hfilter hf1 hf2
    rw [elf_link_scan_table m1 header buf k1 fuel p1 handle d ha1 he1 hf1,
      elf_link_scan_table m2 header buf k2 fuel p2 handle d ha2 he2 hf2,
      ← elf_link_scan_entries_filter header buf (dyn_entries m1 k1 p1),
      ← elf_link_scan_entries_filter header buf (dyn_entries m2 k2 p2), hfilter]
  refine ⟨?_, hscan, ?_⟩
  · intro fuel m handle buf k hdyn hpass h0 h1 h2 h3 hfuel
    obtain ⟨handle1, d1, hgo⟩ := elf_link_scan_entries_pass handle.header buf _ handle
      Elf_dynamic.zero hpass
    have hall : ∀ e ∈ dyn_entries (elf_link_loaded m handle buf) k
        (elf_link_dynamics m handle buf), e.1 ≠ DT_NULL := fun e he =>
      (elf_link_scan_switch_pass handle.header buf e.1 e.2 handle Elf_dynamic.zero
        (hpass e he)).1
    obtain ⟨f, rfl⟩ : ∃ f, fuel = (f + 1) + k := ⟨fuel - k - 1, by omega⟩
    have hs : elf_link_scan (elf_link_loaded m handle buf) handle.header buf (f + 1 + k)
        (elf_link_dynamics m handle buf) handle Elf_dynamic.zero
        = some (Flow.ret (elf_set_error handle1 _elf_error_d_tag, d1)) := by
      rw [elf_link_scan_head _ _ _ k (f + 1) _ _ _ hall, hgo]
      show elf_link_scan _ _ _ (f + 1) _ handle1 d1 = _
      rw [elf_link_scan_succ _ _ _ _ _ _ _ h0,
        elf_link_scan_switch_default _ _ _ _ _ _ h1 h2 h3]
    refine ⟨_, elf_link_of_scan_ret _ m handle _ buf d1 hdyn hs, rfl, rfl, ?_,
      elf_dlerror_set_error _ _⟩
    exact (elf_link_scan_entries_go _ _ _ _ _ _ _ hgo).2.2.2.1
  · intro m buf s1 s2 k1 k2 fuel handle ha1 he1 ha2 he2 hfilter hf1 hf2
    unfold elf_link_dynamic
    dsimp only
    rw [hscan m m handle.header buf _ _ k1 k2 fuel handle Elf_dynamic.zero ha1 he1 ha2 he2
      hfilter hf1 hf2]

/-- The full image with an entry of tag 14 put fourth in its table, image at 0x1000
and buffer at 0x8000: the dynamic program header is found and the three entries before
the new one are recorded ones. -/
theorem unknown_tag_image_head :
    elf_link_dynamicSection (goodMem (fullDyn.take 3 ++ [(14, 1)] ++ fullDyn.drop 3))
        goodHandle 0x8000 ≠ 0
    ∧ ∀ e ∈ dyn_entries
        (elf_link_loaded (goodMem (fullDyn.take 3 ++ [(14, 1)] ++ fullDyn.drop 3))
          goodHandle 0x8000) 3
        (elf_link_dynamics (goodMem (fullDyn.take 3 ++ [(14, 1)] ++ fullDyn.drop 3))
          goodHandle 0x8000), dt_recorded e.1 ∨ dt_ignored e.1 := by
  refine ⟨by decide!, by decide!⟩

/-- The full image with an entry of tag 14 put fourth in its table: the tag read at
the fourth place is 14. -/
theorem unknown_tag_image_entry :
    d_tag (elf_link_loaded (goodMem (fullDyn.take 3 ++ [(14, 1)] ++ fullDyn.drop 3))
        goodHandle 0x8000)
      (dyn_ptr (elf_link_dynamics (goodMem (fullDyn.take 3 ++ [(14, 1)] ++ fullDyn.drop 3))
        goodHandle 0x8000) 3) = 14 := by
  decide!

/-- The tables of the full image at 0x1000 with and without ignored entries: both end
at their terminator and agree once the ignored entries are dropped. -/
theorem padded_table_agrees :
    (∀ e ∈ dyn_entries (goodMem fullDyn) 14 (0x1000 + 116), e.1 ≠ DT_NULL)
    ∧ d_tag (goodMem fullDyn) (dyn_ptr (0x1000 + 116) 14) = DT_NULL
    ∧ (∀ e ∈ dyn_entries (goodMem paddedDyn) 17 (0x1000 + 116), e.1 ≠ DT_NULL)
    ∧ d_tag (goodMem paddedDyn) (dyn_ptr (0x1000 + 116) 17) = DT_NULL
    ∧ (dyn_entries (goodMem fullDyn) 14 (0x1000 + 116)).filter
        (fun e => decide (¬ dt_ignored e.1))
      = (dyn_entries (goodMem paddedDyn) 17 (0x1000 + 116)).filter
        (fun e => decide (¬ dt_ignored e.1)) := by
  refine ⟨by decide!, by decide!, by decide!, by decide!, by decide!⟩

/-- The two tables in `twoTableMem`: both end at their terminator and agree once the
ignored entries are dropped. -/
theorem two_tables_agree :
    (∀ e ∈ dyn_entries twoTableMem 14
      (ELF32_PH_CONTENT twoTableMem goodHandle.header (0x1000 + 84)), e.1 ≠ DT_NULL)
    ∧ d_tag twoTableMem
        (dyn_ptr (ELF32_PH_CONTENT twoTableMem goodHandle.header (0x1000 + 84)) 14) = DT_NULL
    ∧ (∀ e ∈ dyn_entries twoTableMem 17
      (ELF32_PH_CONTENT twoTableMem goodHandle.header (0x1000 + 392)), e.1 ≠ DT_NULL)
    ∧ d_tag twoTableMem
        (dyn_ptr (ELF32_PH_CONTENT twoTableMem goodHandle.header (0x1000 + 392)) 17) = DT_NULL
    ∧ (dyn_entries twoTableMem 14
          (ELF32_PH_CONTENT twoTableMem goodHandle.header (0x1000 + 84))).filter
          (fun e => decide (¬ dt_ignored e.1))
        = (dyn_entries twoTableMem 17
          (ELF32_PH_CONTENT twoTableMem goodHandle.header (0x1000 + 392))).filter
          (fun e => decide (¬ dt_ignored e.1)) := by
  refine ⟨by decide!, by decide!, by decide!, by decide!, by decide!⟩

/-- The function `elf_link` from the scan on, on the second table of `twoTableMem`:
both constructors are called after the relocations and no error is latched. -/
theorem two_tables_outcome :
    (elf_link_dynamic 100 0x8000 (0x1000 + 392) twoTableMem goodHandle).map
        (fun s => (s.events, (elf_dlerror s.handle).1))
      = some ([Elf_event.call 0x8010, Elf_event.call 0x8020], none) := by
  decide!

/-- Claim C12 on the full image, image at 0x1000 and buffer at 0x8000: an entry of
tag 14 put fourth in the table gives "D_tag"; the table with three ignored entries put
in is scanned to the same result as the table without them, and `elf_link` goes on
from either of the two to the same calls and the same error state. -/
theorem pinned_dynamic_tags_witness :
    (∃ final, elf_link 100 (goodMem (fullDyn.take 3 ++ [(14, 1)] ++ fullDyn.drop 3))
        goodHandle 0x8000 = some final
      ∧ final.events = []
      ∧ (elf_dlerror final.handle).1 = some _elf_error_d_tag)
    ∧ elf_link_scan (goodMem fullDyn) 0x1000 0x8000 100 (0x1000 + 116) goodHandle
        Elf_dynamic.zero
      = elf_link_scan (goodMem paddedDyn) 0x1000 0x8000 100 (0x1000 + 116) goodHandle
        Elf_dynamic.zero
    ∧ elf_link_dynamic 100 0x8000 (0x1000 + 84) twoTableMem goodHandle
      = elf_link_dynamic 100 0x8000 (0x1000 + 392) twoTableMem goodHandle
    ∧ (elf_link_dynamic 100 0x8000 (0x1000 + 392) twoTableMem goodHandle).map
        (fun s => (s.events, (elf_dlerror s.handle).1))
      = some ([Elf_event.call 0x8010, Elf_event.call 0x8020], none) :=
  ⟨match pinned_dynamic_tags.1 100 (goodMem (fullDyn.take 3 ++ [(14, 1)] ++ fullDyn.drop 3))
      goodHandle 0x8000 3 unknown_tag_image_head.1 unknown_tag_image_head.2
      (by rw [unknown_tag_image_entry]; decide) (by rw [unknown_tag_image_entry]; decide)
      (by rw [unknown_tag_image_entry]; decide) (by rw [unknown_tag_image_entry]; decide)
      (by decide) with
    | ⟨final, h1, _, h3, _, h5⟩ => ⟨final, h1, h3, h5⟩,
    pinned_dynamic_tags.2.1 (goodMem fullDyn) (goodMem paddedDyn) 0x1000 0x8000 (0x1000 + 116)
      (0x1000 + 116) 14 17 100 goodHandle Elf_dynamic.zero padded_table_agrees.1
      padded_table_agrees.2.1 padded_table_agrees.2.2.1 padded_table_agrees.2.2.2.1
      padded_table_agrees.2.2.2.2 (by decide) (by decide),
    pinned_dynamic_tags.2.2 twoTableMem 0x8000 (0x1000 + 84) (0x1000 + 392) 14 17 100
      goodHandle two_tables_agree.1 two_tables_agree.2.1 two_tables_agree.2.2.1
      two_tables_agree.2.2.2.1 two_tables_agree.2.2.2.2 (by decide) (by decide),
    two_tables_outcome⟩

/-! ### Claim C13 -/

/-- Claim C13: missing entries.  When the scan of the dynamic table reaches the
terminator with the locals `d`: if one of `hash`, `strtab`, `symtab`, `syment`, `strsz`
is zero, `elf_link` latches "Missing entries" and returns with the memory as the
segment copy left it, the symbol map as it was and nothing called; if all five are
non-zero, `elf_link` goes on with the symbol resolution and any error it latches is one
of the four messages of the later steps, none of which is "Missing entries".  A local
whose tag stands nowhere in the table is zero after the scan. -/
theorem missing_entries (fuel : Nat) (m : Mem) (handle handle1 : Elf_handle) (buf : Nat)
    (d : Elf_dynamic) (hdyn : elf_link_dynamicSection m handle buf ≠ 0)
    (hscan : elf_link_scan (elf_link_loaded m handle buf) handle.header buf fuel
      (elf_link_dynamics m handle buf) handle Elf_dynamic.zero = some (Flow.go (handle1, d))) :
    ((d.hash = 0 ∨ d.strtab = 0 ∨ d.symtab = 0 ∨ d.syment = 0 ∨ d.strsz = 0) →
      elf_link fuel m handle buf
        = some { mem := elf_link_loaded m handle buf,
                 handle := elf_set_error handle1 _elf_error_missing_entries, events := [] }
      ∧ (elf_dlerror (elf_set_error handle1 _elf_error_missing_entries)).1
        = some _elf_error_missing_entries
      ∧ handle1.globalSymbols = handle.globalSymbols)
    ∧ (¬ (d.hash = 0 ∨ d.strtab = 0 ∨ d.symtab = 0 ∨ d.syment = 0 ∨ d.strsz = 0) →
      elf_link fuel m handle buf
        = elf_link_symbols fuel buf d WORD 1 (elf_link_loaded m handle buf) handle1
      ∧ ∀ final, elf_link fuel m handle buf = some final →
        error_state_from handle final.handle elf_link_symbols_errors)
    ∧ _elf_error_missing_entries ∉ elf_link_symbols_errors
    ∧ (∀ k, k < fuel →
      (∀ e ∈ dyn_entries (elf_link_loaded m handle buf) k (elf_link_dynamics m handle buf),
        e.1 ≠ DT_NULL) →
      d_tag (elf_link_loaded m handle buf) (dyn_ptr (elf_link_dynamics m handle buf) k)
        = DT_NULL →
      ((∀ e ∈ dyn_entries (elf_link_loaded m handle buf) k (elf_link_dynamics m handle buf),
          e.1 ≠ DT_HASH) → d.hash = 0)
      ∧ ((∀ e ∈ dyn_entries (elf_link_loaded m handle buf) k (elf_link_dynamics m handle buf),
          e.1 ≠ DT_STRTAB) → d.strtab = 0)
      ∧ ((∀ e ∈ dyn_entries (elf_link_loaded m handle buf) k (elf_link_dynamics m handle buf),
          e.1 ≠ DT_SYMTAB) → d.symtab = 0)
      ∧ ((∀ e ∈ dyn_entries (elf_link_loaded m handle buf) k (elf_link_dynamics m handle buf),
          e.1 ≠ DT_SYMENT) → d.syment = 0)
      ∧ ((∀ e ∈ dyn_entries (elf_link_loaded m handle buf) k (elf_link_dynamics m handle buf),
          e.1 ≠ DT_STRSZ) → d.strsz = 0)) := by
  obtain ⟨k0, _, hr0, _, _⟩ := elf_link_scan_trace _ _ _ _ _ _ _ _ hscan
  obtain ⟨hfl, her, _, hmap, _⟩ := elf_link_scan_entries_go _ _ _ _ _ _ _ hr0.symm
  have hlink := elf_link_of_scan_go fuel m handle handle1 buf d hdyn hscan
  refine ⟨?_, ?_, by decide, ?_⟩
  · intro hz
    rw [hlink, if_pos hz]
    exact ⟨rfl, elf_dlerror_set_error _ _, hmap⟩
  · intro hnz
    rw [hlink, if_neg hnz]
    refine ⟨rfl, fun final hfinal => ?_⟩
    exact error_state_from_of_eq handle handle1 final.handle _ hfl her
      (elf_link_symbols_state fuel buf d WORD 1 _ handle1 final hfinal)
  · intro k hk hall hend
    have htable := elf_link_scan_table (elf_link_loaded m handle buf) handle.header buf k fuel
      (elf_link_dynamics m handle buf) handle Elf_dynamic.zero hall hend hk
    rw [hscan] at htable
    simp only [Option.some.injEq] at htable
    obtain ⟨_, _, _, _, b1, b2, b3, b4, b5⟩ :=
      elf_link_scan_entries_go _ _ _ _ _ _ _ htable.symm
    exact ⟨b1, b2, b3, b4, b5⟩

/-- The scan of the full image without its hash entry, image at 0x1000 and buffer at
0x8000: the dynamic program header is found and the scan reaches the terminator with
`hash` zero. -/
theorem no_hash_image_scan :
    elf_link_dynamicSection (goodMem (fullDyn.drop 1)) goodHandle 0x8000 ≠ 0
    ∧ elf_link_scan (elf_link_loaded (goodMem (fullDyn.drop 1)) goodHandle 0x8000)
        goodHandle.header 0x8000 100
        (elf_link_dynamics (goodMem (fullDyn.drop 1)) goodHandle 0x8000) goodHandle
        Elf_dynamic.zero
      = some (Flow.go (scannedHandle, { fullDynamic with hash := 0 })) := by
  refine ⟨by decide!, by decide!⟩

/-- The table of the full image without its hash entry: thirteen entries, none with
the tag of the hash table, then the terminator. -/
theorem no_hash_image_table :
    (∀ e ∈ dyn_entries (elf_link_loaded (goodMem (fullDyn.drop 1)) goodHandle 0x8000) 13
        (elf_link_dynamics (goodMem (fullDyn.drop 1)) goodHandle 0x8000), e.1 ≠ DT_NULL)
    ∧ d_tag (elf_link_loaded (goodMem (fullDyn.drop 1)) goodHandle 0x8000)
        (dyn_ptr (elf_link_dynamics (goodMem (fullDyn.drop 1)) goodHandle 0x8000) 13)
      = DT_NULL
    ∧ (∀ e ∈ dyn_entries (elf_link_loaded (goodMem (fullDyn.drop 1)) goodHandle 0x8000) 13
        (elf_link_dynamics (goodMem (fullDyn.drop 1)) goodHandle 0x8000), e.1 ≠ DT_HASH) := by
  refine ⟨by decide!, by decide!, by decide!⟩

/-- Claim C13 on the full image, image at 0x1000 and buffer at 0x8000: without the
hash entry `elf_link` latches "Missing entries" and calls nothing; with all five
entries it goes on and latches nothing. -/
theorem missing_entries_witness :
    (elf_link 100 (goodMem (fullDyn.drop 1)) goodHandle 0x8000
        = some { mem := elf_link_loaded (goodMem (fullDyn.drop 1)) goodHandle 0x8000,
                 handle := elf_set_error scannedHandle _elf_error_missing_entries,
                 events := [] }
      ∧ (elf_dlerror (elf_set_error scannedHandle _elf_error_missing_entries)).1
        = some _elf_error_missing_entries
      ∧ scannedHandle.globalSymbols = goodHandle.globalSymbols)
    ∧ ({ fullDynamic with hash := 0 } : Elf_dynamic).hash = 0
    ∧ elf_link 100 (goodMem fullDyn) goodHandle 0x8000
      = elf_link_symbols 100 0x8000 fullDynamic WORD 1
          (elf_link_loaded (goodMem fullDyn) goodHandle 0x8000) scannedHandle
    ∧ (elf_link 100 (goodMem fullDyn) goodHandle 0x8000).map
        (fun s => ((elf_dlerror s.handle).1, s.events, read32 s.mem (0x8000 + 384)))
      = some (none, [Elf_event.call 0x8010, Elf_event.call 0x8020], 0x8040) :=
  ⟨(missing_entries 100 (goodMem (fullDyn.drop 1)) goodHandle scannedHandle 0x8000
      { fullDynamic with hash := 0 } no_hash_image_scan.1 no_hash_image_scan.2).1
      (Or.inl rfl),
    ((missing_entries 100 (goodMem (fullDyn.drop 1)) goodHandle scannedHandle 0x8000
      { fullDynamic with hash := 0 } no_hash_image_scan.1 no_hash_image_scan.2).2.2.2 13
      (by decide) no_hash_image_table.1 no_hash_image_table.2.1).1 no_hash_image_table.2.2,
    ((missing_entries 100 (goodMem fullDyn) goodHandle scannedHandle 0x8000 fullDynamic
      full_image_scan.1 full_image_scan.2).2.1 (by decide)).1,
    full_image_link⟩

/-! ### Claim C14 -/

/-- Claim C14: an unsupported relocation type.  When the loop of `_elf_relocate` has
applied the entries 0 to `k - 1` (each of type 2, 22 or 23 when its turn came) and the
entry at position `k`, still inside the table, has another type, `_elf_relocate`
returns with the memory those `k` entries left and "Unimplemented relocation" latched:
every byte outside the words at the `ref` of the entries 0 to `k - 1` is as before.
`elf_link` then returns at once, whether the table is the rel table (the jmprel table
is not processed) or the jmprel table, and calls no init-array entry. -/
theorem unsupported_relocation (fuel : Nat) (m : Mem) (handle : Elf_handle)
    (buf reltab entsize limit symtab syment k rk : Nat) (mk : Mem) (hk : Elf_handle)
    (hafter : _elf_relocate_after buf entsize ((reltab + limit) % WORD) symtab syment k
      reltab m handle = some (rk, mk, hk))
    (hlt : rk < (reltab + limit) % WORD)
    (h1 : ELF32_R_TYPE (r_info mk rk) ≠ R_ARM_ABS32)
    (h2 : ELF32_R_TYPE (r_info mk rk) ≠ R_ARM_JUMP_SLOT)
    (h3 : ELF32_R_TYPE (r_info mk rk) ≠ R_ARM_RELATIVE)
    (hfuel : k < fuel) :
    _elf_relocate fuel m handle buf reltab entsize limit symtab syment
      = some (mk, elf_set_error handle _elf_error_unimplemented_relocation)
    ∧ (elf_dlerror (elf_set_error handle _elf_error_unimplemented_relocation)).1
      = some _elf_error_unimplemented_relocation
    ∧ (∀ x, (∀ r ∈ _elf_relocate_refs buf entsize symtab syment k reltab m handle,
        x < r ∨ r + 4 ≤ x) → mk x = m x)
    ∧ (∀ d : Elf_dynamic, d.reltab = reltab → d.relent = entsize → d.relsz = limit →
        d.symtab = symtab → d.syment = syment → reltab ≠ 0 → limit ≠ 0 → entsize ≠ 0 →
        elf_link_rel fuel buf d m handle
          = some { mem := mk,
                   handle := elf_set_error handle _elf_error_unimplemented_relocation,
                   events := [] })
    ∧ (∀ d : Elf_dynamic, d.jmpReltab = reltab → entsize = sizeof_Elf32_Rel →
        d.pltrelsz = limit → d.symtab = symtab → d.syment = syment → reltab ≠ 0 →
        elf_link_jmprel fuel buf d m handle
          = some { mem := mk,
                   handle := elf_set_error handle _elf_error_unimplemented_relocation,
                   events := [] }) := by
  have hrel : _elf_relocate fuel m handle buf reltab entsize limit symtab syment
      = some (mk, elf_set_error handle _elf_error_unimplemented_relocation) :=
    _elf_relocate_loop_stops buf entsize ((reltab + limit) % WORD) symtab syment k fuel
      reltab m handle rk mk hk hafter hlt h1 h2 h3 hfuel
  refine ⟨hrel, elf_dlerror_set_error _ _, ?_, ?_, ?_⟩
  · intro x hx
    exact _elf_relocate_after_frame buf entsize ((reltab + limit) % WORD) symtab syment k
      reltab m handle rk mk hk x hafter hx
  · intro d e1 e2 e3 e4 e5 n1 n2 n3
    subst e1 e2 e3 e4 e5
    unfold elf_link_rel
    rw [if_pos n1, if_neg (by rw [not_or]; exact ⟨n2, n3⟩), hrel]
    exact if_pos (elf_set_error_latched handle _)
  · intro d e1 e2 e3 e4 e5 n1
    subst e1 e2 e3 e4 e5
    unfold elf_link_jmprel
    rw [if_pos n1, hrel]
    exact if_pos (elf_set_error_latched handle _)

/-- The rel table of the full image with type 20 in its second entry, read in the
memory the first loop of `elf_link` leaves (image at 0x1000, buffer at 0x8000): one
entry can be applied and leaves 0x8010 at offset 360, the next stands inside the table
and has type 20. -/
theorem type20_image_table :
    ∃ (rk : Nat) (mk : Mem) (hk : Elf_handle),
      _elf_relocate_after 0x8000 8 ((0x1000 + 344 + 16) % WORD) (0x8000 + 296) 16 1
        (0x1000 + 344) (elf_link_loaded (fullMem 0x7F 40 PT_DYNAMIC fullDyn 20) goodHandle
          0x8000) goodHandle = some (rk, mk, hk)
      ∧ rk < (0x1000 + 344 + 16) % WORD
      ∧ ELF32_R_TYPE (r_info mk rk) = 20
      ∧ read32 mk (0x8000 + 360) = 0x8010 := by
  have h : (_elf_relocate_after 0x8000 8 ((0x1000 + 344 + 16) % WORD) (0x8000 + 296) 16 1
      (0x1000 + 344) (elf_link_loaded (fullMem 0x7F 40 PT_DYNAMIC fullDyn 20) goodHandle
        0x8000) goodHandle).isSome = true := by decide!
  obtain ⟨⟨rk, mk, hk⟩, hs⟩ := Option.isSome_iff_exists.mp h
  have a1 : ((_elf_relocate_after 0x8000 8 ((0x1000 + 344 + 16) % WORD) (0x8000 + 296) 16 1
      (0x1000 + 344) (elf_link_loaded (fullMem 0x7F 40 PT_DYNAMIC fullDyn 20) goodHandle
        0x8000) goodHandle).map (fun s => (decide (s.1 < (0x1000 + 344 + 16) % WORD),
          ELF32_R_TYPE (r_info s.2.1 s.1), read32 s.2.1 (0x8000 + 360))))
      = some (true, 20, 0x8010) := by decide!
  rw [hs] at a1
  simp only [Option.map_some', Option.some.injEq, Prod.mk.injEq, decide_eq_true_eq] at a1
  exact ⟨rk, mk, hk, hs, a1.1, a1.2.1, a1.2.2⟩

/-- Claim C14 on the full image with type 20 in the second entry of its rel table,
image at 0x1000 and buffer at 0x8000: the first entry is applied (the word at offset
360 becomes 0x8010), "Unimplemented relocation" is latched, the word of the second
entry keeps 0x20, the slot of the jmprel table keeps 0 and nothing is called. -/
theorem unsupported_relocation_witness :
    (∃ mk : Mem, _elf_relocate 100
        (elf_link_loaded (fullMem 0x7F 40 PT_DYNAMIC fullDyn 20) goodHandle 0x8000)
        goodHandle 0x8000 (0x1000 + 344) 8 16 (0x8000 + 296) 16
        = some (mk, elf_set_error goodHandle _elf_error_unimplemented_relocation)
      ∧ read32 mk (0x8000 + 360) = 0x8010)
    ∧ (elf_link 100 (fullMem 0x7F 40 PT_DYNAMIC fullDyn 20) goodHandle 0x8000).map
        (fun s => ((elf_dlerror s.handle).1, s.events, read32 s.mem (0x8000 + 360),
          read32 s.mem (0x8000 + 364), read32 s.mem (0x8000 + 384)))
      = some (some _elf_error_unimplemented_relocation, [], 0x8010, 0x20, 0) :=
  match type20_image_table with
  | ⟨rk, mk, hk, a0, a1, a2, a3⟩ =>
    ⟨⟨mk, (unsupported_relocation 100
        (elf_link_loaded (fullMem 0x7F 40 PT_DYNAMIC fullDyn 20) goodHandle 0x8000)
        goodHandle 0x8000 (0x1000 + 344) 8 16 (0x8000 + 296) 16 1 rk mk hk
        a0 a1 (by rw [a2]; decide) (by rw [a2]; decide)
        (by rw [a2]; decide) (by decide)).1, a3⟩,
      type20_image_link⟩

/-! ### Claim C15 -/

/-- Claim C15, amended: a zero-sized rel table.  After the symbol resolution, with
`relsz` or `relent` zero: if the recorded address of the rel table, (image + `d_ptr`)
mod 2^32, is not 0, `elf_link` latches "Zero sized rel" and returns with the memory the
resolution left (no relocation from either table) and nothing called; if that address
is 0 the rel entry counts as absent and `elf_link` goes on with the jmprel table. -/
theorem zero_sized_rel (fuel buf : Nat) (d : Elf_dynamic) (m : Mem) (handle : Elf_handle)
    (hz : d.relsz = 0 ∨ d.relent = 0) :
    (d.reltab ≠ 0 →
      elf_link_rel fuel buf d m handle
        = some { mem := m, handle := elf_set_error handle _elf_error_zero_sized_rel,
                 events := [] }
      ∧ (elf_dlerror (elf_set_error handle _elf_error_zero_sized_rel)).1
        = some _elf_error_zero_sized_rel
      ∧ ∀ (n ii : Nat) (m0 : Mem) (handle0 : Elf_handle),
        elf_link_resolve fuel buf d n ii m0 handle0 = some (Flow.go (m, handle)) →
        elf_link_symbols fuel buf d n ii m0 handle0
          = some { mem := m, handle := elf_set_error handle _elf_error_zero_sized_rel,
                   events := [] })
    ∧ (d.reltab = 0 → elf_link_rel fuel buf d m handle = elf_link_jmprel fuel buf d m handle)
    ∧ (∀ (header val : Nat) (handle0 : Elf_handle) (d0 : Elf_dynamic),
      elf_link_scan_switch header buf DT_REL val handle0 d0
        = Flow.go (handle0, { d0 with reltab := (header + val) % WORD })) := by
  refine ⟨?_, ?_, ?_⟩
  · intro hrel
    have h : elf_link_rel fuel buf d m handle
        = some { mem := m, handle := elf_set_error handle _elf_error_zero_sized_rel,
                 events := [] } := by
      unfold elf_link_rel
      rw [if_pos hrel, if_pos hz]
    refine ⟨h, elf_dlerror_set_error _ _, ?_⟩
    intro n ii m0 handle0 hres
    unfold elf_link_symbols
    rw [hres]
    exact h
  · intro hrel
    unfold elf_link_rel
    rw [if_neg (not_not.mpr hrel)]
  · intro header val handle0 d0
    rfl

/-- The function `elf_link` on the full image without the size of its rel table, image
at 0x1000 and buffer at 0x8000: "Zero sized rel", the symbol `mul` resolved to 0x8040,
no word relocated, nothing called. -/
theorem no_relsz_image_link :
    (elf_link 100 (goodMem (fullDyn.filter (fun e => e.1 != DT_RELSZ))) goodHandle
        0x8000).map
        (fun s => ((elf_dlerror s.handle).1, s.events,
          st_value s.mem (0x8000 + 296 + 32), read32 s.mem (0x8000 + 360),
          read32 s.mem (0x8000 + 364), read32 s.mem (0x8000 + 384)))
      = some (some _elf_error_zero_sized_rel, [], 0x8040, 0x10, 0x20, 0) := by
  decide!

/-- Claim C15 with the rel table of the full image recorded and `relsz` zero, and on
the full image without the size of its rel table. -/
theorem zero_sized_rel_witness :
    ({ fullDynamic with relsz := 0 } : Elf_dynamic).relsz = 0
    ∧ ({ fullDynamic with relsz := 0 } : Elf_dynamic).reltab ≠ 0
    ∧ elf_link_rel 100 0x8000 { fullDynamic with relsz := 0 } (goodMem fullDyn) scannedHandle
      = some { mem := goodMem fullDyn,
               handle := elf_set_error scannedHandle _elf_error_zero_sized_rel,
               events := [] }
    ∧ (elf_link 100 (goodMem (fullDyn.filter (fun e => e.1 != DT_RELSZ))) goodHandle
        0x8000).map
        (fun s => ((elf_dlerror s.handle).1, s.events,
          st_value s.mem (0x8000 + 296 + 32), read32 s.mem (0x8000 + 360),
          read32 s.mem (0x8000 + 364), read32 s.mem (0x8000 + 384)))
      = some (some _elf_error_zero_sized_rel, [], 0x8040, 0x10, 0x20, 0) :=
  ⟨rfl, by decide,
    ((zero_sized_rel 100 0x8000 { fullDynamic with relsz := 0 } (goodMem fullDyn)
      scannedHandle (Or.inl rfl)).1 (by decide)).1,
    no_relsz_image_link⟩

/-- Claim C15 fails as stated: on the full image at 0x1000 whose table has a rel entry
with `d_ptr` 0xFFFFF000 and no entry for the size of the rel table, the recorded
address of the rel table is (0x1000 + 0xFFFFF000) mod 2^32 = 0, so `elf_link` takes the
rel table as absent: it latches no error, processes the jmprel table (the slot holds
0x8040) and calls both init-array entries. -/
theorem zero_sized_rel_null_table :
    (DT_REL, 0xFFFFF000) ∈ dyn_entries
        (elf_link_loaded (goodMem (fullDyn.filter (fun e => e.1 != DT_RELSZ && e.1 != DT_REL)
          ++ [(DT_REL, 0xFFFFF000)])) goodHandle 0x8000) 13
        (elf_link_dynamics (goodMem (fullDyn.filter (fun e => e.1 != DT_RELSZ && e.1 != DT_REL)
          ++ [(DT_REL, 0xFFFFF000)])) goodHandle 0x8000)
    ∧ (∀ e ∈ dyn_entries
        (elf_link_loaded (goodMem (fullDyn.filter (fun e => e.1 != DT_RELSZ && e.1 != DT_REL)
          ++ [(DT_REL, 0xFFFFF000)])) goodHandle 0x8000) 13
        (elf_link_dynamics (goodMem (fullDyn.filter (fun e => e.1 != DT_RELSZ && e.1 != DT_REL)
          ++ [(DT_REL, 0xFFFFF000)])) goodHandle 0x8000), e.1 ≠ DT_NULL ∧ e.1 ≠ DT_RELSZ)
    ∧ d_tag
        (elf_link_loaded (goodMem (fullDyn.filter (fun e => e.1 != DT_RELSZ && e.1 != DT_REL)
          ++ [(DT_REL, 0xFFFFF000)])) goodHandle 0x8000)
        (dyn_ptr (elf_link_dynamics (goodMem (fullDyn.filter
          (fun e => e.1 != DT_RELSZ && e.1 != DT_REL) ++ [(DT_REL, 0xFFFFF000)]))
          goodHandle 0x8000) 13) = DT_NULL
    ∧ (elf_link 100 (goodMem (fullDyn.filter (fun e => e.1 != DT_RELSZ && e.1 != DT_REL)
          ++ [(DT_REL, 0xFFFFF000)])) goodHandle 0x8000).map
        (fun s => ((elf_dlerror s.handle).1, s.events, read32 s.mem (0x8000 + 384)))
      = some (none, [Elf_event.call 0x10, Elf_event.call 0x20], 0x8040) := by
  refine ⟨by decide!, by decide!, by decide!, by decide!⟩

/-! ### Claim C16 -/

/-- Claim C16, amended: the dynamic section is required.  The program headers are the
ones read after the segment copy (the image's own, when the image and the buffer are
laid out apart as the loader contract asks).  If none of the `e_phnum` headers has
type dynamic (2), `elf_link` latches "Dynamic section" and leaves the symbol map and
the fini fields of the handle as they were.  If header `k` is the first of type
dynamic, it is the one `elf_link` selects: when its address is not 0, the scan runs
over its content; when its address is 0 it counts as not found and "Dynamic section"
is latched. -/
theorem dynamic_section_required :
    (∀ (fuel : Nat) (m : Mem) (handle : Elf_handle) (buf : Nat),
      (∀ i, i < e_phnum (elf_link_loaded m handle buf) handle.header →
        p_type (elf_link_loaded m handle buf)
          (ELF32_PH_GET (elf_link_loaded m handle buf) handle.header i) ≠ PT_DYNAMIC) →
      ∃ final, elf_link fuel m handle buf = some final
        ∧ final.mem = elf_link_loaded m handle buf
        ∧ final.events = []
        ∧ (elf_dlerror final.handle).1 = some _elf_error_dynamic_section
        ∧ final.handle.globalSymbols = handle.globalSymbols
        ∧ final.handle.finiArray = handle.finiArray
        ∧ final.handle.finiLength = handle.finiLength)
    ∧ (∀ (fuel : Nat) (m : Mem) (handle : Elf_handle) (buf k : Nat),
      k < e_phnum (elf_link_loaded m handle buf) handle.header →
      (∀ i, i < k → p_type (elf_link_loaded m handle buf)
        (ELF32_PH_GET (elf_link_loaded m handle buf) handle.header i) ≠ PT_DYNAMIC) →
      p_type (elf_link_loaded m handle buf)
        (ELF32_PH_GET (elf_link_loaded m handle buf) handle.header k) = PT_DYNAMIC →
      elf_link_dynamicSection m handle buf
        = ELF32_PH_GET (elf_link_loaded m handle buf) handle.header k
      ∧ (ELF32_PH_GET (elf_link_loaded m handle buf) handle.header k ≠ 0 →
        elf_link fuel m handle buf
          = elf_link_dynamic fuel buf
              (ELF32_PH_GET (elf_link_loaded m handle buf) handle.header k)
              (elf_link_loaded m handle buf) handle)
      ∧ (ELF32_PH_GET (elf_link_loaded m handle buf) handle.header k = 0 →
        elf_link fuel m handle buf
          = some { mem := elf_link_loaded m handle buf,
                   handle := elf_set_error handle _elf_error_dynamic_section,
                   events := [] }))
    ∧ (∀ (m : Mem) (handle : Elf_handle) (buf L N : Nat),
      (handle.header + L ≤ buf ∨ buf + N ≤ handle.header) →
      image_within m handle.header L → segments_within m handle.header buf N →
      segments_disjoint m handle.header buf →
      e_phnum (elf_link_loaded m handle buf) handle.header = e_phnum m handle.header
      ∧ ∀ i, i < e_phnum m handle.header →
        ELF32_PH_GET (elf_link_loaded m handle buf) handle.header i
          = ELF32_PH_GET m handle.header i
        ∧ p_type (elf_link_loaded m handle buf) (ELF32_PH_GET m handle.header i)
          = p_type m (ELF32_PH_GET m handle.header i)) := by
  refine ⟨?_, ?_, ?_⟩
  · intro fuel m handle buf hall
    have hnone : elf_link_dynamicSection m handle buf = 0 :=
      elf_link_find_dynamic_none _ _ 65536 0 (fun i _ hi => hall i hi)
    rw [elf_link_eq, if_pos hnone]
    exact ⟨_, rfl, rfl, rfl, elf_dlerror_set_error _ _, rfl, rfl, rfl⟩
  · intro fuel m handle buf k hk hall htype
    have hlt := read16_lt (elf_link_loaded m handle buf) (handle.header + 44)
    have hfind : elf_link_dynamicSection m handle buf
        = ELF32_PH_GET (elf_link_loaded m handle buf) handle.header k :=
      elf_link_find_dynamic_first _ _ 65536 0 k (Nat.zero_le _) hk
        (fun i _ hi => hall i hi) htype (by
          have : e_phnum (elf_link_loaded m handle buf) handle.header < 65536 := hlt
          omega)
    refine ⟨hfind, ?_, ?_⟩
    · intro hne
      rw [elf_link_eq, hfind, if_neg hne]
    · intro heq
      rw [elf_link_eq, hfind, if_pos heq]
  · intro m handle buf L N hsep himg hseg hdis
    have hinv := (elf_link_load_inv m handle.header buf L N hsep himg hseg hdis 65536 0 m
      (by
        have := read16_lt m (handle.header + 44)
        have h2 : e_phnum m handle.header < 65536 := this
        omega)
      (fun _ _ _ => rfl) (fun i hi => absurd hi (Nat.not_lt_zero i))).1
    obtain ⟨h1, h2, h3⟩ := image_fields_congr m (elf_link_loaded m handle buf) handle.header L
      himg.1 hinv
    refine ⟨h1, fun i hi => ⟨h2 i, ?_⟩⟩
    obtain ⟨ha, hb⟩ := himg.2.1 i hi
    exact (h3 _ ha hb).1

/-- The program headers of the full image with type 4 in place of dynamic, of the
well-formed full image, and of that image with type dynamic in its first program
header too, read after the segment copy (image at 0x1000, buffer at 0x8000). -/
theorem full_image_headers :
    (∀ i, i < e_phnum (elf_link_loaded (fullMem 0x7F 40 4 fullDyn 23) goodHandle 0x8000)
        goodHandle.header →
      p_type (elf_link_loaded (fullMem 0x7F 40 4 fullDyn 23) goodHandle 0x8000)
        (ELF32_PH_GET (elf_link_loaded (fullMem 0x7F 40 4 fullDyn 23) goodHandle 0x8000)
          goodHandle.header i) ≠ PT_DYNAMIC)
    ∧ (0 < e_phnum (elf_link_loaded twoDynamicMem goodHandle 0x8000) goodHandle.header
      ∧ (∀ i, i < 0 → p_type (elf_link_loaded twoDynamicMem goodHandle 0x8000)
        (ELF32_PH_GET (elf_link_loaded twoDynamicMem goodHandle 0x8000)
          goodHandle.header i) ≠ PT_DYNAMIC)
      ∧ p_type (elf_link_loaded twoDynamicMem goodHandle 0x8000)
        (ELF32_PH_GET (elf_link_loaded twoDynamicMem goodHandle 0x8000)
          goodHandle.header 0) = PT_DYNAMIC
      ∧ p_type (elf_link_loaded twoDynamicMem goodHandle 0x8000)
        (ELF32_PH_GET (elf_link_loaded twoDynamicMem goodHandle 0x8000)
          goodHandle.header 1) = PT_DYNAMIC
      ∧ ELF32_PH_GET (elf_link_loaded twoDynamicMem goodHandle 0x8000)
          goodHandle.header 0 = 0x1000 + 52) := by
  refine ⟨by decide!, by decide!, by decide!, by decide!, by decide!, by decide!⟩

/-- The function `elf_link` on the full image whose two program headers both have type
dynamic: the content of the first, the file from offset 0 on, is scanned, and its first
word, the magic, is no known tag. -/
theorem two_dynamic_link :
    (elf_link 100 twoDynamicMem goodHandle 0x8000).map (fun s => (elf_dlerror s.handle).1)
      = some (some _elf_error_d_tag) := by
  decide!

/-- Claim C16 on the full image, image at 0x1000 and buffer at 0x8000: with type 4 in
place of dynamic `elf_link` latches "Dynamic section"; with two program headers of
type dynamic the first is selected and its content scanned. -/
theorem dynamic_section_required_witness :
    (∃ final, elf_link 100 (fullMem 0x7F 40 4 fullDyn 23) goodHandle 0x8000 = some final
      ∧ final.events = []
      ∧ (elf_dlerror final.handle).1 = some _elf_error_dynamic_section
      ∧ final.handle.globalSymbols = goodHandle.globalSymbols
      ∧ final.handle.finiArray = goodHandle.finiArray
      ∧ final.handle.finiLength = goodHandle.finiLength)
    ∧ elf_link_dynamicSection twoDynamicMem goodHandle 0x8000
      = ELF32_PH_GET (elf_link_loaded twoDynamicMem goodHandle 0x8000) goodHandle.header 0
    ∧ elf_link 100 twoDynamicMem goodHandle 0x8000
      = elf_link_dynamic 100 0x8000
          (ELF32_PH_GET (elf_link_loaded twoDynamicMem goodHandle 0x8000) goodHandle.header 0)
          (elf_link_loaded twoDynamicMem goodHandle 0x8000) goodHandle
    ∧ (elf_link 100 twoDynamicMem goodHandle 0x8000).map (fun s => (elf_dlerror s.handle).1)
      = some (some _elf_error_d_tag) :=
  ⟨match dynamic_section_required.1 100 (fullMem 0x7F 40 4 fullDyn 23) goodHandle 0x8000
      full_image_headers.1 with
    | ⟨final, h1, _, h3, h4, h5, h6, h7⟩ => ⟨final, h1, h3, h4, h5, h6, h7⟩,
    (dynamic_section_required.2.1 100 twoDynamicMem goodHandle 0x8000 0
      full_image_headers.2.1 full_image_headers.2.2.1 full_image_headers.2.2.2.1).1,
    (dynamic_section_required.2.1 100 twoDynamicMem goodHandle 0x8000 0
      full_image_headers.2.1 full_image_headers.2.2.1 full_image_headers.2.2.2.1).2.1
      (by rw [full_image_headers.2.2.2.2.2]; decide),
    two_dynamic_link⟩

/-- Claim C16 fails as stated: in `nullHeaderMem` (image at 0x1000, `e_phoff`
0xFFFFF000) the two program headers are read at the addresses 0 and 32 and both have
type dynamic, yet `elf_link` scans neither: the address of the first is 0, which is
`NULL`, and "Dynamic section" is latched. -/
theorem dynamic_header_at_null :
    e_phnum (elf_link_loaded nullHeaderMem goodHandle 0x8000) goodHandle.header = 2
    ∧ ELF32_PH_GET (elf_link_loaded nullHeaderMem goodHandle 0x8000) goodHandle.header 0 = 0
    ∧ ELF32_PH_GET (elf_link_loaded nullHeaderMem goodHandle 0x8000) goodHandle.header 1 = 32
    ∧ p_type (elf_link_loaded nullHeaderMem goodHandle 0x8000) 0 = PT_DYNAMIC
    ∧ p_type (elf_link_loaded nullHeaderMem goodHandle 0x8000) 32 = PT_DYNAMIC
    ∧ (elf_link 100 nullHeaderMem goodHandle 0x8000).map (fun s => (elf_dlerror s.handle).1)
      = some (some _elf_error_dynamic_section) := by
  refine ⟨by decide!, by decide!, by decide!, by decide!, by decide!, by decide!⟩

/-! ### Claim C17 -/

/-- Claim C17, amended: the order of constructors and destructors.  On a link that
ends with the error bit clear (so it was clear on entry and no error was latched), the
scan and the resolution have run to their end, then the rel table and then the jmprel
table, where present, have been processed to their end, and then `elf_link` calls
exactly the init-array entries 0 to `initLength - 1`, each once, in increasing order,
read from the memory the relocations left; `initLength` is the value of the
init-array-size entry divided by 4.  `elf_dlclose` calls exactly the fini-array
entries 0 to `finiLength - 1`, each once, in increasing order, `finiLength` being the
value of the fini-array-size entry divided by 4, and releases the symbol map only
after the last of them. -/
theorem constructor_destructor_order :
    (∀ (fuel : Nat) (m : Mem) (handle : Elf_handle) (buf : Nat) (final : Elf_state),
      elf_link fuel m handle buf = some final →
      final.handle.flags &&& _ELF_ERROR = 0 →
      ∃ (handle1 : Elf_handle) (d : Elf_dynamic) (m1 m2 : Mem),
        elf_link_scan (elf_link_loaded m handle buf) handle.header buf fuel
          (elf_link_dynamics m handle buf) handle Elf_dynamic.zero
          = some (Flow.go (handle1, d))
        ∧ elf_link_resolve fuel buf d WORD 1 (elf_link_loaded m handle buf) handle1
          = some (Flow.go (m1, final.handle))
        ∧ (d.reltab ≠ 0 →
          _elf_relocate fuel m1 final.handle buf d.reltab d.relent d.relsz d.symtab d.syment
            = some (m2, final.handle))
        ∧ (d.reltab = 0 → m2 = m1)
        ∧ (d.jmpReltab ≠ 0 →
          _elf_relocate fuel m2 final.handle buf d.jmpReltab sizeof_Elf32_Rel d.pltrelsz
            d.symtab d.syment = some (final.mem, final.handle))
        ∧ (d.jmpReltab = 0 → final.mem = m2)
        ∧ final.events.length = d.initLength
        ∧ ∀ i, i < d.initLength →
          final.events[i]? = some (Elf_event.call
            (read32 final.mem ((d.initArray + sizeof_Elf32_Addr * i) % WORD))))
    ∧ (∀ (header buf val : Nat) (handle : Elf_handle) (d : Elf_dynamic),
      elf_link_scan_switch header buf DT_INIT_ARRAYSZ val handle d
        = Flow.go (handle, { d with initLength := val / 4 })
      ∧ elf_link_scan_switch header buf DT_FINI_ARRAYSZ val handle d
        = Flow.go ({ handle with finiLength := val / 4 }, d))
    ∧ (∀ (m : Mem) (handle : Elf_handle),
      (∀ i, i < handle.finiLength →
        (elf_dlclose m handle)[i]? = some (Elf_event.call
          (read32 m ((handle.finiArray + sizeof_Elf32_Addr * i) % WORD))))
      ∧ (elf_dlclose m handle).drop handle.finiLength
        = _elf_tree_free handle.globalSymbols ++ [Elf_event.free_handle]
      ∧ ∀ f, Elf_event.call f ∉ (elf_dlclose m handle).drop handle.finiLength) := by
  refine ⟨?_, fun _ _ _ _ _ => ⟨rfl, rfl⟩, ?_⟩
  · intro fuel m handle buf final h hclear
    rw [elf_link_eq] at h
    by_cases hdyn : elf_link_dynamicSection m handle buf = 0
    · rw [if_pos hdyn] at h
      cases h
      exact absurd hclear (elf_set_error_latched handle _)
    rw [if_neg hdyn] at h
    unfold elf_link_dynamic at h
    dsimp only at h
    rcases Option.eq_none_or_eq_some (elf_link_scan (elf_link_loaded m handle buf)
      handle.header buf fuel (ELF32_PH_CONTENT (elf_link_loaded m handle buf) handle.header
        (elf_link_dynamicSection m handle buf)) handle Elf_dynamic.zero) with hs | ⟨r, hs⟩
    · rw [hs] at h; cases h
    obtain ⟨k, _, hr, _, _⟩ := elf_link_scan_trace _ _ _ _ _ _ _ _ hs
    cases r with
    | ret s =>
      obtain ⟨handle1, d⟩ := s
      rw [hs] at h
      cases h
      obtain ⟨handle2, _, _, _, _, a5⟩ := elf_link_scan_entries_ret _ _ _ _ _ _ _ hr.symm
      rcases a5 with a5 | a5
      all_goals
        rw [a5] at hclear
        exact absurd hclear (elf_set_error_latched handle2 _)
    | go s =>
      obtain ⟨handle1, d⟩ := s
      rw [hs] at h
      dsimp only at h
      by_cases hmiss : d.hash = 0 ∨ d.strtab = 0 ∨ d.symtab = 0 ∨ d.syment = 0 ∨ d.strsz = 0
      · rw [if_pos hmiss] at h
        cases h
        exact absurd hclear (elf_set_error_latched handle1 _)
      rw [if_neg hmiss] at h
      unfold elf_link_symbols at h
      rcases Option.eq_none_or_eq_some (elf_link_resolve fuel buf d WORD 1
        (elf_link_loaded m handle buf) handle1) with hres | ⟨r2, hres⟩
      · rw [hres] at h; cases h
      cases r2 with
      | ret s2 =>
        obtain ⟨m1, handle2⟩ := s2
        rw [hres] at h
        cases h
        obtain ⟨_, _, hk, _, _, _, hcase⟩ := elf_link_resolve_trace _ _ _ _ _ _ _ _ hres
        rcases hcase with ⟨_, hr2⟩ | ⟨_, h1, hr2, _, hmsg⟩
        · cases hr2
        · cases hr2
          rcases hmsg with hmsg | hmsg
          all_goals
            rw [hmsg] at hclear
            exact absurd hclear (elf_set_error_latched hk _)
      | go s2 =>
        obtain ⟨m1, handle2⟩ := s2
        rw [hres] at h
        obtain ⟨a, m2, b1, b2, b3, b4, b5⟩ :=
          elf_link_rel_clear fuel buf d m1 handle2 final h hclear
        refine ⟨handle1, d, m1, m2, hs, ?_, ?_, b2, ?_, b4, ?_, ?_⟩
        · rw [a]; exact hres
        · rw [a]; exact b1
        · rw [a]; exact b3
        · rw [b5]; simp [elf_link_init]
        · intro i hi
          rw [b5]
          simp [elf_link_init, hi]
  · intro m handle
    have hlen : ((List.range handle.finiLength).map (fun ii => Elf_event.call
        (read32 m ((handle.finiArray + sizeof_Elf32_Addr * ii) % WORD)))).length
        = handle.finiLength := by simp
    have hdrop : (elf_dlclose m handle).drop handle.finiLength
        = _elf_tree_free handle.globalSymbols ++ [Elf_event.free_handle] := by
      unfold elf_dlclose
      rw [List.append_assoc]
      exact List.drop_left' hlen
    refine ⟨?_, hdrop, ?_⟩
    · intro i hi
      unfold elf_dlclose
      rw [List.append_assoc, List.getElem?_append_left (by rw [hlen]; exact hi)]
      simp [hi]
    · intro f
      rw [hdrop]
      simp only [List.mem_append, List.mem_singleton, not_or]
      exact ⟨_elf_tree_free_no_call _ f, fun h => by cases h⟩

/-- The function `elf_link` on the full image and then `elf_dlclose`, image at 0x1000
and buffer at 0x8000: the destructors 0x30 and 0x34 are called in this order, then the
node of `mul` and the handle are released. -/
theorem full_image_close :
    (elf_link 100 (goodMem fullDyn) goodHandle 0x8000).map
        (fun s => (s.handle.finiLength, elf_dlclose s.mem s.handle))
      = some (2, [Elf_event.call 0x30, Elf_event.call 0x34,
          Elf_event.free_node (_elf_hash name_mul), Elf_event.free_handle]) := by
  decide!

/-- Claim C17 on the full image, image at 0x1000 and buffer at 0x8000: the link ends
with the error bit clear and calls the two constructors in order, at the addresses
0x8010 and 0x8020 the relocations of the rel table left in the init array; closing
calls the two destructors in order before anything is released. -/
theorem constructor_destructor_order_witness :
    (∃ final, elf_link 100 (goodMem fullDyn) goodHandle 0x8000 = some final
      ∧ final.handle.flags &&& _ELF_ERROR = 0
      ∧ ∃ d : Elf_dynamic, final.events.length = d.initLength
        ∧ ∀ i, i < d.initLength →
          final.events[i]? = some (Elf_event.call
            (read32 final.mem ((d.initArray + sizeof_Elf32_Addr * i) % WORD))))
    ∧ (elf_link 100 (goodMem fullDyn) goodHandle 0x8000).map
        (fun s => ((elf_dlerror s.handle).1, s.events, read32 s.mem (0x8000 + 384)))
      = some (none, [Elf_event.call 0x8010, Elf_event.call 0x8020], 0x8040)
    ∧ (elf_link 100 (goodMem fullDyn) goodHandle 0x8000).map
        (fun s => (s.handle.finiLength, elf_dlclose s.mem s.handle))
      = some (2, [Elf_event.call 0x30, Elf_event.call 0x34,
          Elf_event.free_node (_elf_hash name_mul), Elf_event.free_handle]) :=
  have h0 : (elf_link 100 (goodMem fullDyn) goodHandle 0x8000).map
      (fun s => decide (s.handle.flags &&& _ELF_ERROR = 0)) = some true := by decide!
  ⟨match Option.map_eq_some'.mp h0 with
    | ⟨final, hf, hc⟩ =>
      match constructor_destructor_order.1 100 (goodMem fullDyn) goodHandle 0x8000 final hf
          (of_decide_eq_true hc) with
      | ⟨_, d, _, _, _, _, _, _, _, _, e1, e2⟩ =>
        ⟨final, hf, of_decide_eq_true hc, d, e1, e2⟩,
    full_image_link, full_image_close⟩

/-- Claim C17 fails as stated: the full image with first byte 'X', opened with the
default flag (which latches "Magic ID") and linked without the error having been read.
The link latches no error (flags and message are the ones open left), resolves `mul`
and processes the rel table (0x8010 at offset 360), and returns without processing the
jmprel table (the slot keeps 0) and without calling either of the two init-array
entries. -/
theorem stale_error_skips_init :
    elf_dlmemopen (fullMem 0x58 40 PT_DYNAMIC fullDyn 23) 0x1000 ELF_RTLD_DEFAULT
        _elf_error_magic_id
      = { goodHandle with flags := _ELF_ERROR }
    ∧ (elf_link 100 (fullMem 0x58 40 PT_DYNAMIC fullDyn 23)
        { goodHandle with flags := _ELF_ERROR } 0x8000).map
        (fun s => (s.handle.flags, s.handle.error, s.events,
          st_value s.mem (0x8000 + 296 + 32), read32 s.mem (0x8000 + 360),
          read32 s.mem (0x8000 + 384)))
      = some (_ELF_ERROR, _elf_error_magic_id, [], 0x8040, 0x8010, 0)
    ∧ (elf_link_scan (elf_link_loaded (fullMem 0x58 40 PT_DYNAMIC fullDyn 23)
          { goodHandle with flags := _ELF_ERROR } 0x8000) 0x1000 0x8000 100
        (elf_link_dynamics (fullMem 0x58 40 PT_DYNAMIC fullDyn 23)
          { goodHandle with flags := _ELF_ERROR } 0x8000)
        { goodHandle with flags := _ELF_ERROR } Elf_dynamic.zero).map
        (fun r => (Flow.val r).2.initLength) = some 2 := by
  refine ⟨by decide!, by decide!, by decide!⟩

/-! ### Claim C18 -/

/-- Claim C18, amended: skip-check scenario S3.  Whatever the image holds (bytes 0..3
"XELF" included), `elf_dlmemopen` with the skip_check flag (0x1) returns the handle
untouched by any check, so `elf_dlerror` right after gives `NULL`.  The downstream
`elf_link` runs no validation of its own: it leaves the error state as it is or
latches one of its own eight messages, none of which is a message of the validator;
whether it fails depends on its own steps only. -/
theorem skip_check_scenario (m : Mem) (buf : Nat) (error0 : String) :
    elf_dlmemopen m buf ELF_RTLD_SKIP_CHECK error0
      = { flags := ELF_RTLD_SKIP_CHECK, error := error0, header := buf,
          globalSymbols := Elf_symbolNode.null, finiArray := 0, finiLength := 0 }
    ∧ (elf_dlerror (elf_dlmemopen m buf ELF_RTLD_SKIP_CHECK error0)).1 = none
    ∧ (∀ (fuel dest : Nat) (final : Elf_state),
      elf_link fuel m (elf_dlmemopen m buf ELF_RTLD_SKIP_CHECK error0) dest = some final →
      error_state_from (elf_dlmemopen m buf ELF_RTLD_SKIP_CHECK error0) final.handle
        elf_link_errors)
    ∧ (∀ msg ∈ [_elf_error_magic_id, _elf_error_class, _elf_error_endian,
        _elf_error_version, _elf_error_type], msg ∉ elf_link_errors) := by
  have hopen : elf_dlmemopen m buf ELF_RTLD_SKIP_CHECK error0
      = { flags := ELF_RTLD_SKIP_CHECK, error := error0, header := buf,
          globalSymbols := Elf_symbolNode.null, finiArray := 0, finiLength := 0 } := by
    unfold elf_dlmemopen
    dsimp only
    rw [if_neg (by decide)]
  refine ⟨hopen, ?_, ?_, by decide⟩
  · rw [hopen]
    unfold elf_dlerror
    rw [if_neg (show ¬ ((ELF_RTLD_SKIP_CHECK : Nat) &&& _ELF_ERROR ≠ 0) by decide)]
  · intro fuel dest final h
    exact elf_link_state fuel m _ dest final h

/-- Claim C18 fails as stated: the full image with first byte 'X' (bytes 0..3 are
"XELF"), image at 0x1000 and buffer at 0x8000, opened with the skip_check flag.  Open
latches no error, and the downstream `elf_link` does not fail either: it latches no
error, calls both constructors and leaves the address of `mul` in the slot. -/
theorem skip_check_link_succeeds :
    [read8 (fullMem 0x58 40 PT_DYNAMIC fullDyn 23) 0x1000,
      read8 (fullMem 0x58 40 PT_DYNAMIC fullDyn 23) 0x1001,
      read8 (fullMem 0x58 40 PT_DYNAMIC fullDyn 23) 0x1002,
      read8 (fullMem 0x58 40 PT_DYNAMIC fullDyn 23) 0x1003] = [0x58, 0x45, 0x4C, 0x46]
    ∧ (elf_dlerror (elf_dlmemopen (fullMem 0x58 40 PT_DYNAMIC fullDyn 23) 0x1000
        ELF_RTLD_SKIP_CHECK _elf_error_magic_id)).1 = none
    ∧ (elf_link 100 (fullMem 0x58 40 PT_DYNAMIC fullDyn 23)
        (elf_dlmemopen (fullMem 0x58 40 PT_DYNAMIC fullDyn 23) 0x1000 ELF_RTLD_SKIP_CHECK
          _elf_error_magic_id) 0x8000).map
        (fun s => ((elf_dlerror s.handle).1, s.handle.flags &&& _ELF_ERROR, s.events,
          read32 s.mem (0x8000 + 384)))
      = some (none, 0, [Elf_event.call 0x8010, Elf_event.call 0x8020], 0x8040) := by
  refine ⟨by decide!, by decide!, by decide!⟩

/-! ### Claim C19 -/

/-- Claim C19, amended: the validator does not look at the machine.  `elf_dlmemopen`
with the default flag returns the same handle whatever `e_machine` holds: storing any
value `v` in that field changes nothing; so an image that passes the five checks
(magic, class, endianness, version, type) is accepted with any machine. -/
theorem validator_ignores_machine (m : Mem) (buf : Nat) (error0 : String) (v : Nat) :
    e_machine (write16 m (buf + 18) v) buf = v % 65536
    ∧ elf_dlmemopen (write16 m (buf + 18) v) buf ELF_RTLD_DEFAULT error0
      = elf_dlmemopen m buf ELF_RTLD_DEFAULT error0
    ∧ (read32 m buf = 0x464C457F → e_ident m buf EI_CLASS = ELFCLASS32 →
      e_ident m buf EI_DATA = ELFDATA2LSB → e_ident m buf EI_VERSION = 1 →
      e_type m buf = ET_DYN →
      (elf_dlerror (elf_dlmemopen (write16 m (buf + 18) v) buf ELF_RTLD_DEFAULT error0)).1
        = none) := by
  have hsame : elf_dlmemopen (write16 m (buf + 18) v) buf ELF_RTLD_DEFAULT error0
      = elf_dlmemopen m buf ELF_RTLD_DEFAULT error0 := by
    unfold elf_dlmemopen
    dsimp only
    rw [if_pos (by decide), if_pos (by decide)]
    apply _elf_check_congr
    · exact read32_write16_other m (buf + 18) v buf (by omega)
    · exact read8_write16_other m (buf + 18) v (buf + EI_CLASS) (by unfold EI_CLASS; omega)
    · exact read8_write16_other m (buf + 18) v (buf + EI_DATA) (by unfold EI_DATA; omega)
    · exact read8_write16_other m (buf + 18) v (buf + EI_VERSION)
        (by unfold EI_VERSION; omega)
    · exact read16_write16_other m (buf + 18) v (buf + 16) (by omega)
  refine ⟨read16_write16_same m (buf + 18) v, hsame, ?_⟩
  intro h0 h1 h2 h3 h4
  rw [hsame]
  unfold elf_dlmemopen
  dsimp only
  rw [if_pos (by decide), _elf_check_pass m _ h0 h1 h2 h3 h4]
  unfold elf_dlerror
  rw [if_neg (show ¬ ((ELF_RTLD_DEFAULT : Nat) &&& _ELF_ERROR ≠ 0) by decide)]

/-- Claim C19 fails as stated: the full image with `e_machine` 3 (not ARM) and an
otherwise valid header, opened with the default flag, latches no error. -/
theorem machine_not_checked :
    e_machine (fullMem 0x7F 3 PT_DYNAMIC fullDyn 23) 0x1000 = 3
    ∧ (elf_dlerror (elf_dlmemopen (fullMem 0x7F 3 PT_DYNAMIC fullDyn 23) 0x1000
        ELF_RTLD_DEFAULT _elf_error_magic_id)).1 = none
    ∧ (elf_dlmemopen (fullMem 0x7F 3 PT_DYNAMIC fullDyn 23) 0x1000
        ELF_RTLD_DEFAULT _elf_error_magic_id).flags &&& _ELF_ERROR = 0 := by
  refine ⟨by decide!, by decide!, by decide!⟩

/-- Claim C19 on the full image, image at 0x1000: with 3 stored in `e_machine` the five
checks still pass and open with the default flag latches no error. -/
theorem validator_ignores_machine_witness :
    e_machine (write16 (goodMem fullDyn) (0x1000 + 18) 3) 0x1000 = 3
    ∧ (elf_dlerror (elf_dlmemopen (write16 (goodMem fullDyn) (0x1000 + 18) 3) 0x1000
        ELF_RTLD_DEFAULT _elf_error_magic_id)).1 = none :=
  ⟨(validator_ignores_machine (goodMem fullDyn) 0x1000 _elf_error_magic_id 3).1,
    (validator_ignores_machine (goodMem fullDyn) 0x1000 _elf_error_magic_id 3).2.2
      (by decide!) (by decide!) (by decide!) (by decide!) (by decide!)⟩

/-! ### Claim C20 -/

/-- Claim C20: the error state within one link.  Every failure point of `elf_link` and
`_elf_relocate` returns with the memory and the symbol map of the state in which the
failure was detected, and that state is what `elf_link` returns, with nothing called:
a missing dynamic section, a `case` of the scan that returns and missing entries leave
the memory as the segment copy left it and the map as it was; the resolution loop
returns from the first failing entry with the memory and the map its earlier turns
left; "Zero sized rel" returns the state the resolution left; the loop of
`_elf_relocate` returns from the first unsupported entry with the memory its earlier
turns left, and `elf_link` returns that state at once, from either table. -/
theorem error_state_invariant :
    (∀ (fuel : Nat) (m : Mem) (handle : Elf_handle) (buf : Nat),
      elf_link_dynamicSection m handle buf = 0 →
      elf_link fuel m handle buf
        = some { mem := elf_link_loaded m handle buf,
                 handle := elf_set_error handle _elf_error_dynamic_section, events := [] })
    ∧ (∀ (fuel : Nat) (m : Mem) (handle handle1 : Elf_handle) (buf : Nat) (d : Elf_dynamic),
      elf_link_dynamicSection m handle buf ≠ 0 →
      elf_link_scan (elf_link_loaded m handle buf) handle.header buf fuel
        (elf_link_dynamics m handle buf) handle Elf_dynamic.zero
        = some (Flow.ret (handle1, d)) →
      elf_link fuel m handle buf
        = some { mem := elf_link_loaded m handle buf, handle := handle1, events := [] }
      ∧ handle1.globalSymbols = handle.globalSymbols)
    ∧ (∀ (fuel : Nat) (m : Mem) (handle handle1 : Elf_handle) (buf : Nat) (d : Elf_dynamic),
      elf_link_dynamicSection m handle buf ≠ 0 →
      elf_link_scan (elf_link_loaded m handle buf) handle.header buf fuel
        (elf_link_dynamics m handle buf) handle Elf_dynamic.zero
        = some (Flow.go (handle1, d)) →
      (d.hash = 0 ∨ d.strtab = 0 ∨ d.symtab = 0 ∨ d.syment = 0 ∨ d.strsz = 0) →
      elf_link fuel m handle buf
        = some { mem := elf_link_loaded m handle buf,
                 handle := elf_set_error handle1 _elf_error_missing_entries, events := [] }
      ∧ handle1.globalSymbols = handle.globalSymbols)
    ∧ (∀ (fuel buf : Nat) (d : Elf_dynamic) (n ii : Nat) (m m1 : Mem)
        (handle handle1 : Elf_handle),
      elf_link_resolve fuel buf d n ii m handle = some (Flow.ret (m1, handle1)) →
      (∃ (k : Nat) (hk : Elf_handle),
        elf_link_resolve_after fuel buf d k ii m handle = some (ii + k, m1, hk)
        ∧ elf_link_symbol fuel buf d (ii + k) m1 hk = some (Flow.ret (m1, handle1))
        ∧ (handle1 = elf_set_error hk _elf_error_unresolved_symbol
          ∨ handle1 = elf_set_error hk _elf_error_unimplemented_st_shndx)
        ∧ handle1.globalSymbols = hk.globalSymbols)
      ∧ elf_link_symbols fuel buf d n ii m handle
        = some { mem := m1, handle := handle1, events := [] })
    ∧ (∀ (fuel buf : Nat) (d : Elf_dynamic) (m : Mem) (handle : Elf_handle),
      d.reltab ≠ 0 → (d.relsz = 0 ∨ d.relent = 0) →
      elf_link_rel fuel buf d m handle
        = some { mem := m, handle := elf_set_error handle _elf_error_zero_sized_rel,
                 events := [] })
    ∧ (∀ (fuel : Nat) (m m1 : Mem) (handle handle1 : Elf_handle)
        (buf reltab entsize limit symtab syment : Nat),
      _elf_relocate fuel m handle buf reltab entsize limit symtab syment
        = some (m1, handle1) →
      ∃ k rk, _elf_relocate_after buf entsize ((reltab + limit) % WORD) symtab syment k
          reltab m handle = some (rk, m1, handle)
        ∧ ((¬ rk < (reltab + limit) % WORD ∧ handle1 = handle)
          ∨ (rk < (reltab + limit) % WORD
            ∧ _elf_relocate_entry m1 handle buf rk symtab syment = Flow.ret (m1, handle1)
            ∧ handle1 = elf_set_error handle _elf_error_unimplemented_relocation
            ∧ handle1.globalSymbols = handle.globalSymbols)))
    ∧ (∀ (fuel buf : Nat) (d : Elf_dynamic) (m m1 : Mem) (handle handle1 : Elf_handle),
      d.reltab ≠ 0 → ¬ (d.relsz = 0 ∨ d.relent = 0) →
      _elf_relocate fuel m handle buf d.reltab d.relent d.relsz d.symtab d.syment
        = some (m1, handle1) →
      handle1.flags &&& _ELF_ERROR ≠ 0 →
      elf_link_rel fuel buf d m handle
        = some { mem := m1, handle := handle1, events := [] })
    ∧ (∀ (fuel buf : Nat) (d : Elf_dynamic) (m m1 : Mem) (handle handle1 : Elf_handle),
      d.jmpReltab ≠ 0 →
      _elf_relocate fuel m handle buf d.jmpReltab sizeof_Elf32_Rel d.pltrelsz d.symtab
        d.syment = some (m1, handle1) →
      handle1.flags &&& _ELF_ERROR ≠ 0 →
      elf_link_jmprel fuel buf d m handle
        = some { mem := m1, handle := handle1, events := [] }) := by
  refine ⟨?_, ?_, ?_, ?_, ?_, ?_, ?_, ?_⟩
  · intro fuel m handle buf hdyn
    rw [elf_link_eq, if_pos hdyn]
  · intro fuel m handle handle1 buf d hdyn hscan
    refine ⟨elf_link_of_scan_ret fuel m handle handle1 buf d hdyn hscan, ?_⟩
    obtain ⟨k, _, hr, _, _⟩ := elf_link_scan_trace _ _ _ _ _ _ _ _ hscan
    obtain ⟨handle2, _, _, _, a4, a5⟩ := elf_link_scan_entries_ret _ _ _ _ _ _ _ hr.symm
    rcases a5 with a5 | a5
    all_goals rw [a5]; exact a4
  · intro fuel m handle handle1 buf d hdyn hscan hmiss
    rw [elf_link_of_scan_go fuel m handle handle1 buf d hdyn hscan, if_pos hmiss]
    refine ⟨rfl, ?_⟩
    obtain ⟨k, _, hr, _, _⟩ := elf_link_scan_trace _ _ _ _ _ _ _ _ hscan
    exact (elf_link_scan_entries_go _ _ _ _ _ _ _ hr.symm).2.2.2.1
  · intro fuel buf d n ii m m1 handle handle1 hres
    constructor
    · obtain ⟨k, mk, hk, hafter, _, _, hcase⟩ :=
        elf_link_resolve_trace fuel buf d n ii m handle _ hres
      rcases hcase with ⟨_, hr⟩ | ⟨_, h1, hr, hsym, hmsg⟩
      · cases hr
      · cases hr
        refine ⟨k, hk, hafter, hsym, hmsg, ?_⟩
        rcases hmsg with hmsg | hmsg
        all_goals rw [hmsg]; rfl
    · unfold elf_link_symbols
      rw [hres]
  · intro fuel buf d m handle hrel hz
    unfold elf_link_rel
    rw [if_pos hrel, if_pos hz]
  · intro fuel m m1 handle handle1 buf reltab entsize limit symtab syment hrel
    obtain ⟨k, rk, hafter, hcase⟩ := _elf_relocate_loop_trace buf entsize
      ((reltab + limit) % WORD) symtab syment fuel reltab m m1 handle handle1 hrel
    refine ⟨k, rk, hafter, ?_⟩
    rcases hcase with hc | ⟨a, b, c⟩
    · exact Or.inl hc
    · exact Or.inr ⟨a, b, c, by rw [c]; rfl⟩
  · intro fuel buf d m m1 handle handle1 hrel hz hr herr
    unfold elf_link_rel
    rw [if_pos hrel, if_neg hz, hr]
    exact if_pos herr
  · intro fuel buf d m m1 handle handle1 hj hr herr
    unfold elf_link_jmprel
    rw [if_pos hj, hr]
    exact if_pos herr

/-- The function `_elf_relocate` on the rel table of the full image with type 20 in its
second entry, in the memory the first loop of `elf_link` leaves (image at 0x1000,
buffer at 0x8000): it returns with the error bit set, 0x8010 at offset 360 and the
word at offset 364 as it was. -/
theorem type20_image_relocate :
    (_elf_relocate 100
        (elf_link_loaded (fullMem 0x7F 40 PT_DYNAMIC fullDyn 20) goodHandle 0x8000)
        scannedHandle 0x8000 fullDynamic.reltab fullDynamic.relent fullDynamic.relsz
        fullDynamic.symtab fullDynamic.syment).map
        (fun s => (decide (s.2.flags &&& _ELF_ERROR ≠ 0), read32 s.1 (0x8000 + 360),
          read32 s.1 (0x8000 + 364)))
      = some (true, 0x8010, 0x20) := by
  decide!

/-- Claim C20 on the full image with type 20 in the second entry of its rel table,
image at 0x1000 and buffer at 0x8000: `_elf_relocate` returns from the second entry
with the memory the first entry left, and `elf_link` returns that state at once, with
nothing called and the slot of the jmprel table untouched. -/
theorem error_state_invariant_witness :
    (∃ (m1 : Mem) (handle1 : Elf_handle),
      elf_link_rel 100 0x8000 fullDynamic
          (elf_link_loaded (fullMem 0x7F 40 PT_DYNAMIC fullDyn 20) goodHandle 0x8000)
          scannedHandle
        = some { mem := m1, handle := handle1, events := [] }
      ∧ handle1.flags &&& _ELF_ERROR ≠ 0
      ∧ read32 m1 (0x8000 + 360) = 0x8010 ∧ read32 m1 (0x8000 + 364) = 0x20)
    ∧ (elf_link 100 (fullMem 0x7F 40 PT_DYNAMIC fullDyn 20) goodHandle 0x8000).map
        (fun s => ((elf_dlerror s.handle).1, s.events, read32 s.mem (0x8000 + 360),
          read32 s.mem (0x8000 + 364), read32 s.mem (0x8000 + 384)))
      = some (some _elf_error_unimplemented_relocation, [], 0x8010, 0x20, 0) :=
  ⟨match Option.map_eq_some'.mp type20_image_relocate with
    | ⟨(m1, handle1), hr, hv⟩ =>
      ⟨m1, handle1,
        error_state_invariant.2.2.2.2.2.2.1 100 0x8000 fullDynamic _ m1 scannedHandle handle1
          (by decide) (by decide) hr (of_decide_eq_true (Prod.mk.inj hv).1),
        of_decide_eq_true (Prod.mk.inj hv).1,
        (Prod.mk.inj (Prod.mk.inj hv).2).1, (Prod.mk.inj (Prod.mk.inj hv).2).2⟩,
    type20_image_link⟩

/-! ### Claim C21 -/

/-- Claim C21, amended: a failed link still arms the destructors.  Let the scan pass
`k` entries (all recorded or ignored) and end at entry `k` (the terminator, a needed
entry or an unknown tag).  However `elf_link` then ends, the fini fields of the handle
hold what the scan recorded: `finiArray` is `(d_ptr + buf) mod 2^32` of the last
fini-array entry passed and `finiLength` is the value of the last fini-array-size entry
passed divided by 4 (which is 0 when that value is below 4); a field whose entry was
not passed is as it was on entry, as both are when no dynamic program header is found.
`elf_dlclose` then calls exactly `finiLength` entries, read from the memory as the link
left it.  `elf_dlmemopen` returns both fields at 0. -/
theorem failed_link_arms_destructors :
    (∀ (fuel : Nat) (m : Mem) (handle : Elf_handle) (buf k : Nat) (final : Elf_state),
      elf_link_dynamicSection m handle buf ≠ 0 →
      (∀ e ∈ dyn_entries (elf_link_loaded m handle buf) k (elf_link_dynamics m handle buf),
        dt_recorded e.1 ∨ dt_ignored e.1) →
      ¬ (dt_recorded (d_tag (elf_link_loaded m handle buf)
          (dyn_ptr (elf_link_dynamics m handle buf) k))
        ∨ dt_ignored (d_tag (elf_link_loaded m handle buf)
          (dyn_ptr (elf_link_dynamics m handle buf) k))) →
      k < fuel →
      elf_link fuel m handle buf = some final →
      (∀ (l1 l2 : List (Nat × Nat)) (a : Nat),
        dyn_entries (elf_link_loaded m handle buf) k (elf_link_dynamics m handle buf)
          = l1 ++ (DT_FINI_ARRAY, a) :: l2 →
        (∀ e ∈ l2, e.1 ≠ DT_FINI_ARRAY) → final.handle.finiArray = (a + buf) % WORD)
      ∧ (∀ (l1 l2 : List (Nat × Nat)) (s : Nat),
        dyn_entries (elf_link_loaded m handle buf) k (elf_link_dynamics m handle buf)
          = l1 ++ (DT_FINI_ARRAYSZ, s) :: l2 →
        (∀ e ∈ l2, e.1 ≠ DT_FINI_ARRAYSZ) → final.handle.finiLength = s / 4)
      ∧ ((∀ e ∈ dyn_entries (elf_link_loaded m handle buf) k
          (elf_link_dynamics m handle buf), e.1 ≠ DT_FINI_ARRAY) →
        final.handle.finiArray = handle.finiArray)
      ∧ ((∀ e ∈ dyn_entries (elf_link_loaded m handle buf) k
          (elf_link_dynamics m handle buf), e.1 ≠ DT_FINI_ARRAYSZ) →
        final.handle.finiLength = handle.finiLength))
    ∧ (∀ (fuel : Nat) (m : Mem) (handle : Elf_handle) (buf : Nat) (final : Elf_state),
      elf_link_dynamicSection m handle buf = 0 →
      elf_link fuel m handle buf = some final →
      final.handle.finiArray = handle.finiArray
        ∧ final.handle.finiLength = handle.finiLength)
    ∧ (∀ (m : Mem) (handle : Elf_handle),
      (∀ i, i < handle.finiLength →
        (elf_dlclose m handle)[i]? = some (Elf_event.call
          (read32 m ((handle.finiArray + sizeof_Elf32_Addr * i) % WORD))))
      ∧ ∀ f, Elf_event.call f ∉ (elf_dlclose m handle).drop handle.finiLength)
    ∧ (∀ (m : Mem) (buf flag : Nat) (error0 : String),
      (elf_dlmemopen m buf flag error0).finiArray = 0
        ∧ (elf_dlmemopen m buf flag error0).finiLength = 0) := by
  refine ⟨?_, ?_, elf_dlclose_calls, elf_dlmemopen_fini⟩
  · intro fuel m handle buf k final hdyn hpass hstop hfuel hfinal
    obtain ⟨handle1, d1, hgo⟩ := elf_link_scan_entries_pass handle.header buf _ handle
      Elf_dynamic.zero hpass
    have hall : ∀ e ∈ dyn_entries (elf_link_loaded m handle buf) k
        (elf_link_dynamics m handle buf), e.1 ≠ DT_NULL := fun e he =>
      (elf_link_scan_switch_pass handle.header buf e.1 e.2 handle Elf_dynamic.zero
        (hpass e he)).1
    obtain ⟨f, rfl⟩ : ∃ f, fuel = (f + 1) + k := ⟨fuel - k - 1, by omega⟩
    have hhead : elf_link_scan (elf_link_loaded m handle buf) handle.header buf (f + 1 + k)
        (elf_link_dynamics m handle buf) handle Elf_dynamic.zero
        = elf_link_scan (elf_link_loaded m handle buf) handle.header buf (f + 1)
            (dyn_ptr (elf_link_dynamics m handle buf) k) handle1 d1 := by
      rw [elf_link_scan_head _ _ _ k (f + 1) _ _ _ hall, hgo]
    have hkeep : final.handle.finiArray = handle1.finiArray
        ∧ final.handle.finiLength = handle1.finiLength := by
      by_cases h0 : d_tag (elf_link_loaded m handle buf)
          (dyn_ptr (elf_link_dynamics m handle buf) k) = DT_NULL
      · rw [elf_link_scan, if_pos h0] at hhead
        rw [elf_link_of_scan_go _ m handle handle1 buf d1 hdyn hhead] at hfinal
        split_ifs at hfinal
        · cases hfinal
          exact ⟨rfl, rfl⟩
        · exact elf_link_symbols_fini _ _ _ _ _ _ _ _ hfinal
      · rw [elf_link_scan_succ _ _ _ _ _ _ _ h0] at hhead
        have hret : ∃ handle2, elf_link_scan_switch handle.header buf
            (d_tag (elf_link_loaded m handle buf)
              (dyn_ptr (elf_link_dynamics m handle buf) k))
            (d_un (elf_link_loaded m handle buf)
              (dyn_ptr (elf_link_dynamics m handle buf) k)) handle1 d1
            = Flow.ret (handle2, d1) ∧ handle2.finiArray = handle1.finiArray
              ∧ handle2.finiLength = handle1.finiLength := by
          by_cases h1 : d_tag (elf_link_loaded m handle buf)
              (dyn_ptr (elf_link_dynamics m handle buf) k) = DT_NEEDED
          · rw [h1]
            exact ⟨_, elf_link_scan_switch_needed _ _ _ _ _, rfl, rfl⟩
          · exact ⟨_, elf_link_scan_switch_default _ _ _ _ _ _ h1
              (fun h => hstop (Or.inl h)) (fun h => hstop (Or.inr h)), rfl, rfl⟩
        obtain ⟨handle2, hsw, e1, e2⟩ := hret
        rw [hsw] at hhead
        rw [elf_link_of_scan_ret _ m handle handle2 buf d1 hdyn hhead] at hfinal
        cases hfinal
        exact ⟨e1, e2⟩
    obtain ⟨c1, c2⟩ := elf_link_scan_entries_fini_keep _ _ _ _ _ _ _ hgo
    refine ⟨?_, ?_, fun h => hkeep.1.trans (c1 h), fun h => hkeep.2.trans (c2 h)⟩
    · intro l1 l2 a hl hl2
      rw [hl] at hgo
      exact hkeep.1.trans
        ((elf_link_scan_entries_fini_last _ _ l1 l2 a _ _ _ _).1 hgo hl2)
    · intro l1 l2 s hl hl2
      rw [hl] at hgo
      exact hkeep.2.trans
        ((elf_link_scan_entries_fini_last _ _ l1 l2 s _ _ _ _).2 hgo hl2)
  · intro fuel m handle buf final hdyn hfinal
    rw [elf_link_eq, if_pos hdyn] at hfinal
    cases hfinal
    exact ⟨rfl, rfl⟩

/-- The table of the full image with a needed entry after the fini entries, read in
the memory the first loop of `elf_link` leaves (image at 0x1000, buffer at 0x8000): the
dynamic program header is found, the fourteen entries before the needed one are
recorded ones, and the entry at place 14 is the needed one. -/
theorem fini_then_needed_table :
    elf_link_dynamicSection (goodMem (finiThenNeededDyn 8)) goodHandle 0x8000 ≠ 0
    ∧ (∀ e ∈ dyn_entries (elf_link_loaded (goodMem (finiThenNeededDyn 8)) goodHandle 0x8000)
        14 (elf_link_dynamics (goodMem (finiThenNeededDyn 8)) goodHandle 0x8000),
        dt_recorded e.1 ∨ dt_ignored e.1)
    ∧ d_tag (elf_link_loaded (goodMem (finiThenNeededDyn 8)) goodHandle 0x8000)
        (dyn_ptr (elf_link_dynamics (goodMem (finiThenNeededDyn 8)) goodHandle 0x8000) 14)
      = DT_NEEDED := by
  refine ⟨by decide!, by decide!, by decide!⟩

/-- The table of the full image with a needed entry after the fini entries: its first
fourteen entries. -/
theorem fini_then_needed_entries :
    dyn_entries (elf_link_loaded (goodMem (finiThenNeededDyn 8)) goodHandle 0x8000) 14
        (elf_link_dynamics (goodMem (finiThenNeededDyn 8)) goodHandle 0x8000)
      = fullDyn.take 10 ++ (DT_FINI_ARRAY, 368) :: fullDyn.drop 11
    ∧ dyn_entries (elf_link_loaded (goodMem (finiThenNeededDyn 8)) goodHandle 0x8000) 14
        (elf_link_dynamics (goodMem (finiThenNeededDyn 8)) goodHandle 0x8000)
      = fullDyn.take 11 ++ (DT_FINI_ARRAYSZ, 8) :: fullDyn.drop 12 := by
  refine ⟨by decide!, by decide!⟩

/-- The function `elf_link` on the full image with a needed entry after the fini
entries, then `elf_dlclose`, image at 0x1000 and buffer at 0x8000: "Dependency", the
fini fields recorded, and the two destructors called as the segment copy left them in
the buffer. -/
theorem fini_then_needed_link :
    (elf_link 100 (goodMem (finiThenNeededDyn 8)) goodHandle 0x8000).map
        (fun s => ((elf_dlerror s.handle).1, s.handle.finiArray, s.handle.finiLength,
          elf_dlclose s.mem s.handle))
      = some (some _elf_error_dependency, 0x8000 + 368, 2,
          [Elf_event.call 0x30, Elf_event.call 0x34, Elf_event.free_handle]) := by
  decide!

/-- The function `elf_link` on the full image with type 20 in the second entry of its
rel table, then `elf_dlclose`, image at 0x1000 and buffer at 0x8000: "Unimplemented
relocation", the fini fields recorded, the two destructors called. -/
theorem type20_image_close :
    (elf_link 100 (fullMem 0x7F 40 PT_DYNAMIC fullDyn 20) goodHandle 0x8000).map
        (fun s => ((elf_dlerror s.handle).1, s.handle.finiArray, s.handle.finiLength,
          elf_dlclose s.mem s.handle))
      = some (some _elf_error_unimplemented_relocation, 0x8000 + 368, 2,
          [Elf_event.call 0x30, Elf_event.call 0x34,
            Elf_event.free_node (_elf_hash name_mul), Elf_event.free_handle]) := by
  decide!

/-- Claim C21 on the full image with a needed entry after the fini entries, image at
0x1000 and buffer at 0x8000 (the link fails with "Dependency" and both destructors
stay armed), and on the full image with an unsupported relocation type. -/
theorem failed_link_arms_destructors_witness :
    (∃ final, elf_link 100 (goodMem (finiThenNeededDyn 8)) goodHandle 0x8000 = some final
      ∧ final.handle.finiArray = (368 + 0x8000) % WORD
      ∧ final.handle.finiLength = 8 / 4)
    ∧ (elf_link 100 (goodMem (finiThenNeededDyn 8)) goodHandle 0x8000).map
        (fun s => ((elf_dlerror s.handle).1, s.handle.finiArray, s.handle.finiLength,
          elf_dlclose s.mem s.handle))
      = some (some _elf_error_dependency, 0x8000 + 368, 2,
          [Elf_event.call 0x30, Elf_event.call 0x34, Elf_event.free_handle])
    ∧ (elf_link 100 (fullMem 0x7F 40 PT_DYNAMIC fullDyn 20) goodHandle 0x8000).map
        (fun s => ((elf_dlerror s.handle).1, s.handle.finiArray, s.handle.finiLength,
          elf_dlclose s.mem s.handle))
      = some (some _elf_error_unimplemented_relocation, 0x8000 + 368, 2,
          [Elf_event.call 0x30, Elf_event.call 0x34,
            Elf_event.free_node (_elf_hash name_mul), Elf_event.free_handle]) :=
  ⟨match Option.map_eq_some'.mp fini_then_needed_link with
    | ⟨final, hf, _⟩ =>
      match failed_link_arms_destructors.1 100 (goodMem (finiThenNeededDyn 8)) goodHandle
          0x8000 14 final fini_then_needed_table.1 fini_then_needed_table.2.1
          (by rw [fini_then_needed_table.2.2]; decide) (by decide) hf with
      | ⟨e1, e2, _, _⟩ =>
        ⟨final, hf,
          e1 (fullDyn.take 10) (fullDyn.drop 11) 368 fini_then_needed_entries.1 (by decide),
          e2 (fullDyn.take 11) (fullDyn.drop 12) 8 fini_then_needed_entries.2 (by decide)⟩,
    fini_then_needed_link, type20_image_close⟩

/-- Claim C21 fails as stated: the full image whose fini-array-size entry holds 3,
with a needed entry after the fini entries, image at 0x1000 and buffer at 0x8000.  The
scan passes the fini-array entry (place 10) and the fini-array-size entry (place 11)
before the link fails with "Dependency" at place 14, yet `finiLength` is 3 / 4 = 0
after the failed link, and `elf_dlclose` calls nothing. -/
theorem fini_tags_reached_count_zero :
    dyn_entries (elf_link_loaded (goodMem (finiThenNeededDyn 3)) goodHandle 0x8000) 14
        (elf_link_dynamics (goodMem (finiThenNeededDyn 3)) goodHandle 0x8000)
      = fullDyn.take 10 ++ (DT_FINI_ARRAY, 368) :: (DT_FINI_ARRAYSZ, 3) :: fullDyn.drop 12
    ∧ d_tag (elf_link_loaded (goodMem (finiThenNeededDyn 3)) goodHandle 0x8000)
        (dyn_ptr (elf_link_dynamics (goodMem (finiThenNeededDyn 3)) goodHandle 0x8000) 14)
      = DT_NEEDED
    ∧ (elf_link 100 (goodMem (finiThenNeededDyn 3)) goodHandle 0x8000).map
        (fun s => ((elf_dlerror s.handle).1, s.handle.finiArray, s.handle.finiLength,
          elf_dlclose s.mem s.handle))
      = some (some _elf_error_dependency, 0x8000 + 368, 0, [Elf_event.free_handle]) := by
  refine ⟨by decide!, by decide!, by decide!⟩

/-! ### Claim C22 -/

/-- Claim C22: a stale error bit truncates a later link.  The scan and the resolution
leave the flags as they were on entry.  With the error bit set on entry: if there is a
rel table (of non-zero size and stride), `elf_link` returns the state `_elf_relocate`
leaves for that table, with nothing called and the jmprel table not processed, whether
or not an entry failed; if there is no rel table but a jmprel table, it returns the
state `_elf_relocate` leaves for the jmprel table, with nothing called.  With the error
bit clear on entry and both tables processed without failure, the memory is the one
the jmprel table leaves and the init-array entries are called. -/
theorem stale_error_truncates :
    (∀ (fuel buf : Nat) (d : Elf_dynamic) (m : Mem) (handle : Elf_handle),
      handle.flags &&& _ELF_ERROR ≠ 0 → d.reltab ≠ 0 → ¬ (d.relsz = 0 ∨ d.relent = 0) →
      elf_link_rel fuel buf d m handle
        = (_elf_relocate fuel m handle buf d.reltab d.relent d.relsz d.symtab d.syment).map
            (fun s => { mem := s.1, handle := s.2, events := [] }))
    ∧ (∀ (fuel buf : Nat) (d : Elf_dynamic) (m : Mem) (handle : Elf_handle),
      handle.flags &&& _ELF_ERROR ≠ 0 → d.reltab = 0 → d.jmpReltab ≠ 0 →
      elf_link_rel fuel buf d m handle
        = (_elf_relocate fuel m handle buf d.jmpReltab sizeof_Elf32_Rel d.pltrelsz d.symtab
            d.syment).map (fun s => { mem := s.1, handle := s.2, events := [] }))
    ∧ (∀ (fuel buf : Nat) (d : Elf_dynamic) (m m1 m2 : Mem) (handle : Elf_handle),
      handle.flags &&& _ELF_ERROR = 0 →
      (d.reltab ≠ 0 → ¬ (d.relsz = 0 ∨ d.relent = 0)
        ∧ _elf_relocate fuel m handle buf d.reltab d.relent d.relsz d.symtab d.syment
          = some (m1, handle)) →
      (d.reltab = 0 → m1 = m) →
      (d.jmpReltab ≠ 0 →
        _elf_relocate fuel m1 handle buf d.jmpReltab sizeof_Elf32_Rel d.pltrelsz d.symtab
          d.syment = some (m2, handle)) →
      (d.jmpReltab = 0 → m2 = m1) →
      elf_link_rel fuel buf d m handle
        = some { mem := m2, handle := handle,
                 events := elf_link_init m2 d.initArray d.initLength })
    ∧ (∀ (fuel : Nat) (m m1 : Mem) (handle handle1 handle2 : Elf_handle) (buf : Nat)
        (d : Elf_dynamic),
      elf_link_dynamicSection m handle buf ≠ 0 →
      elf_link_scan (elf_link_loaded m handle buf) handle.header buf fuel
        (elf_link_dynamics m handle buf) handle Elf_dynamic.zero
        = some (Flow.go (handle1, d)) →
      ¬ (d.hash = 0 ∨ d.strtab = 0 ∨ d.symtab = 0 ∨ d.syment = 0 ∨ d.strsz = 0) →
      elf_link_resolve fuel buf d WORD 1 (elf_link_loaded m handle buf) handle1
        = some (Flow.go (m1, handle2)) →
      handle2.flags = handle.flags
      ∧ elf_link fuel m handle buf = elf_link_rel fuel buf d m1 handle2) := by
  have hkeep : ∀ (fuel buf : Nat) (m m1 : Mem) (handle handle1 : Elf_handle)
      (reltab entsize limit symtab syment : Nat), handle.flags &&& _ELF_ERROR ≠ 0 →
      _elf_relocate fuel m handle buf reltab entsize limit symtab syment
        = some (m1, handle1) → handle1.flags &&& _ELF_ERROR ≠ 0 := by
    intro fuel buf m m1 handle handle1 reltab entsize limit symtab syment hst hr
    rcases _elf_relocate_state fuel m m1 handle handle1 buf _ _ _ _ _ hr with hs | hs
    · rw [hs]; exact hst
    · rw [hs]; exact elf_set_error_latched handle _
  refine ⟨?_, ?_, ?_, ?_⟩
  · intro fuel buf d m handle hst hrel hz
    unfold elf_link_rel
    rw [if_pos hrel, if_neg hz]
    rcases Option.eq_none_or_eq_some (_elf_relocate fuel m handle buf d.reltab d.relent
      d.relsz d.symtab d.syment) with hr | ⟨⟨m1, handle1⟩, hr⟩
    · rw [hr]; rfl
    · rw [hr]
      exact if_pos (hkeep fuel buf m m1 handle handle1 _ _ _ _ _ hst hr)
  · intro fuel buf d m handle hst hrel hj
    unfold elf_link_rel
    rw [if_neg (not_not.mpr hrel)]
    unfold elf_link_jmprel
    rw [if_pos hj]
    rcases Option.eq_none_or_eq_some (_elf_relocate fuel m handle buf d.jmpReltab
      sizeof_Elf32_Rel d.pltrelsz d.symtab d.syment) with hr | ⟨⟨m1, handle1⟩, hr⟩
    · rw [hr]; rfl
    · rw [hr]
      exact if_pos (hkeep fuel buf m m1 handle handle1 _ _ _ _ _ hst hr)
  · intro fuel buf d m m1 m2 handle hclear h1 h2 h3 h4
    have hc : ¬ (handle.flags &&& _ELF_ERROR ≠ 0) := not_not.mpr hclear
    have hj : elf_link_jmprel fuel buf d m1 handle
        = some { mem := m2, handle := handle,
                 events := elf_link_init m2 d.initArray d.initLength } := by
      unfold elf_link_jmprel
      by_cases hjr : d.jmpReltab ≠ 0
      · rw [if_pos hjr, h3 hjr]
        exact if_neg hc
      · rw [if_neg hjr, h4 (not_not.mp hjr)]
    unfold elf_link_rel
    by_cases hrel : d.reltab ≠ 0
    · rw [if_pos hrel, if_neg (h1 hrel).1, (h1 hrel).2]
      dsimp only
      rw [if_neg hc]
      exact hj
    · rw [if_neg hrel, ← h2 (not_not.mp hrel)]
      exact hj
  · intro fuel m m1 handle handle1 handle2 buf d hdyn hscan hreq hres
    obtain ⟨k, _, hr, _, _⟩ := elf_link_scan_trace _ _ _ _ _ _ _ _ hscan
    obtain ⟨a1, _⟩ := elf_link_scan_entries_go _ _ _ _ _ _ _ hr.symm
    obtain ⟨b1, _⟩ := (elf_link_resolve_state fuel buf d WORD 1 _ m1 handle1 handle2).1 hres
    refine ⟨b1.trans a1, ?_⟩
    rw [elf_link_of_scan_go fuel m handle handle1 buf d hdyn hscan, if_neg hreq]
    unfold elf_link_symbols
    rw [hres]

/-- The function `elf_link` on the full image with first byte 'X' and the handle open
with the default flag leaves for it ("Magic ID" latched, not read), image at 0x1000 and
buffer at 0x8000: the flags and the message stay, the rel table is processed (0x8010
and 0x8020 in the init array), the slot of the jmprel table keeps 0, nothing is
called. -/
theorem stale_image_link :
    (elf_link 100 (fullMem 0x58 40 PT_DYNAMIC fullDyn 23)
        (elf_dlmemopen (fullMem 0x58 40 PT_DYNAMIC fullDyn 23) 0x1000 ELF_RTLD_DEFAULT
          _elf_error_magic_id) 0x8000).map
        (fun s => (s.handle.flags, s.handle.error, s.events, read32 s.mem (0x8000 + 360),
          read32 s.mem (0x8000 + 364), read32 s.mem (0x8000 + 384)))
      = some (_ELF_ERROR, _elf_error_magic_id, [], 0x8010, 0x8020, 0) := by
  decide!

/-- Claim C22 with the locals of the full image and a handle whose error bit is set:
`elf_link` from the relocation on is the rel table alone; and `elf_link` on the full
image, once on the handle a failed open left and once on a handle with the bit
clear. -/
theorem stale_error_truncates_witness :
    elf_link_rel 100 0x8000 fullDynamic (goodMem fullDyn)
        { scannedHandle with flags := _ELF_ERROR }
      = (_elf_relocate 100 (goodMem fullDyn) { scannedHandle with flags := _ELF_ERROR } 0x8000
          fullDynamic.reltab fullDynamic.relent fullDynamic.relsz fullDynamic.symtab
          fullDynamic.syment).map (fun s => { mem := s.1, handle := s.2, events := [] })
    ∧ (elf_link 100 (fullMem 0x58 40 PT_DYNAMIC fullDyn 23)
        (elf_dlmemopen (fullMem 0x58 40 PT_DYNAMIC fullDyn 23) 0x1000 ELF_RTLD_DEFAULT
          _elf_error_magic_id) 0x8000).map
        (fun s => (s.handle.flags, s.handle.error, s.events, read32 s.mem (0x8000 + 360),
          read32 s.mem (0x8000 + 364), read32 s.mem (0x8000 + 384)))
      = some (_ELF_ERROR, _elf_error_magic_id, [], 0x8010, 0x8020, 0)
    ∧ (elf_link 100 (goodMem fullDyn) goodHandle 0x8000).map
        (fun s => ((elf_dlerror s.handle).1, s.events, read32 s.mem (0x8000 + 384)))
      = some (none, [Elf_event.call 0x8010, Elf_event.call 0x8020], 0x8040) :=
  ⟨stale_error_truncates.1 100 0x8000 fullDynamic (goodMem fullDyn)
      { scannedHandle with flags := _ELF_ERROR } (by decide) (by decide) (by decide),
    stale_image_link, full_image_link⟩

/-! ### Claim C23 -/

/-- Claim C23: only bindings with the global bit are published.  For the entry `ii`
the resolution loop processes to the end of its body, with binding `st_info >> 4`
(which the processing leaves as it was): if bit 0 of the binding is set, the handle
after the turn is the one `elf_mapsym` gives for the entry's name and its final value,
so `elf_dlsym` of that name gives the final value and every name with another hash is
looked up as before; if bit 0 is clear the handle, and so every lookup, is as before.
A turn that returns with an error publishes nothing.  A locally defined entry (section
index non-zero and below 0xff00) with bit 0 clear, as for the bindings 0 and 2, gets
the value `(st_value + buf) mod 2^32` and the section index 0xfff1, and the handle is
left as it was; an entry that is already absolute and has bit 0 set is published with
the value it has. -/
theorem global_bit_publishes (fuel buf : Nat) (d : Elf_dynamic) (ii : Nat) (m : Mem)
    (handle : Elf_handle) :
    (∀ (m1 : Mem) (handle1 : Elf_handle),
      elf_link_symbol fuel buf d ii m handle = some (Flow.go (m1, handle1)) →
      st_info m1 (elf_link_symbol_at d ii) = st_info m (elf_link_symbol_at d ii)
      ∧ (ELF32_ST_BIND (st_info m (elf_link_symbol_at d ii)) &&& STB_GLOBAL ≠ 0 →
        ∃ name, cstring m1 fuel ((d.strtab + st_name m1 (elf_link_symbol_at d ii)) % WORD)
            = some name
          ∧ handle1 = elf_mapsym handle name (st_value m1 (elf_link_symbol_at d ii))
          ∧ handle1 = _elf_tree_add handle (_elf_hash name)
              (st_value m1 (elf_link_symbol_at d ii))
          ∧ elf_dlsym handle1 name = st_value m1 (elf_link_symbol_at d ii)
          ∧ ∀ name2, _elf_hash name2 ≠ _elf_hash name →
            elf_dlsym handle1 name2 = elf_dlsym handle name2)
      ∧ (ELF32_ST_BIND (st_info m (elf_link_symbol_at d ii)) &&& STB_GLOBAL = 0 →
        handle1 = handle))
    ∧ (∀ (m1 : Mem) (handle1 : Elf_handle),
      elf_link_symbol fuel buf d ii m handle = some (Flow.ret (m1, handle1)) →
      handle1.globalSymbols = handle.globalSymbols
      ∧ ∀ name, elf_dlsym handle1 name = elf_dlsym handle name)
    ∧ ((ELF32_ST_BIND (st_info m (elf_link_symbol_at d ii)) &&& STB_GLOBAL ≠ 0
        ↔ (st_info m (elf_link_symbol_at d ii) / 16) % 2 = 1)
      ∧ (0 : Nat) &&& STB_GLOBAL = 0 ∧ (2 : Nat) &&& STB_GLOBAL = 0)
    ∧ (st_shndx m (elf_link_symbol_at d ii) ≠ SHN_UNDEF →
      st_shndx m (elf_link_symbol_at d ii) < SHN_LORESERVE →
      ELF32_ST_BIND (st_info m (elf_link_symbol_at d ii)) &&& STB_GLOBAL = 0 →
      elf_link_symbol fuel buf d ii m handle
        = some (Flow.go (write32 (write16 m (elf_link_symbol_at d ii + 14) SHN_ABS)
            (elf_link_symbol_at d ii + 4)
            ((st_value m (elf_link_symbol_at d ii) + buf) % WORD), handle))
      ∧ st_value (write32 (write16 m (elf_link_symbol_at d ii + 14) SHN_ABS)
            (elf_link_symbol_at d ii + 4)
            ((st_value m (elf_link_symbol_at d ii) + buf) % WORD)) (elf_link_symbol_at d ii)
          = (st_value m (elf_link_symbol_at d ii) + buf) % WORD
      ∧ st_shndx (write32 (write16 m (elf_link_symbol_at d ii + 14) SHN_ABS)
            (elf_link_symbol_at d ii + 4)
            ((st_value m (elf_link_symbol_at d ii) + buf) % WORD)) (elf_link_symbol_at d ii)
          = SHN_ABS)
    ∧ (∀ name, st_shndx m (elf_link_symbol_at d ii) = SHN_ABS →
      ELF32_ST_BIND (st_info m (elf_link_symbol_at d ii)) &&& STB_GLOBAL ≠ 0 →
      cstring m fuel ((d.strtab + st_name m (elf_link_symbol_at d ii)) % WORD) = some name →
      elf_link_symbol fuel buf d ii m handle
        = some (Flow.go (m, elf_mapsym handle name (st_value m (elf_link_symbol_at d ii))))) := by
  refine ⟨?_, ?_, ⟨?_, by decide, by decide⟩, ?_, ?_⟩
  · intro m1 handle1 h
    have hinfo := elf_link_symbol_go_info fuel buf d ii m m1 handle handle1 h
    have hp := elf_link_symbol_go fuel buf d ii m m1 handle handle1 h
    obtain ⟨handle2, hr, _, _, hcase⟩ := elf_link_publish_result _ _ _ _ _ _ hp
    simp only [Flow.go.injEq, Prod.mk.injEq, true_and] at hr
    subst hr
    rw [hinfo] at hcase
    refine ⟨hinfo, ?_, ?_⟩
    · intro hg
      rcases hcase with ⟨hz, _⟩ | ⟨_, name, hc, he⟩
      · exact absurd hz hg
      · refine ⟨name, hc, he, he, ?_, ?_⟩
        · rw [he]
          exact _elf_tree_find_add_same _ _ _
        · intro name2 hne
          rw [he]
          exact _elf_tree_find_add_other _ _ _ _ hne
    · intro hz
      rcases hcase with ⟨_, he⟩ | ⟨hg, _⟩
      · exact he
      · exact absurd hz hg
  · intro m1 handle1 h
    obtain ⟨_, hmsg⟩ := elf_link_symbol_ret fuel buf d ii m m1 handle handle1 h
    rcases hmsg with hmsg | hmsg
    all_goals rw [hmsg]; exact ⟨rfl, fun _ => rfl⟩
  · unfold ELF32_ST_BIND
    rw [Nat.and_one_is_mod, Nat.shiftRight_eq_div_pow]
    have : (2 : Nat) ^ 4 = 16 := by decide
    rw [this]
    omega
  · intro hdef hreg hz
    obtain ⟨_, hvalue, hinfo, hshndx⟩ := symbol_fields_after_stores m (elf_link_symbol_at d ii)
      ((st_value m (elf_link_symbol_at d ii) + buf) % WORD)
    rw [Nat.mod_mod] at hvalue
    refine ⟨?_, hvalue, hshndx⟩
    unfold elf_link_symbol
    simp only []
    rw [if_neg hdef, if_pos hreg, st_value_after_shndx_store]
    unfold elf_link_publish
    rw [hinfo, if_neg (not_not.mpr hz)]
  · intro name habs hg hc
    unfold elf_link_symbol
    simp only []
    rw [if_neg (by rw [habs]; decide), if_neg (by rw [habs]; decide),
      if_neg (not_not.mpr habs)]
    unfold elf_link_publish
    rw [if_pos hg, hc]

/-- The entry of `mul` in the full image where its binding is weak, in the memory the
first loop of `elf_link` leaves (image at 0x1000, buffer at 0x8000): defined in section
1, bit 0 of the binding clear. -/
theorem weak_mul_entry :
    st_shndx (elf_link_loaded weakMulMem goodHandle 0x8000) (elf_link_symbol_at fullDynamic 2)
      ≠ SHN_UNDEF
    ∧ st_shndx (elf_link_loaded weakMulMem goodHandle 0x8000)
        (elf_link_symbol_at fullDynamic 2) < SHN_LORESERVE
    ∧ ELF32_ST_BIND (st_info (elf_link_loaded weakMulMem goodHandle 0x8000)
        (elf_link_symbol_at fullDynamic 2)) = STB_WEAK
    ∧ st_value (elf_link_loaded weakMulMem goodHandle 0x8000)
        (elf_link_symbol_at fullDynamic 2) = 0x40 := by
  refine ⟨by decide!, by decide!, by decide!, by decide!⟩

/-- The function `elf_link` on the full image where the binding of `mul` is weak, and
on the full image itself (binding global), image at 0x1000 and buffer at 0x8000: in
both the value of `mul` becomes 0x8040 and the slot of the jmprel table gets it;
`elf_dlsym` of "mul" gives 0 in the first and 0x8040 in the second. -/
theorem weak_mul_link :
    (elf_link 100 weakMulMem goodHandle 0x8000).map
        (fun s => ((elf_dlerror s.handle).1, elf_dlsym s.handle name_mul,
          st_value s.mem (0x8000 + 296 + 32), read32 s.mem (0x8000 + 384),
          s.handle.globalSymbols))
      = some (none, 0, 0x8040, 0x8040, Elf_symbolNode.null)
    ∧ (elf_link 100 (goodMem fullDyn) goodHandle 0x8000).map
        (fun s => ((elf_dlerror s.handle).1, elf_dlsym s.handle name_mul,
          st_value s.mem (0x8000 + 296 + 32), read32 s.mem (0x8000 + 384),
          s.handle.globalSymbols))
      = some (none, 0x8040, 0x8040, 0x8040,
          Elf_symbolNode.node (_elf_hash name_mul) 0x8040 Elf_symbolNode.null
            Elf_symbolNode.null) := by
  refine ⟨by decide!, by decide!⟩

/-- Claim C23 on the entry of `mul` with binding weak: the turn of the resolution loop
stores `0x40 + 0x8000` and 0xfff1 into the entry and leaves the handle as it was; and
on the whole link, for the bindings weak and global. -/
theorem global_bit_publishes_witness :
    (elf_link_symbol 100 0x8000 fullDynamic 2 (elf_link_loaded weakMulMem goodHandle 0x8000)
        scannedHandle
      = some (Flow.go (write32
          (write16 (elf_link_loaded weakMulMem goodHandle 0x8000)
            (elf_link_symbol_at fullDynamic 2 + 14) SHN_ABS)
          (elf_link_symbol_at fullDynamic 2 + 4)
          ((st_value (elf_link_loaded weakMulMem goodHandle 0x8000)
            (elf_link_symbol_at fullDynamic 2) + 0x8000) % WORD), scannedHandle))
      ∧ (st_value (elf_link_loaded weakMulMem goodHandle 0x8000)
          (elf_link_symbol_at fullDynamic 2) + 0x8000) % WORD = 0x8040)
    ∧ (elf_link 100 weakMulMem goodHandle 0x8000).map
        (fun s => ((elf_dlerror s.handle).1, elf_dlsym s.handle name_mul,
          st_value s.mem (0x8000 + 296 + 32), read32 s.mem (0x8000 + 384),
          s.handle.globalSymbols))
      = some (none, 0, 0x8040, 0x8040, Elf_symbolNode.null)
    ∧ (elf_link 100 (goodMem fullDyn) goodHandle 0x8000).map
        (fun s => ((elf_dlerror s.handle).1, elf_dlsym s.handle name_mul,
          st_value s.mem (0x8000 + 296 + 32), read32 s.mem (0x8000 + 384),
          s.handle.globalSymbols))
      = some (none, 0x8040, 0x8040, 0x8040,
          Elf_symbolNode.node (_elf_hash name_mul) 0x8040 Elf_symbolNode.null
            Elf_symbolNode.null) :=
  ⟨⟨((global_bit_publishes 100 0x8000 fullDynamic 2
        (elf_link_loaded weakMulMem goodHandle 0x8000) scannedHandle).2.2.2.1
        weak_mul_entry.1 weak_mul_entry.2.1
        (by rw [weak_mul_entry.2.2.1]; decide)).1,
      by rw [weak_mul_entry.2.2.2]; decide⟩,
    weak_mul_link.1, weak_mul_link.2⟩

/-! ### Claim C24 -/

/-- Claim C24, amended: the relocation walk and its entry count.  For a table of `L`
bytes at `reltab` walked with stride `S > 0`, with `n = ceil(L / S)` and the walk
staying in the address space (`reltab + n * S < 2^32`), `_elf_relocate` returns: after
exactly `n` entries when each entry has a supported type at its turn, the entry of turn
`i` being read at `reltab + i * S` and the handle left as it was; otherwise from the
first unsupported entry, with "Unimplemented relocation".  With `L = 0` no entry is
processed and no error is latched.  The stride of the jmprel table is 8 whatever
`relent` is, and `elf_link` does not walk a rel table with `relent` zero. -/
theorem relocation_walk_count (fuel : Nat) (m : Mem) (handle : Elf_handle)
    (buf reltab entsize limit symtab syment : Nat) (hS : 0 < entsize)
    (hfit : reltab + (limit + entsize - 1) / entsize * entsize < WORD)
    (hfuel : (limit + entsize - 1) / entsize < fuel) :
    (∃ (k : Nat) (mk : Mem), k ≤ (limit + entsize - 1) / entsize
      ∧ (∀ i, i ≤ k → ∃ mi, _elf_relocate_after buf entsize ((reltab + limit) % WORD) symtab
          syment i reltab m handle = some (reltab + i * entsize, mi, handle))
      ∧ _elf_relocate_after buf entsize ((reltab + limit) % WORD) symtab syment k reltab m
          handle = some (reltab + k * entsize, mk, handle)
      ∧ ((k = (limit + entsize - 1) / entsize
          ∧ _elf_relocate fuel m handle buf reltab entsize limit symtab syment
            = some (mk, handle)
          ∧ _elf_relocate_after buf entsize ((reltab + limit) % WORD) symtab syment
              ((limit + entsize - 1) / entsize + 1) reltab m handle = none)
        ∨ (k < (limit + entsize - 1) / entsize
          ∧ ELF32_R_TYPE (r_info mk (reltab + k * entsize)) ≠ R_ARM_ABS32
          ∧ ELF32_R_TYPE (r_info mk (reltab + k * entsize)) ≠ R_ARM_JUMP_SLOT
          ∧ ELF32_R_TYPE (r_info mk (reltab + k * entsize)) ≠ R_ARM_RELATIVE
          ∧ _elf_relocate fuel m handle buf reltab entsize limit symtab syment
            = some (mk, elf_set_error handle _elf_error_unimplemented_relocation))))
    ∧ ((∀ (i : Nat) (mi : Mem), i < (limit + entsize - 1) / entsize →
        _elf_relocate_after buf entsize ((reltab + limit) % WORD) symtab syment i reltab m
          handle = some (reltab + i * entsize, mi, handle) →
        ELF32_R_TYPE (r_info mi (reltab + i * entsize)) = R_ARM_ABS32
          ∨ ELF32_R_TYPE (r_info mi (reltab + i * entsize)) = R_ARM_JUMP_SLOT
          ∨ ELF32_R_TYPE (r_info mi (reltab + i * entsize)) = R_ARM_RELATIVE) →
      ∃ mn : Mem,
        _elf_relocate fuel m handle buf reltab entsize limit symtab syment = some (mn, handle)
        ∧ _elf_relocate_after buf entsize ((reltab + limit) % WORD) symtab syment
            ((limit + entsize - 1) / entsize) reltab m handle
          = some (reltab + (limit + entsize - 1) / entsize * entsize, mn, handle)
        ∧ _elf_relocate_after buf entsize ((reltab + limit) % WORD) symtab syment
            ((limit + entsize - 1) / entsize + 1) reltab m handle = none)
    ∧ (limit = 0 →
      _elf_relocate fuel m handle buf reltab entsize limit symtab syment = some (m, handle))
    ∧ sizeof_Elf32_Rel = 8
    ∧ (∀ (d : Elf_dynamic) (m0 : Mem) (handle0 : Elf_handle), d.reltab ≠ 0 → d.relent = 0 →
      elf_link_rel fuel buf d m0 handle0
        = some { mem := m0, handle := elf_set_error handle0 _elf_error_zero_sized_rel,
                 events := [] }) := by
  obtain ⟨hin, hge⟩ := ceil_div_places limit entsize hS
  have hend : (reltab + limit) % WORD = reltab + limit := Nat.mod_eq_of_lt (by omega)
  have hcount := _elf_relocate_loop_count buf entsize ((reltab + limit) % WORD) symtab syment
    ((limit + entsize - 1) / entsize) reltab fuel m handle hfit
    (fun i hi => by rw [hend]; have := hin i hi; omega)
    (by rw [hend]; omega) hfuel
  have hfirst : ∃ (k : Nat) (mk : Mem), k ≤ (limit + entsize - 1) / entsize
      ∧ (∀ i, i ≤ k → ∃ mi, _elf_relocate_after buf entsize ((reltab + limit) % WORD) symtab
          syment i reltab m handle = some (reltab + i * entsize, mi, handle))
      ∧ _elf_relocate_after buf entsize ((reltab + limit) % WORD) symtab syment k reltab m
          handle = some (reltab + k * entsize, mk, handle)
      ∧ ((k = (limit + entsize - 1) / entsize
          ∧ _elf_relocate fuel m handle buf reltab entsize limit symtab syment
            = some (mk, handle)
          ∧ _elf_relocate_after buf entsize ((reltab + limit) % WORD) symtab syment
              ((limit + entsize - 1) / entsize + 1) reltab m handle = none)
        ∨ (k < (limit + entsize - 1) / entsize
          ∧ ELF32_R_TYPE (r_info mk (reltab + k * entsize)) ≠ R_ARM_ABS32
          ∧ ELF32_R_TYPE (r_info mk (reltab + k * entsize)) ≠ R_ARM_JUMP_SLOT
          ∧ ELF32_R_TYPE (r_info mk (reltab + k * entsize)) ≠ R_ARM_RELATIVE
          ∧ _elf_relocate fuel m handle buf reltab entsize limit symtab syment
            = some (mk, elf_set_error handle _elf_error_unimplemented_relocation))) := by
    obtain ⟨k, mk, hk, hall, hafter, hcase⟩ := hcount
    refine ⟨k, mk, hk, hall, hafter, ?_⟩
    rcases hcase with ⟨e1, e2, e3⟩ | ⟨e1, e2, e3⟩
    · exact Or.inl ⟨e1, e2, e3⟩
    · obtain ⟨t1, t2, t3⟩ := _elf_relocate_entry_ret_type _ _ _ _ _ _ _ e2
      exact Or.inr ⟨e1, t1, t2, t3, e3⟩
  refine ⟨hfirst, ?_, ?_, rfl, ?_⟩
  · intro hsupp
    obtain ⟨k, mk, hk, hall, hafter, hcase⟩ := hfirst
    rcases hcase with ⟨e1, e2, e3⟩ | ⟨e1, t1, t2, t3, _⟩
    · subst e1
      exact ⟨mk, e2, hafter, e3⟩
    · rcases hsupp k mk e1 hafter with h | h | h
      · exact absurd h t1
      · exact absurd h t2
      · exact absurd h t3
  · intro hzero
    subst hzero
    obtain ⟨f, rfl⟩ : ∃ f, fuel = f + 1 := ⟨fuel - 1, by omega⟩
    have hlt : reltab < WORD := by omega
    unfold _elf_relocate
    dsimp only
    rw [Nat.add_zero, Nat.mod_eq_of_lt hlt, _elf_relocate_loop, if_neg (Nat.lt_irrefl _)]
  · intro d m0 handle0 hrel hz
    unfold elf_link_rel
    rw [if_pos hrel, if_pos (Or.inr hz)]

/-- The function `_elf_relocate` on the rel table of the full image (16 bytes, stride
8) in the memory the first loop of `elf_link` leaves, image at 0x1000 and buffer at
0x8000: no error is latched and both words of the init array are relocated. -/
theorem full_image_relocate :
    (_elf_relocate 100 (elf_link_loaded (goodMem fullDyn) goodHandle 0x8000) goodHandle
        0x8000 (0x1000 + 344) 8 16 (0x8000 + 296) 16).map
        (fun s => (s.2.flags &&& _ELF_ERROR, read32 s.1 (0x8000 + 360),
          read32 s.1 (0x8000 + 364)))
      = some (0, 0x8010, 0x8020) := by
  decide!

/-- Claim C24 on the rel table of the full image (16 bytes, stride 8, so 2 entries)
and on its jmprel table walked with length 0, in the memory the first loop of
`elf_link` leaves, image at 0x1000 and buffer at 0x8000. -/
theorem relocation_walk_count_witness :
    (16 + 8 - 1) / 8 = 2
    ∧ (∃ mk : Mem,
        _elf_relocate 100 (elf_link_loaded (goodMem fullDyn) goodHandle 0x8000) goodHandle
          0x8000 (0x1000 + 344) 8 16 (0x8000 + 296) 16 = some (mk, goodHandle)
        ∧ _elf_relocate_after 0x8000 8 ((0x1000 + 344 + 16) % WORD) (0x8000 + 296) 16 2
            (0x1000 + 344) (elf_link_loaded (goodMem fullDyn) goodHandle 0x8000) goodHandle
          = some (0x1000 + 344 + 2 * 8, mk, goodHandle)
        ∧ _elf_relocate_after 0x8000 8 ((0x1000 + 344 + 16) % WORD) (0x8000 + 296) 16 (2 + 1)
            (0x1000 + 344) (elf_link_loaded (goodMem fullDyn) goodHandle 0x8000) goodHandle
          = none)
    ∧ _elf_relocate 100 (elf_link_loaded (goodMem fullDyn) goodHandle 0x8000) goodHandle
        0x8000 (0x1000 + 376) 8 0 (0x8000 + 296) 16
      = some (elf_link_loaded (goodMem fullDyn) goodHandle 0x8000, goodHandle) := by
  refine ⟨by decide, ?_, ?_⟩
  · obtain ⟨k, mk, _, _, hafter, hcase⟩ := (relocation_walk_count 100
      (elf_link_loaded (goodMem fullDyn) goodHandle 0x8000) goodHandle 0x8000 (0x1000 + 344)
      8 16 (0x8000 + 296) 16 (by decide) (by decide) (by decide)).1
    rcases hcase with ⟨e1, e2, e3⟩ | ⟨_, _, _, _, e⟩
    · subst e1
      exact ⟨mk, e2, hafter, e3⟩
    · have hv := full_image_relocate
      rw [e] at hv
      simp only [Option.map_some', Option.some.injEq, Prod.mk.injEq] at hv
      exact absurd hv.1 (elf_set_error_latched goodHandle _)
  · exact (relocation_walk_count 100 (elf_link_loaded (goodMem fullDyn) goodHandle 0x8000)
      goodHandle 0x8000 (0x1000 + 376) 8 0 (0x8000 + 296) 16 (by decide) (by decide)
      (by decide)).2.2.1 rfl

/-- Claim C24 fails as stated: a table that is the last 8 bytes of the address space
(`reltab` 0xFFFFFFF8, `L` 8, stride 8, so ceil(L / S) = 1), its one entry of type 23.
The end of the table, `reltab + L`, wraps to 0, the loop test `reltab < tableEnd` fails
at once, and `_elf_relocate` returns without processing the entry: no turn is taken and
the word at 0x8100 keeps 0x40. -/
theorem relocation_walk_wraps :
    (8 + 8 - 1) / 8 = 1
    ∧ ELF32_R_TYPE (r_info topTableMem 0xFFFFFFF8) = R_ARM_RELATIVE
    ∧ r_offset topTableMem 0xFFFFFFF8 = 0x100
    ∧ (_elf_relocate_after 0x8000 8 ((0xFFFFFFF8 + 8) % WORD) 0 16 1 0xFFFFFFF8 topTableMem
        goodHandle).isSome = false
    ∧ (_elf_relocate 100 topTableMem goodHandle 0x8000 0xFFFFFFF8 8 8 0 16).map
        (fun s => (read32 s.1 0x8100, s.2.flags &&& _ELF_ERROR)) = some (0x40, 0) := by
  refine ⟨by decide, by decide!, by decide!, by decide!, by decide!⟩

end ElfLoader
